import Mathlib

/-!
cleta: a verification development of the metadata request pipeline

A shallow embedding of the Go sources of `amari/cleta` (module
`github.com/amari/cloud-metadata-server`):

* `pkg/metadataserver/server.go`   : `HTTPServer.ServeHTTP` (the dispatcher)
* `pkg/metadataserver/router.go`   : `Router.Match`, `NewRouter`
* `pkg/metadataserver/digitalocean/v1.go` : `EndpointV1` and its route handlers
* `internal/pkg/arp/watcher.go`    : `Watcher`
* `pkg/models/...`                 : the droplet data model

Conventions of the embedding.

* A Go `[]byte` is a `List Nat` of octets; fixed-width integers are `Nat`/`Int`
  with explicit reduction modulo `2^w` where the Go code can overflow.
* A Go pointer that may be `nil` is an `Option`; dereferencing `none` is a
  run-time fault, made explicit as `Outcome.panicked`.
* A Go `map[string]T` is an association list read with `List.lookup`.
* The effects of serving one request (status line, body, standard output and
  the calls made to collaborators) are threaded explicitly through an
  `Exchange` value.
* Structured logging (`zap`) has no effect on any of these and is left out, and
  so are response headers other than the status line.
* Libraries outside the repository (`net`, `strconv`, `encoding/base64`,
  `net/http`, `gorilla/mux`) are modelled by what their documentation and
  sources say of the calls the repository makes; the serializers and the
  parsing of the remote address are parameters.
* `int` is 64 bits wide (the supported targets are 64-bit Linux and Darwin).
-/

namespace Cleta

/-! ## Observable effects of one request -/

/-- Calls to collaborators made while a request is served, in program order. -/
inductive Event where
  /-- `Watcher.GetHardwareAddrForIP4` was called with this key. -/
  | lookup (ip : String)
  /-- `Watcher.ForcePoll` was called. -/
  | forcePoll
  /-- `Store.ListSupportedTypeURIs` was called for this canonical address. -/
  | listTypeURIs (addr : String)
  /-- `Store.GetDocument` was called for this canonical address and schema. -/
  | getDocument (addr : String) (typeURI : String)
  /-- `Router.Match` was called for this schema URI. -/
  | routerMatch (typeURI : String)
  /-- The `ServeHTTP` method of the endpoint registered for this schema URI was invoked. -/
  | serve (typeURI : String)
  /-- The named route handler of the schema endpoint was invoked. -/
  | handler (name : String)
deriving DecidableEq, Repr

/-- The `http.ResponseWriter` of a request together with the process-level
effects a handler can have: `status` is `none` until the header has been
written, `body` is what has been written to the response, `stdout` what has
been printed to standard output, `trace` the collaborator calls so far. -/
structure Exchange where
  status : Option Nat
  body : String
  stdout : List String
  trace : List Event
deriving DecidableEq, Repr

/-- A fresh exchange: nothing written, nothing called. -/
def Exchange.fresh : Exchange :=
  { status := none, body := "", stdout := [], trace := [] }

/-- `w.WriteHeader(code)`: the first call fixes the status, later calls are ignored. -/
def Exchange.WriteHeader (w : Exchange) (code : Nat) : Exchange :=
  match w.status with
  | some _ => w
  | none => { w with status := some code }

/-- `w.Write(s)`: writes the header with status 200 when none was written yet,
then appends to the body. -/
def Exchange.Write (w : Exchange) (s : String) : Exchange :=
  { w with status := some (w.status.getD 200), body := w.body ++ s }

/-- `fmt.Fprint(w, s)`. -/
def Fprint (w : Exchange) (s : String) : Exchange := w.Write s

/-- `fmt.Fprintln(w, s)`. -/
def Fprintln (w : Exchange) (s : String) : Exchange := w.Write (s ++ "\n")

/-- `fmt.Println(w, s)`: prints its operands to standard output. The response
writer is the first operand, not the destination; the line printed is the
default formatting of the writer followed by `s`, of which the model records `s`. -/
def Println (w : Exchange) (s : String) : Exchange :=
  { w with stdout := w.stdout ++ [s] }

/-- `http.Error(w, msg, code)`. -/
def httpError (w : Exchange) (msg : String) (code : Nat) : Exchange :=
  Fprintln (w.WriteHeader code) msg

/-- Appends a collaborator call to the trace. -/
def Exchange.record (w : Exchange) (e : Event) : Exchange :=
  { w with trace := w.trace ++ [e] }

/-- Appends a sequence of collaborator calls to the trace. -/
def Exchange.recordAll (w : Exchange) (es : List Event) : Exchange :=
  es.foldl Exchange.record w

/-- How a handler ends: it returns, or it faults (a Go run-time panic, which
`net/http` recovers by aborting the connection: no response is completed), or
it never returns, blocked in a call that does not return: no response is
completed either. -/
inductive Outcome where
  | returned (w : Exchange)
  | panicked (w : Exchange) (reason : String)
  | blocked (w : Exchange)
deriving DecidableEq, Repr

/-- The effects accumulated when the handler ended, or stopped for good. -/
def Outcome.exchange : Outcome → Exchange
  | .returned w => w
  | .panicked w _ => w
  | .blocked w => w

/-- The status code the client receives: the one written, 200 when the handler
returned without writing one, none when the handler faulted or never returned. -/
def Outcome.statusCode : Outcome → Option Nat
  | .returned w => some (w.status.getD 200)
  | .panicked _ _ => none
  | .blocked _ => none

/-- The response body written by the handler. -/
def Outcome.body (o : Outcome) : String := o.exchange.body

/-- Whether the handler ended by a run-time fault. -/
def Outcome.faulted : Outcome → Bool
  | .returned _ => false
  | .panicked _ _ => true
  | .blocked _ => false

/-- An inbound request as far as the pipeline reads it: `r.RemoteAddr`,
`r.Method`, `r.URL.Path`, and the value of the header
`X-Remote-Data-Link-Addr` (the empty string when the header is not set). -/
structure Request where
  RemoteAddr : String
  Method : String
  Path : String
  RemoteDataLinkAddr : String
deriving DecidableEq, Repr

/-! ## `strconv` -/

/-- The two errors of `strconv.ParseUint` / `strconv.ParseInt`. -/
inductive NumError where
  | ErrSyntax
  | ErrRange
deriving DecidableEq, Repr

/-- Cutoff of `strconv.ParseUint` in base 10: the smallest `n` with `n * 10 > 2^64 - 1`. -/
def parseUintCutoff : Nat := (2 ^ 64 - 1) / 10 + 1

/-- The digit loop of `strconv.ParseUint(s, 10, bitSize)` with `maxVal = 2^bitSize - 1`;
`n` is the `uint64` accumulator. -/
def parseUintLoop (maxVal : Nat) : List Char → Nat → Except NumError Nat
  | [], n => .ok n
  | c :: cs, n =>
    if '0' ≤ c ∧ c ≤ '9' then
      let d := c.toNat - '0'.toNat
      if n ≥ parseUintCutoff then .error .ErrRange
      else
        let n10 := (n * 10) % 2 ^ 64
        let n1 := (n10 + d) % 2 ^ 64
        if n1 < n10 ∨ n1 > maxVal then .error .ErrRange
        else parseUintLoop maxVal cs n1
    else .error .ErrSyntax

/-- `strconv.ParseUint(s, 10, bitSize)`. -/
def ParseUint (s : String) (bitSize : Nat) : Except NumError Nat :=
  if s.toList = [] then .error .ErrSyntax
  else parseUintLoop (2 ^ bitSize - 1) s.toList 0

/-- `strconv.ParseInt(s, 10, bitSize)`. -/
def ParseInt (s : String) (bitSize : Nat) : Except NumError Int :=
  match s.toList with
  | [] => .error .ErrSyntax
  | c :: cs =>
    let neg := c = '-'
    let rest := if c = '+' ∨ c = '-' then cs else c :: cs
    let un : Except NumError Nat :=
      if rest = [] then .error .ErrSyntax else parseUintLoop (2 ^ bitSize - 1) rest 0
    match un with
    | .error .ErrSyntax => .error .ErrSyntax
    | .error .ErrRange => .error .ErrRange
    | .ok un =>
      let cutoff := 2 ^ (bitSize - 1)
      if ¬ neg ∧ un ≥ cutoff then .error .ErrRange
      else if neg ∧ un > cutoff then .error .ErrRange
      else .ok (if neg then - (un : Int) else (un : Int))

/-- The conversion `int(x)` of a `uint64` on a 64-bit target. -/
def uint64ToInt (x : Nat) : Int :=
  if x % 2 ^ 64 < 2 ^ 63 then ((x % 2 ^ 64 : Nat) : Int) else ((x % 2 ^ 64 : Nat) : Int) - 2 ^ 64

/-- The index expression `xs[i]` with an `int` index: `none` stands for the
run-time fault "index out of range". -/
def goIndex {α : Type} (xs : List α) (i : Int) : Option α :=
  if i < 0 then none else xs.get? i.toNat

/-! ## `net`: textual forms of addresses -/

/-- The lower-case hexadecimal digit of a value below 16. -/
def hexDigit (n : Nat) : Char :=
  "0123456789abcdef".toList.getD n '?'

/-- Two hexadecimal digits of one octet, high nibble first. -/
def hexByte (b : Nat) : List Char :=
  [hexDigit (b / 16 % 16), hexDigit (b % 16)]

/-- `net.HardwareAddr.String`: the octets in two-digit lower-case hexadecimal,
separated by colons; the empty string for an empty address. -/
def HardwareAddrString : List Nat → List Char
  | [] => []
  | [b] => hexByte b
  | b :: bs => hexByte b ++ ':' :: HardwareAddrString bs

/-- `net.IP.To4`: the four octets of an IPv4 address held in 4 or in 16 octets. -/
def To4 (ip : List Nat) : Option (List Nat) :=
  if ip.length = 4 then some ip
  else if ip.length = 16 ∧ ip.take 10 = List.replicate 10 0 ∧ ip.get? 10 = some 255
      ∧ ip.get? 11 = some 255 then some (ip.drop 12)
  else none

/-- The 16-bit groups of a 16-octet address. -/
def groups16 : List Nat → List Nat
  | hi :: lo :: rest => (hi * 256 + lo) :: groups16 rest
  | _ => []

/-- Hexadecimal digits of a number, most significant first, none for zero. -/
def hexDigitsAux : Nat → Nat → List Char
  | 0, _ => []
  | fuel + 1, n => if n = 0 then [] else hexDigitsAux fuel (n / 16) ++ [hexDigit (n % 16)]

/-- `appendHex` of package `net`: hexadecimal without leading zeros, `0` for zero. -/
def appendHex (n : Nat) : List Char :=
  if n = 0 then ['0'] else hexDigitsAux 8 n

/-- Length of the run of zero groups at the head of a list. -/
def zeroRun : List Nat → Nat
  | 0 :: rest => zeroRun rest + 1
  | _ => 0

/-- The first longest run of zero groups as `(start, length)`, scanning from
position `i`; `best` is the longest run found so far. -/
def longestZeroRun : List Nat → Nat → Nat × Nat → Nat × Nat
  | [], _, best => best
  | g :: rest, i, best =>
    let n := zeroRun (g :: rest)
    longestZeroRun rest (i + 1) (if n > best.2 then (i, n) else best)

/-- The groups of an IPv6 address from position `i` on, with `skip` groups
still to pass over; the run of `len` zero groups at `e0` is replaced by a
double colon, after which the next group follows without a separator. -/
def ipv6Groups (e0 len : Nat) : List Nat → Nat → Nat → List Char
  | [], _, _ => []
  | g :: rest, i, skip =>
    if skip > 0 then ipv6Groups e0 len rest (i + 1) (skip - 1)
    else if len ≠ 0 ∧ i = e0 then ':' :: ':' :: ipv6Groups e0 len rest (i + 1) (len - 1)
    else
      (if i > 0 ∧ ¬ (len ≠ 0 ∧ i = e0 + len) then [':'] else [])
        ++ appendHex g ++ ipv6Groups e0 len rest (i + 1) 0

/-- `net.IP.String`: dotted decimal for an IPv4 address, the shortened colon
form for any other 16-octet address, `<nil>` for the empty address and `?`
followed by the hexadecimal octets for any other length. -/
def IPString (ip : List Nat) : String :=
  if ip.length = 0 then "<nil>"
  else match To4 ip with
    | some [a, b, c, d] => toString a ++ "." ++ toString b ++ "." ++ toString c ++ "." ++ toString d
    | _ =>
      if ip.length ≠ 16 then String.mk ('?' :: (ip.map hexByte).flatten)
      else
        let gs := groups16 ip
        let run := longestZeroRun gs 0 (0, 0)
        let run := if run.2 ≤ 1 then (0, 0) else run
        String.mk (ipv6Groups run.1 run.2 gs 0 0)

/-- `net.JoinHostPort`: a host that contains a colon, as a literal IPv6 address
does, is put in brackets. -/
def JoinHostPort (host port : String) : String :=
  if host.toList.any (fun c => c = ':') then "[" ++ host ++ "]:" ++ port
  else host ++ ":" ++ port

/-! ## `pkg/models`: hardware addresses and the droplet payload -/

/-- `MACAddr.HumanReadableString`. -/
def HumanReadableString (m : List Nat) : String :=
  String.mk (HardwareAddrString m)

/-- Type `IPv4Addr`: an IPv4 block of an interface. -/
structure IPv4Addr where
  Address : List Nat
  Netmask : List Nat
  Gateway : List Nat
deriving DecidableEq, Repr

/-- Type `IPv6Addr`: an IPv6 block of an interface; `Cidr` is a `uint8`. -/
structure IPv6Addr where
  Address : List Nat
  Cidr : Nat
  Gateway : List Nat
deriving DecidableEq, Repr

/-- Type `PublicNetworkInterface`. -/
structure PublicNetworkInterface where
  Mac : List Nat
  Ipv4 : Option IPv4Addr
  Ipv6 : Option IPv6Addr
  AnchorIpv4 : Option IPv4Addr
deriving DecidableEq, Repr

/-- Type `PrivateNetworkInterface`. -/
structure PrivateNetworkInterface where
  Mac : List Nat
  Ipv4 : Option IPv4Addr
  Ipv6 : Option IPv6Addr
deriving DecidableEq, Repr

/-- Type `NetworkInterfaces`. -/
structure NetworkInterfaces where
  PrivateInterfaces : List PrivateNetworkInterface
  PublicInterfaces : List PublicNetworkInterface
deriving DecidableEq, Repr

/-- Type `FloatingIpv4`. -/
structure FloatingIpv4 where
  Active : Bool
  IPAddress : List Nat
deriving DecidableEq, Repr

/-- Type `FloatingIp`. -/
structure FloatingIp where
  Ipv4 : FloatingIpv4
deriving DecidableEq, Repr

/-- Type `Nameserver`; `Port` is a `uint16`. -/
structure Nameserver where
  Host : String
  Port : Nat
deriving DecidableEq, Repr

/-- `Nameserver.String`. -/
def Nameserver.String (n : Nameserver) : String :=
  if n.Port = 0 ∨ n.Port = 53 then n.Host
  else JoinHostPort n.Host (toString n.Port)

/-- Type `DNS`. -/
structure DNS where
  Nameservers : List Nameserver
deriving DecidableEq, Repr

/-- Type `Features`. -/
structure Features where
  DhcpEnabled : Bool
deriving DecidableEq, Repr

/-- Type `Droplet`, the payload of schema `digitalocean.com/v1`; `ID` is a `uint64`. -/
structure Droplet where
  ID : Nat
  Hostname : String
  UserData : String
  VendorData : String
  PublicKeys : List String
  Region : String
  NetworkInterfaces : NetworkInterfaces
  FloatingIP : Option FloatingIp
  DNS : Option DNS
  Tags : List String
  Features : Features
deriving DecidableEq, Repr

/-- The constant `TypeURI` of the droplet model, re-exported as `TypeURIV1`. -/
def TypeURIV1 : String := "digitalocean.com/v1"

/-- The interface value `document.Metadata`. Its only implementation is
`*Droplet`; `nil` is the nil interface value, for which the type assertion
`d.Contents.(*digitalocean.Droplet)` fails. -/
inductive Metadata where
  | droplet (d : Droplet)
  | nil
deriving DecidableEq, Repr

/-- Type `document.Document`. -/
structure Document where
  Kind : String
  Contents : Metadata
deriving DecidableEq, Repr

/-! ## `pkg/store`: the store interface -/

/-- The interface `store.Store` as the request pipeline uses it; an error is
carried as its message. -/
structure Store where
  ListSupportedTypeURIs : String → Except String (List String)
  GetDocument : String → String → Except String Document

/-! ## `pkg/metadataserver/digitalocean/v1.go`: the route handlers -/

/-- The route variables `mux.Vars(r)`. -/
abbrev Vars := List (String × String)

/-- The map read `v[name]`: the empty string when the variable is not set. -/
def Vars.get (v : Vars) (name : String) : String :=
  (v.lookup name).getD ""

/-- The serializers the endpoint calls, which are external libraries:
`json.NewEncoder(w).Encode` and `yaml.NewEncoder(w).Encode`, each giving the
text written to the response or an error. -/
structure Codecs where
  json : Metadata → Except String String
  yaml : Metadata → Except String String

/-- `movedPermanentlyHandlerV1`. -/
def movedPermanentlyHandlerV1 (w : Exchange) : Exchange :=
  Fprint (w.WriteHeader 404) "Moved Permanently."

/-- `notFoundHandlerV1`: writes `http.StatusMovedPermanently`, then `not found`. -/
def notFoundHandlerV1 (w : Exchange) : Exchange :=
  Fprint (w.WriteHeader 301) "not found"

/-- The preamble shared by the route handlers: `e.store.GetDocument` for the
address in the request header and the droplet schema, then the type assertion
`d.Contents.(*digitalocean.Droplet)`. When either fails, `notFoundHandlerV1`
has been called and the handler returns. -/
def getDropletDocument (s : Store) (w : Exchange) (r : Request) : Exchange × Option Droplet :=
  let w := w.record (.getDocument r.RemoteDataLinkAddr TypeURIV1)
  match s.GetDocument r.RemoteDataLinkAddr TypeURIV1 with
  | .error _ => (notFoundHandlerV1 w, none)
  | .ok d =>
    match d.Contents with
    | .droplet droplet => (w, some droplet)
    | .nil => (notFoundHandlerV1 w, none)

/-- `fmt.Fprintln(w, x)` for every element of a list, in order. -/
def fprintlnAll (w : Exchange) (xs : List String) : Exchange :=
  xs.foldl Fprintln w

/-- `httpEndpointV1.getDropletAttr`. -/
def getDropletAttr (s : Store) (w : Exchange) (r : Request) (v : Vars) : Outcome :=
  match getDropletDocument s w r with
  | (w, none) => .returned w
  | (w, some droplet) =>
    let attr := v.get "attr"
    if attr = "id" then .returned (Fprint w (toString droplet.ID))
    else if attr = "hostname" then .returned (Fprint w droplet.Hostname)
    else if attr = "user-data" then .returned (Fprint w droplet.UserData)
    else if attr = "vendor-data" then .returned (Fprint w droplet.VendorData)
    else if attr = "public-keys" then .returned (fprintlnAll w droplet.PublicKeys)
    else .returned (notFoundHandlerV1 w)

/-- Writes a field of an optional IPv4 block: `notFoundHandlerV1` when the
block is nil. -/
def fprintIPv4 (w : Exchange) (block : Option IPv4Addr) (field : IPv4Addr → List Nat) : Outcome :=
  match block with
  | none => .returned (notFoundHandlerV1 w)
  | some b => .returned (Fprint w (IPString (field b)))

/-- The attribute switch of `getNetworkInterfaceAttr` for a public interface. -/
def publicInterfaceAttr (w : Exchange) (networkInterface : PublicNetworkInterface)
    (attr : String) : Outcome :=
  if attr = "mac" then .returned (Fprint w (HumanReadableString networkInterface.Mac))
  else if attr = "type" then .returned (Fprint w "public")
  else if attr = "ipv4/address" then fprintIPv4 w networkInterface.Ipv4 (·.Address)
  else if attr = "ipv4/netmask" then fprintIPv4 w networkInterface.Ipv4 (·.Netmask)
  else if attr = "ipv4/gateway" then fprintIPv4 w networkInterface.Ipv4 (·.Gateway)
  else if attr = "ipv6/address" then
    match networkInterface.Ipv6 with
    | none => .returned (notFoundHandlerV1 w)
    | some _ =>
      match networkInterface.Ipv4 with
      | none => .panicked w "invalid memory address or nil pointer dereference"
      | some ipv4 => .returned (Fprint w (IPString ipv4.Address))
  else if attr = "ipv6/cidr" then
    match networkInterface.Ipv6 with
    | none => .returned (notFoundHandlerV1 w)
    | some ipv6 => .returned (Fprint w (toString (ipv6.Cidr % 2 ^ 8)))
  else if attr = "ipv6/gateway" then
    match networkInterface.Ipv6 with
    | none => .returned (notFoundHandlerV1 w)
    | some ipv6 => .returned (Fprint w (IPString ipv6.Gateway))
  else if attr = "anchor_ipv4/address" then fprintIPv4 w networkInterface.AnchorIpv4 (·.Address)
  else if attr = "anchor_ipv4/netmask" then fprintIPv4 w networkInterface.AnchorIpv4 (·.Netmask)
  else if attr = "anchor_ipv4/gateway" then fprintIPv4 w networkInterface.AnchorIpv4 (·.Gateway)
  else .returned (notFoundHandlerV1 w)

/-- The attribute switch of `getNetworkInterfaceAttr` for a private interface. -/
def privateInterfaceAttr (w : Exchange) (networkInterface : PrivateNetworkInterface)
    (attr : String) : Outcome :=
  if attr = "mac" then .returned (Fprint w (HumanReadableString networkInterface.Mac))
  else if attr = "type" then .returned (Fprint w "private")
  else if attr = "ipv4/address" then fprintIPv4 w networkInterface.Ipv4 (·.Address)
  else if attr = "ipv4/netmask" then fprintIPv4 w networkInterface.Ipv4 (·.Netmask)
  else if attr = "ipv4/gateway" then fprintIPv4 w networkInterface.Ipv4 (·.Gateway)
  else if attr = "ipv6/address" then
    match networkInterface.Ipv6 with
    | none => .returned (notFoundHandlerV1 w)
    | some _ =>
      match networkInterface.Ipv4 with
      | none => .panicked w "invalid memory address or nil pointer dereference"
      | some ipv4 => .returned (Fprint w (IPString ipv4.Address))
  else if attr = "ipv6/cidr" then
    match networkInterface.Ipv6 with
    | none => .returned (notFoundHandlerV1 w)
    | some ipv6 => .returned (Fprint w (toString (ipv6.Cidr % 2 ^ 8)))
  else if attr = "ipv6/gateway" then
    match networkInterface.Ipv6 with
    | none => .returned (notFoundHandlerV1 w)
    | some ipv6 => .returned (Fprint w (IPString ipv6.Gateway))
  else .returned (notFoundHandlerV1 w)

/-- `httpEndpointV1.getNetworkInterfaceAttr`. -/
def getNetworkInterfaceAttr (s : Store) (w : Exchange) (r : Request) (v : Vars) : Outcome :=
  match getDropletDocument s w r with
  | (w, none) => .returned w
  | (w, some droplet) =>
    if v.get "type" = "public" then
      match ParseInt (v.get "id") 32 with
      | .error _ => .returned (notFoundHandlerV1 w)
      | .ok interfaceID =>
        if interfaceID ≥ (droplet.NetworkInterfaces.PublicInterfaces.length : Int) then
          .returned (notFoundHandlerV1 w)
        else
          match goIndex droplet.NetworkInterfaces.PublicInterfaces interfaceID with
          | none => .panicked w "index out of range"
          | some networkInterface => publicInterfaceAttr w networkInterface (v.get "attr")
    else if v.get "type" = "private" then
      match ParseInt (v.get "id") 32 with
      | .error _ => .returned (notFoundHandlerV1 w)
      | .ok interfaceID =>
        if interfaceID ≥ (droplet.NetworkInterfaces.PrivateInterfaces.length : Int) then
          .returned (notFoundHandlerV1 w)
        else
          match goIndex droplet.NetworkInterfaces.PrivateInterfaces interfaceID with
          | none => .panicked w "index out of range"
          | some networkInterface => privateInterfaceAttr w networkInterface (v.get "attr")
    else .returned (notFoundHandlerV1 w)

/-- `httpEndpointV1.getFloatingIPAttr`. -/
def getFloatingIPAttr (s : Store) (w : Exchange) (r : Request) (v : Vars) : Outcome :=
  match getDropletDocument s w r with
  | (w, none) => .returned w
  | (w, some droplet) =>
    match droplet.FloatingIP with
    | none => .returned (notFoundHandlerV1 w)
    | some floatingIP =>
      let attr := v.get "attr"
      if attr = "ipv4/active" then
        if floatingIP.Ipv4.Active then .returned (Fprint w "true")
        else .returned (Fprint w "false")
      else if attr = "ipv4/address" then
        if floatingIP.Ipv4.Active then .returned (Fprint w (IPString floatingIP.Ipv4.IPAddress))
        else .returned (notFoundHandlerV1 w)
      else .returned (notFoundHandlerV1 w)

/-- `httpEndpointV1.getDNSAttr`. -/
def getDNSAttr (s : Store) (w : Exchange) (r : Request) (v : Vars) : Outcome :=
  match getDropletDocument s w r with
  | (w, none) => .returned w
  | (w, some droplet) =>
    match droplet.DNS with
    | none => .returned (notFoundHandlerV1 w)
    | some dns =>
      if v.get "attr" = "nameservers" then
        .returned (fprintlnAll w (dns.Nameservers.map Nameserver.String))
      else .returned (notFoundHandlerV1 w)

/-- `httpEndpointV1.getFeaturesAttr`. -/
def getFeaturesAttr (s : Store) (w : Exchange) (r : Request) (v : Vars) : Outcome :=
  match getDropletDocument s w r with
  | (w, none) => .returned w
  | (w, some droplet) =>
    if v.get "attr" = "dhcp_enabled" then
      if droplet.Features.DhcpEnabled then .returned (Fprint w "true")
      else .returned (Fprint w "false")
    else .returned (notFoundHandlerV1 w)

/-- `httpEndpointV1.getIndex`: every line goes through `fmt.Println`. -/
def getIndex (s : Store) (w : Exchange) (r : Request) (_v : Vars) : Outcome :=
  match getDropletDocument s w r with
  | (w, none) => .returned w
  | (w, some droplet) =>
    let w := Println w "hostname"
    let w := Println w "user-data"
    let w := Println w "vendor-data"
    let w := Println w "public-keys"
    let w := Println w "region"
    let w :=
      if droplet.NetworkInterfaces.PrivateInterfaces.length > 0
          ∨ droplet.NetworkInterfaces.PublicInterfaces.length > 0 then
        Println w "interfaces/"
      else w
    let w := Println w "dns/"
    let w := if droplet.FloatingIP.isSome then Println w "floating_ip/" else w
    let w := Println w "tags/"
    let w := Println w "features/"
    .returned w

/-- `httpEndpointV1.getInterfaceIndex`. -/
def getInterfaceIndex (s : Store) (w : Exchange) (r : Request) (_v : Vars) : Outcome :=
  match getDropletDocument s w r with
  | (w, none) => .returned w
  | (w, some droplet) =>
    let w :=
      if droplet.NetworkInterfaces.PublicInterfaces.length > 0 then Fprintln w "public/" else w
    let w :=
      if droplet.NetworkInterfaces.PrivateInterfaces.length > 0 then Fprintln w "private/" else w
    .returned w

/-- The loop `for i := range xs { fmt.Fprintf(w, "%v/\n", i) }` over `n` positions. -/
def fprintIndices (w : Exchange) (n : Nat) : Exchange :=
  (List.range n).foldl (fun w i => Fprint w (toString i ++ "/\n")) w

/-- `httpEndpointV1.getInterfaceTypeIndex`. -/
def getInterfaceTypeIndex (s : Store) (w : Exchange) (r : Request) (v : Vars) : Outcome :=
  match getDropletDocument s w r with
  | (w, none) => .returned w
  | (w, some droplet) =>
    if v.get "type" = "public" then
      .returned (fprintIndices w droplet.NetworkInterfaces.PublicInterfaces.length)
    else if v.get "type" = "private" then
      .returned (fprintIndices w droplet.NetworkInterfaces.PrivateInterfaces.length)
    else .returned (notFoundHandlerV1 w)

/-- `httpEndpointV1.getEnumeratedInterfaceIndex`. The three index expressions of
a branch use the same index, so the first one decides whether the branch faults. -/
def getEnumeratedInterfaceIndex (s : Store) (w : Exchange) (r : Request) (v : Vars) : Outcome :=
  match getDropletDocument s w r with
  | (w, none) => .returned w
  | (w, some droplet) =>
    match ParseUint (v.get "id") 64 with
    | .error _ => .returned (notFoundHandlerV1 w)
    | .ok networkInterfaceID =>
      if v.get "type" = "public" then
        if uint64ToInt networkInterfaceID
            > (droplet.NetworkInterfaces.PublicInterfaces.length : Int) then
          .returned (notFoundHandlerV1 w)
        else
          let w := Fprintln w "mac"
          let w := Fprintln w "type"
          match goIndex droplet.NetworkInterfaces.PublicInterfaces
              (uint64ToInt networkInterfaceID) with
          | none => .panicked w "index out of range"
          | some networkInterface =>
            let w := if networkInterface.Ipv4.isSome then Fprintln w "ipv4/" else w
            let w := if networkInterface.Ipv6.isSome then Fprintln w "ipv6/" else w
            let w := if networkInterface.AnchorIpv4.isSome then Fprintln w "anchor_ipv4/" else w
            .returned w
      else if v.get "type" = "private" then
        if uint64ToInt networkInterfaceID
            > (droplet.NetworkInterfaces.PrivateInterfaces.length : Int) then
          .returned (notFoundHandlerV1 w)
        else
          let w := Fprintln w "mac"
          let w := Fprintln w "type"
          match goIndex droplet.NetworkInterfaces.PrivateInterfaces
              (uint64ToInt networkInterfaceID) with
          | none => .panicked w "index out of range"
          | some networkInterface =>
            let w := if networkInterface.Ipv4.isSome then Fprintln w "ipv4/" else w
            let w := if networkInterface.Ipv6.isSome then Fprintln w "ipv6/" else w
            .returned w
      else .returned (notFoundHandlerV1 w)

/-- The three lines every address-block listing writes. -/
def fprintBlockListing (w : Exchange) : Exchange :=
  Fprintln (Fprintln (Fprintln w "address") "netmask") "gateway"

/-- `httpEndpointV1.getInterfaceIPv4Index`. -/
def getInterfaceIPv4Index (s : Store) (w : Exchange) (r : Request) (v : Vars) : Outcome :=
  match getDropletDocument s w r with
  | (w, none) => .returned w
  | (w, some droplet) =>
    match ParseUint (v.get "id") 64 with
    | .error _ => .returned (notFoundHandlerV1 w)
    | .ok networkInterfaceID =>
      if v.get "type" = "public" then
        if uint64ToInt networkInterfaceID
            > (droplet.NetworkInterfaces.PublicInterfaces.length : Int) then
          .returned (notFoundHandlerV1 w)
        else
          match goIndex droplet.NetworkInterfaces.PublicInterfaces
              (uint64ToInt networkInterfaceID) with
          | none => .panicked w "index out of range"
          | some networkInterface =>
            match networkInterface.Ipv4 with
            | none => .returned (notFoundHandlerV1 w)
            | some _ => .returned (fprintBlockListing w)
      else if v.get "type" = "private" then
        if uint64ToInt networkInterfaceID
            > (droplet.NetworkInterfaces.PrivateInterfaces.length : Int) then
          .returned (notFoundHandlerV1 w)
        else
          match goIndex droplet.NetworkInterfaces.PrivateInterfaces
              (uint64ToInt networkInterfaceID) with
          | none => .panicked w "index out of range"
          | some networkInterface =>
            match networkInterface.Ipv4 with
            | none => .returned (notFoundHandlerV1 w)
            | some _ => .returned (fprintBlockListing w)
      else .returned (notFoundHandlerV1 w)

/-- `httpEndpointV1.getInterfaceIPv6Index`. -/
def getInterfaceIPv6Index (s : Store) (w : Exchange) (r : Request) (v : Vars) : Outcome :=
  match getDropletDocument s w r with
  | (w, none) => .returned w
  | (w, some droplet) =>
    match ParseUint (v.get "id") 64 with
    | .error _ => .returned (notFoundHandlerV1 w)
    | .ok networkInterfaceID =>
      if v.get "type" = "public" then
        if uint64ToInt networkInterfaceID
            > (droplet.NetworkInterfaces.PublicInterfaces.length : Int) then
          .returned (notFoundHandlerV1 w)
        else
          match goIndex droplet.NetworkInterfaces.PublicInterfaces
              (uint64ToInt networkInterfaceID) with
          | none => .panicked w "index out of range"
          | some networkInterface =>
            match networkInterface.Ipv6 with
            | none => .returned (notFoundHandlerV1 w)
            | some _ => .returned (fprintBlockListing w)
      else if v.get "type" = "private" then
        if uint64ToInt networkInterfaceID
            > (droplet.NetworkInterfaces.PrivateInterfaces.length : Int) then
          .returned (notFoundHandlerV1 w)
        else
          match goIndex droplet.NetworkInterfaces.PrivateInterfaces
              (uint64ToInt networkInterfaceID) with
          | none => .panicked w "index out of range"
          | some networkInterface =>
            match networkInterface.Ipv6 with
            | none => .returned (notFoundHandlerV1 w)
            | some _ => .returned (fprintBlockListing w)
      else .returned (notFoundHandlerV1 w)

/-- `httpEndpointV1.getInterfaceAnchorIPv4Index`. -/
def getInterfaceAnchorIPv4Index (s : Store) (w : Exchange) (r : Request) (v : Vars) : Outcome :=
  match getDropletDocument s w r with
  | (w, none) => .returned w
  | (w, some droplet) =>
    match ParseUint (v.get "id") 64 with
    | .error _ => .returned (notFoundHandlerV1 w)
    | .ok networkInterfaceID =>
      if v.get "type" = "public" then
        if uint64ToInt networkInterfaceID
            > (droplet.NetworkInterfaces.PublicInterfaces.length : Int) then
          .returned (notFoundHandlerV1 w)
        else
          match goIndex droplet.NetworkInterfaces.PublicInterfaces
              (uint64ToInt networkInterfaceID) with
          | none => .panicked w "index out of range"
          | some networkInterface =>
            match networkInterface.AnchorIpv4 with
            | none => .returned (notFoundHandlerV1 w)
            | some _ => .returned (fprintBlockListing w)
      else .returned (notFoundHandlerV1 w)

/-- `httpEndpointV1.getFloatingIPIndex`. -/
def getFloatingIPIndex (s : Store) (w : Exchange) (r : Request) (_v : Vars) : Outcome :=
  match getDropletDocument s w r with
  | (w, none) => .returned w
  | (w, some droplet) =>
    match droplet.FloatingIP with
    | none => .returned (notFoundHandlerV1 w)
    | some _ => .returned (Fprint w "ipv4/")

/-- `httpEndpointV1.getFloatingIPv4Index`. -/
def getFloatingIPv4Index (s : Store) (w : Exchange) (r : Request) (_v : Vars) : Outcome :=
  match getDropletDocument s w r with
  | (w, none) => .returned w
  | (w, some droplet) =>
    match droplet.FloatingIP with
    | none => .returned (notFoundHandlerV1 w)
    | some floatingIP =>
      let w := Fprint w "active"
      let w := if floatingIP.Ipv4.Active then Fprint w "ip_address" else w
      .returned w

/-- `httpEndpointV1.getDNSIndex`. -/
def getDNSIndex (s : Store) (w : Exchange) (r : Request) (_v : Vars) : Outcome :=
  match getDropletDocument s w r with
  | (w, none) => .returned w
  | (w, some _) => .returned (Fprint w "nameservers")

/-- `httpEndpointV1.getTagsIndex`. -/
def getTagsIndex (s : Store) (w : Exchange) (r : Request) (_v : Vars) : Outcome :=
  match getDropletDocument s w r with
  | (w, none) => .returned w
  | (w, some droplet) => .returned (fprintlnAll w droplet.Tags)

/-- `httpEndpointV1.getFeaturesIndex`. -/
def getFeaturesIndex (s : Store) (w : Exchange) (r : Request) (_v : Vars) : Outcome :=
  match getDropletDocument s w r with
  | (w, none) => .returned w
  | (w, some _) => .returned (Fprintln w "dhcp_enabled")

/-- `httpEndpointV1.getDroplet`: the whole payload through a serializer. The
handler makes no type assertion on the payload. -/
def getDroplet (c : Codecs) (s : Store) (w : Exchange) (r : Request) (v : Vars) : Outcome :=
  let w := w.record (.getDocument r.RemoteDataLinkAddr TypeURIV1)
  match s.GetDocument r.RemoteDataLinkAddr TypeURIV1 with
  | .error _ => .returned (notFoundHandlerV1 w)
  | .ok d =>
    if v.get "ext" = "json" then
      let w := w.WriteHeader 200
      match c.json d.Contents with
      | .ok text => .returned (w.Write text)
      | .error _ => .returned w
    else if v.get "ext" = "yaml" then
      let w := w.WriteHeader 200
      match c.yaml d.Contents with
      | .ok text => .returned (w.Write text)
      | .error _ => .returned w
    else .returned (notFoundHandlerV1 w)

/-! ## `gorilla/mux`: route templates and matching

The router is configured in `NewEndpointV1`. A route template is a sequence of
literal pieces and named variables with a pattern; `mux` anchors the compiled
pattern at both ends. The patterns used are alternations of literals, none of
which is a proper initial part of another, and `[0-9]+` followed by a slash,
so matching left to right without backtracking over a variable is exact.
The model applies to paths in clean form (no empty, `.` or `..` element);
`mux` redirects any other path before matching. -/

/-- One piece of a route template. -/
inductive Piece where
  /-- Literal text. -/
  | lit (text : String)
  /-- A variable whose pattern is an alternation of literals: `{name:(?:a|b)}`. -/
  | oneOf (name : String) (alts : List String)
  /-- A variable whose pattern is `[0-9]+`: `{name:[0-9]+}`. -/
  | digits (name : String)
deriving DecidableEq, Repr

/-- Removes a literal from the front of the input, when the input starts with it. -/
def dropLiteral : List Char → List Char → Option (List Char)
  | [], s => some s
  | _ :: _, [] => none
  | c :: cs, x :: xs => if c = x then dropLiteral cs xs else none

/-- Matches a template against the whole of the input; the variables are
collected in template order. -/
def matchPieces : List Piece → List Char → Vars → Option Vars
  | [], s, vars => if s = [] then some vars else none
  | .lit text :: ps, s, vars =>
    match dropLiteral text.toList s with
    | none => none
    | some rest => matchPieces ps rest vars
  | .oneOf name alts :: ps, s, vars =>
    alts.findSome? (fun alt =>
      match dropLiteral alt.toList s with
      | none => none
      | some rest => matchPieces ps rest (vars ++ [(name, alt)]))
  | .digits name :: ps, s, vars =>
    match s.span Char.isDigit with
    | ([], _) => none
    | (ds, rest) => matchPieces ps rest (vars ++ [(name, String.mk ds)])

/-- A registered route: its template, the methods it is restricted to (none
when the list is empty) and its handler under the name it has in the source. -/
structure Route where
  template : List Piece
  methods : List String
  name : String
  handler : Store → Exchange → Request → Vars → Outcome

/-- What `mux.Router.Match` finds for a request. -/
inductive RouteMatch where
  | found (route : Route) (vars : Vars)
  | methodMismatch
  | notFound

/-- `mux.Router.Match` over the routes in registration order: the first route
whose template and methods both match; a route whose template matches but whose
methods do not is remembered as a method mismatch. -/
def muxMatch : List Route → Request → Bool → RouteMatch
  | [], _, mismatch => if mismatch then .methodMismatch else .notFound
  | route :: routes, r, mismatch =>
    match matchPieces route.template r.Path.toList [] with
    | none => muxMatch routes r mismatch
    | some vars =>
      if route.methods = [] ∨ r.Method ∈ route.methods then .found route vars
      else muxMatch routes r true

/-- The routes registered by `NewEndpointV1`, in registration order. -/
def routesV1 (c : Codecs) : List Route :=
  [ { template := [.lit "/metadata/v1.", .oneOf "ext" ["json", "yaml"]],
      methods := ["GET"], name := "getDroplet", handler := getDroplet c },
    { template := [.lit "/metadata/v1/",
        .oneOf "attr" ["id", "hostname", "user-data", "vendor-data", "public-keys"]],
      methods := ["GET"], name := "getDropletAttr", handler := getDropletAttr },
    { template := [.lit "/metadata/v1/interfaces/", .oneOf "type" ["public", "private"],
        .lit "/", .digits "id", .lit "/",
        .oneOf "attr" ["mac", "type", "ipv4/address", "ipv4/netmask", "ipv4/gateway",
          "ipv6/address", "ipv6/cidr", "ipv6/gateway"]],
      methods := ["GET"], name := "getNetworkInterfaceAttr", handler := getNetworkInterfaceAttr },
    { template := [.lit "/metadata/v1/interfaces/", .oneOf "type" ["public"],
        .lit "/", .digits "id", .lit "/",
        .oneOf "attr" ["anchor_ipv4/address", "anchor_ipv4/netmask", "anchor_ipv4/gateway"]],
      methods := ["GET"], name := "getNetworkInterfaceAttr", handler := getNetworkInterfaceAttr },
    { template := [.lit "/metadata/v1/floating_ip/",
        .oneOf "attr" ["ipv4/active", "ipv4/ip_address"]],
      methods := ["GET"], name := "getFloatingIPAttr", handler := getFloatingIPAttr },
    { template := [.lit "/metadata/v1/dns/", .oneOf "attr" ["nameservers"]],
      methods := ["GET"], name := "getDNSAttr", handler := getDNSAttr },
    { template := [.lit "/metadata/v1/features/", .oneOf "attr" ["dhcp_enabled"]],
      methods := ["GET"], name := "getFeaturesAttr", handler := getFeaturesAttr },
    { template := [.lit "/metadata/v1/"],
      methods := [], name := "getIndex", handler := getIndex },
    { template := [.lit "/metadata/v1/interfaces/"],
      methods := [], name := "getInterfaceIndex", handler := getInterfaceIndex },
    { template := [.lit "/metadata/v1/interfaces/", .oneOf "type" ["public", "private"],
        .lit "/"],
      methods := [], name := "getInterfaceTypeIndex", handler := getInterfaceTypeIndex },
    { template := [.lit "/metadata/v1/interfaces/", .oneOf "type" ["public", "private"],
        .lit "/", .digits "id", .lit "/"],
      methods := [], name := "getEnumeratedInterfaceIndex",
      handler := getEnumeratedInterfaceIndex },
    { template := [.lit "/metadata/v1/interfaces/", .oneOf "type" ["public", "private"],
        .lit "/", .digits "id", .lit "/ipv4/"],
      methods := [], name := "getInterfaceIPv4Index", handler := getInterfaceIPv4Index },
    { template := [.lit "/metadata/v1/interfaces/", .oneOf "type" ["public", "private"],
        .lit "/", .digits "id", .lit "/ipv6/"],
      methods := [], name := "getInterfaceIPv6Index", handler := getInterfaceIPv6Index },
    { template := [.lit "/metadata/v1/interfaces/", .oneOf "type" ["public"],
        .lit "/", .digits "id", .lit "/anchor_ipv4/"],
      methods := [], name := "getInterfaceAnchorIPv4Index",
      handler := getInterfaceAnchorIPv4Index },
    { template := [.lit "/metadata/v1/floating_ip/"],
      methods := [], name := "getFloatingIPIndex", handler := getFloatingIPIndex },
    { template := [.lit "/metadata/v1/floating_ip/ipv4/"],
      methods := [], name := "getFloatingIPv4Index", handler := getFloatingIPv4Index },
    { template := [.lit "/metadata/v1/dns/"],
      methods := [], name := "getDNSIndex", handler := getDNSIndex },
    { template := [.lit "/metadata/v1/tags/"],
      methods := [], name := "getTagsIndex", handler := getTagsIndex },
    { template := [.lit "/metadata/v1/features/"],
      methods := [], name := "getFeaturesIndex", handler := getFeaturesIndex } ]

/-- `mux.Router.ServeHTTP` for the router built in `NewEndpointV1`: the matched
route's handler; status 405 on a method mismatch; otherwise the configured
`NotFoundHandler`, which is `notFoundHandlerV1`. -/
def muxServeHTTP (c : Codecs) (s : Store) (w : Exchange) (r : Request) : Outcome :=
  match muxMatch (routesV1 c) r false with
  | .found route vars => route.handler s (w.record (.handler route.name)) r vars
  | .methodMismatch => .returned (w.WriteHeader 405)
  | .notFound => .returned (notFoundHandlerV1 w)

/-- `EndpointV1.ServeHTTP`. -/
def EndpointV1.ServeHTTP (c : Codecs) (s : Store) (w : Exchange) (r : Request) : Outcome :=
  if r.RemoteDataLinkAddr = "" then .returned (notFoundHandlerV1 w)
  else muxServeHTTP c s w r

/-! ## `pkg/metadataserver/router.go` -/

/-- Modelled from the spec: the interface types `Endpoint` and `HTTPEndpoint`
of package `metadataserver`, whose declarations are not among the sources. An
endpoint is a registered schema endpoint; `http` is its `ServeHTTP` method
when the endpoint satisfies `HTTPEndpoint`, that is, when the type assertion
`.(HTTPEndpoint)` in the dispatcher succeeds. -/
structure Endpoint where
  http : Option (Exchange → Request → Outcome)

/-- Type `Router`: the registry of endpoints by schema URI. -/
structure Router where
  endpoints : List (String × Endpoint)

/-- `NewRouter`: a single entry, the droplet endpoint under its schema URI. -/
def NewRouter (c : Codecs) (s : Store) : Router :=
  { endpoints := [(TypeURIV1, { http := some (EndpointV1.ServeHTTP c s) })] }

/-- `Router.Match`: the endpoint registered for the URI, or nil. -/
def Router.Match (r : Router) (typeURI : String) : Option Endpoint :=
  r.endpoints.lookup typeURI

/-! ## `internal/pkg/arp/watcher.go` -/

/-- A neighbour-table entry as the watcher reads it: `entry.RemoteIP()` and
`entry.HardwareAddr()`, where `none` is the nil address. -/
structure Entry where
  RemoteIP : List Nat
  HardwareAddr : Option (List Nat)
deriving DecidableEq, Repr

/-- How a call of `Table.Poll` ends for its caller: it returns, with an error
or with nil; it faults (a Go panic, as the `panic(err)` after a failed
`unix.Bind`); or it never returns (a `unix.Read` on the netlink socket that
never completes, a walk over the routing table that never ends). -/
inductive PollEnding where
  | returned (err : Option String)
  | faulted (reason : String)
  | blocked
deriving DecidableEq, Repr

/-- One run of `Table.Poll`: the entries passed to the callback, in order, and
how the call ends. -/
structure PollResult where
  entries : List Entry
  ending : PollEnding
deriving DecidableEq, Repr

/-- The map assignment `m[k] = v`. -/
def mapSet {β : Type} (m : List (String × β)) (k : String) (v : β) : List (String × β) :=
  m.filter (fun e => e.1 ≠ k) ++ [(k, v)]

/-- Type `Watcher`: the published map from the text of an IPv4 address to a
hardware address, whether `w.ticker` has been stopped, and whether the channel
`w.done` has been closed. A watcher is constructed running: ticker not
stopped, channel open. -/
structure Watcher where
  hardwareAddrsByIP4 : List (String × Option (List Nat))
  tickerStopped : Bool := false
  doneClosed : Bool := false
deriving DecidableEq, Repr

/-- `Watcher.ForcePoll`, given what `w.table.Poll` yields: the map is built
afresh from the entries and published only when the poll returns no error.
The result is the watcher after the call and how the call ends: it returns the
error of the poll or nil, or, when the poll faults or never returns, it faults
or never returns with it, the published map untouched. -/
def Watcher.ForcePoll (w : Watcher) (p : PollResult) : Watcher × PollEnding :=
  let hardwareAddrsByIP4 :=
    p.entries.foldl (fun m entry => mapSet m (IPString entry.RemoteIP) entry.HardwareAddr) []
  match p.ending with
  | .returned (some err) => (w, .returned (some err))
  | .returned none => ({ w with hardwareAddrsByIP4 := hardwareAddrsByIP4 }, .returned none)
  | .faulted reason => (w, .faulted reason)
  | .blocked => (w, .blocked)

/-- `Watcher.GetHardwareAddrForIP4`: the address stored for `ip.String()`, nil
when there is none. -/
def Watcher.GetHardwareAddrForIP4 (w : Watcher) (ip : List Nat) : Option (List Nat) :=
  match w.hardwareAddrsByIP4.lookup (IPString ip) with
  | some addr => addr
  | none => none

/-! ## `encoding/base64` and the canonical form of an address -/

/-- The alphabet of `base64.StdEncoding`. -/
def base64Alphabet : List Char :=
  "ABCDEFGHIJKLMNOPQRSTUVWXYZabcdefghijklmnopqrstuvwxyz0123456789+/".toList

/-- The character of a 6-bit value. -/
def base64Char (n : Nat) : Char := base64Alphabet.getD n '?'

/-- `base64.StdEncoding.EncodeToString` on a list of octets. -/
def base64Encode : List Nat → List Char
  | a :: b :: c :: rest =>
    base64Char (a / 4) :: base64Char (a % 4 * 16 + b / 16) :: base64Char (b % 16 * 4 + c / 64)
      :: base64Char (c % 64) :: base64Encode rest
  | [a, b] => [base64Char (a / 4), base64Char (a % 4 * 16 + b / 16), base64Char (b % 16 * 4), '=']
  | [a] => [base64Char (a / 4), base64Char (a % 4 * 16), '=', '=']
  | [] => []

/-- `MACAddr.CanonicalString`. -/
def CanonicalString (m : List Nat) : String :=
  String.mk (base64Encode m)

/-! ## `pkg/metadataserver/server.go`: the dispatcher -/

/-- The functions of package `net` the dispatcher calls on the remote address:
`net.SplitHostPort` (giving the host) and `net.ParseIP`. -/
structure NetLib where
  SplitHostPort : String → Except String String
  ParseIP : String → Option (List Nat)

/-- Type `HTTPServer`. -/
structure HTTPServer where
  arpWatcher : Watcher
  router : Router
  store : Store

/-- The loop of `HTTPServer.ServeHTTP` over the schema URIs: the first URI whose
endpoint is found and is an `HTTPEndpoint` serves the request and ends the
loop; `http.Error(w, "", 404)` when the loop runs out. -/
def serveTypeURIs (router : Router) (w : Exchange) (r : Request) : List String → Outcome
  | [] => .returned (httpError w "" 404)
  | typeURI :: rest =>
    let w := w.record (.routerMatch typeURI)
    match (router.Match typeURI).bind (·.http) with
    | some endpoint => endpoint (w.record (.serve typeURI)) r
    | none => serveTypeURIs router w r rest

/-- The identification step of `HTTPServer.ServeHTTP`: the lookup of the remote
address and, when it gives nil, one `ForcePoll` followed by one more lookup.
The error returned by `ForcePoll` is discarded. When `ForcePoll` faults or
never returns, so does the handler, and the step yields that outcome of the
request instead. -/
def identifyHardwareAddr (p : PollResult) (s : HTTPServer) (w : Exchange) (remoteIP : List Nat) :
    Except Outcome (HTTPServer × Exchange × Option (List Nat)) :=
  let w := w.record (.lookup (IPString remoteIP))
  match s.arpWatcher.GetHardwareAddrForIP4 remoteIP with
  | some addr => .ok (s, w, some addr)
  | none =>
    let w := w.record .forcePoll
    match (s.arpWatcher.ForcePoll p).2 with
    | .faulted reason => .error (.panicked w reason)
    | .blocked => .error (.blocked w)
    | .returned _ =>
      let s := { s with arpWatcher := (s.arpWatcher.ForcePoll p).1 }
      let w := w.record (.lookup (IPString remoteIP))
      .ok (s, w, s.arpWatcher.GetHardwareAddrForIP4 remoteIP)

/-- `HTTPServer.ServeHTTP`, given how a poll of the neighbour table runs if the
table is polled while the request is served. The result is the server after
the request (its watcher may have published a new map) and the outcome of the
request. -/
def HTTPServer.ServeHTTP (net : NetLib) (p : PollResult) (s : HTTPServer) (w : Exchange)
    (r : Request) : HTTPServer × Outcome :=
  match net.SplitHostPort r.RemoteAddr with
  | .error _ => (s, .returned (httpError w "not found" 404))
  | .ok host =>
    match net.ParseIP host with
    | none => (s, .returned (httpError w "not found" 404))
    | some remoteIP =>
      match identifyHardwareAddr p s w remoteIP with
      | .error outcome => (s, outcome)
      | .ok (s, w, none) => (s, .returned (httpError w "not found" 404))
      | .ok (s, w, some addr) =>
        let canonicalAddr := CanonicalString addr
        let r := { r with RemoteDataLinkAddr := canonicalAddr }
        let w := w.record (.listTypeURIs canonicalAddr)
        match s.store.ListSupportedTypeURIs canonicalAddr with
        | .error _ => (s, .returned (httpError w "not found" 404))
        | .ok typeURIs => (s, serveTypeURIs s.router w r typeURIs)

/-! ## Sample values

A document in the shape of the first end-to-end scenario of the specification
and the collaborators around it, used to evaluate the model on concrete requests. -/

/-- Serializers that write a fixed text. -/
def sampleCodecs : Codecs :=
  { json := fun _ => .ok "json\n", yaml := fun _ => .ok "yaml\n" }

/-- The hardware address `52:54:00:12:34:56`. -/
def sampleMac : List Nat := [0x52, 0x54, 0x00, 0x12, 0x34, 0x56]

/-- A public interface with an IPv4 block only. -/
def samplePublic : PublicNetworkInterface :=
  { Mac := sampleMac,
    Ipv4 := some { Address := [10, 0, 0, 2], Netmask := [255, 255, 255, 0], Gateway := [10, 0, 0, 1] },
    Ipv6 := none, AnchorIpv4 := none }

/-- A droplet with one public interface, no private interface and an active floating address. -/
def sampleDroplet : Droplet :=
  { ID := 42, Hostname := "vm1", UserData := "#cloud-config", VendorData := "vendor",
    PublicKeys := ["ssh-rsa AAAA"], Region := "nyc3",
    NetworkInterfaces := { PrivateInterfaces := [], PublicInterfaces := [samplePublic] },
    FloatingIP := some { Ipv4 := { Active := true, IPAddress := [192, 0, 2, 7] } },
    DNS := some { Nameservers := [{ Host := "8.8.8.8", Port := 53 }] },
    Tags := ["web"], Features := { DhcpEnabled := true } }

/-- A public interface with an IPv4 block `10.0.0.2` and an IPv6 block `2001:db8::2`. -/
def sampleDualStack : PublicNetworkInterface :=
  { samplePublic with
    Ipv6 := some { Address := [0x20, 0x01, 0x0d, 0xb8, 0, 0, 0, 0, 0, 0, 0, 0, 0, 0, 0, 2],
                   Cidr := 64,
                   Gateway := [0x20, 0x01, 0x0d, 0xb8, 0, 0, 0, 0, 0, 0, 0, 0, 0, 0, 0, 1] } }

/-- A private interface with an IPv6 block `2001:db8::2` and no IPv4 block. -/
def sampleIPv6Only : PrivateNetworkInterface :=
  { Mac := sampleMac, Ipv4 := none, Ipv6 := sampleDualStack.Ipv6 }

/-- The sample droplet with the dual-stack public interface and the IPv6-only
private interface. -/
def sampleDropletIPv6 : Droplet :=
  { sampleDroplet with
    NetworkInterfaces :=
      { PrivateInterfaces := [sampleIPv6Only], PublicInterfaces := [sampleDualStack] } }

/-- The sample droplet without any interface. -/
def sampleDropletNoInterfaces : Droplet :=
  { sampleDroplet with NetworkInterfaces := { PrivateInterfaces := [], PublicInterfaces := [] } }

/-- The sample droplet with `2^31 + 1` public interfaces. -/
def sampleDropletHuge : Droplet :=
  { sampleDroplet with
    NetworkInterfaces :=
      { PrivateInterfaces := [], PublicInterfaces := List.replicate (2 ^ 31 + 1) samplePublic } }

/-- The number a string of decimal digits denotes, leading zeros allowed. -/
def decimalValue (s : String) : Nat :=
  s.toList.foldl (fun n c => n * 10 + (c.toNat - '0'.toNat)) 0

/-- The path of an attribute of an interface:
`/metadata/v1/interfaces/{t}/{id}/{attr}`. -/
def interfaceAttrPath (t id attr : String) : String :=
  "/metadata/v1/interfaces/" ++ t ++ "/" ++ id ++ "/" ++ attr

/-- The newline-terminated lines of a text; `cur` holds the current line reversed.
A last line without a newline is kept. -/
def splitLines : List Char → List Char → List String
  | [], cur => if cur = [] then [] else [String.mk cur.reverse]
  | c :: cs, cur =>
    if c = '\n' then String.mk cur.reverse :: splitLines cs [] else splitLines cs (c :: cur)

/-- The entries of an index listing: the lines of the response body. -/
def listingEntries (body : String) : List String :=
  splitLines body.toList []

/-- A store in which every address is bound to the given droplet under the droplet schema. -/
def storeOf (d : Droplet) : Store :=
  { ListSupportedTypeURIs := fun _ => .ok [TypeURIV1],
    GetDocument := fun _ typeURI =>
      if typeURI = TypeURIV1 then .ok { Kind := TypeURIV1, Contents := .droplet d }
      else .error "Not found" }

/-- A `GET` request for a path, as the dispatcher hands it to the endpoint of
the caller whose hardware address is `sampleMac`. -/
def getRequest (path : String) : Request :=
  { RemoteAddr := "10.0.0.2:49152", Method := "GET", Path := path,
    RemoteDataLinkAddr := CanonicalString sampleMac }

/-- Address functions that resolve every remote address to `10.0.0.2`. -/
def sampleNet : NetLib :=
  { SplitHostPort := fun _ => .ok "10.0.0.2", ParseIP := fun _ => some [10, 0, 0, 2] }

/-- A server whose watcher has published an empty map. -/
def sampleServer : HTTPServer :=
  { arpWatcher := { hardwareAddrsByIP4 := [] },
    router := NewRouter sampleCodecs (storeOf sampleDroplet),
    store := storeOf sampleDroplet }

/-- A poll that yields the neighbour `10.0.0.2` with hardware address `sampleMac`. -/
def samplePoll : PollResult :=
  { entries := [{ RemoteIP := [10, 0, 0, 2], HardwareAddr := some sampleMac }],
    ending := .returned none }

/-- A poll that yields no neighbour. -/
def emptyPoll : PollResult := { entries := [], ending := .returned none }

/-- A store that lists, for every address, two schemas of which only the second
has a registered endpoint. -/
def twoSchemaStore : Store :=
  { ListSupportedTypeURIs := fun _ => .ok ["example.com/v0", TypeURIV1],
    GetDocument := (storeOf sampleDroplet).GetDocument }

/-- A store that lists, for every address, a schema without a registered endpoint. -/
def foreignSchemaStore : Store :=
  { ListSupportedTypeURIs := fun _ => .ok ["example.com/v0"],
    GetDocument := fun _ _ => .error "Not found" }

/-- A server over a store, with the router `NewRouter` builds and a watcher
that has published the neighbour `10.0.0.2` with hardware address `sampleMac`. -/
def warmServer (st : Store) : HTTPServer :=
  { arpWatcher := { hardwareAddrsByIP4 := [("10.0.0.2", some sampleMac)] },
    router := NewRouter sampleCodecs st,
    store := st }

/-! ## Results of calls that can fault -/

/-- How a call ends: with a value, with a Go error (carried as its message), or
with a run-time fault (a Go panic). -/
inductive Ret (α : Type) where
  | ok (a : α)
  | err (e : String)
  | fault (reason : String)
deriving DecidableEq, Repr

/-! ## `internal/pkg/arp/watcher.go`: closing, and what a poll publishes -/

/-- `Watcher.Close`: `w.ticker.Stop()`, then `close(w.done)`, then `return nil`.
Stopping a stopped ticker does nothing; closing a closed channel is a run-time
fault. The result is the watcher after the call and how the call ended. -/
def Watcher.Close (w : Watcher) : Watcher × Ret Unit :=
  let w := { w with tickerStopped := true }
  if w.doneClosed then (w, .fault "close of closed channel")
  else ({ w with doneClosed := true }, .ok ())

/-- The position of a character in a list, counted from `i`. -/
def indexFrom : List Char → Char → Nat → Option Nat
  | [], _, _ => none
  | x :: xs, c, i => if x = c then some i else indexFrom xs c (i + 1)

/-- The 6-bit value of a character of the alphabet of `base64.StdEncoding`. -/
def base64Index (c : Char) : Option Nat :=
  indexFrom base64Alphabet c 0

/-- The error of `base64.StdEncoding.DecodeString` on malformed input
(`base64.CorruptInputError`). -/
def errCorruptInput : String := "illegal base64 data"

/-- Decoding of base64 text in groups of four characters: a group of four
characters of the alphabet gives three octets; the last group may end in one
padding character (two octets) or two (one octet); anything else is corrupt. -/
def base64DecodeGroups : List Char → Except String (List Nat)
  | [] => .ok []
  | a :: b :: c :: d :: rest =>
    match base64Index a, base64Index b with
    | some ia, some ib =>
      if c = '=' ∧ d = '=' ∧ rest = [] then .ok [(ia * 4 + ib / 16) % 256]
      else
        match base64Index c with
        | none => .error errCorruptInput
        | some ic =>
          if d = '=' ∧ rest = [] then
            .ok [(ia * 4 + ib / 16) % 256, (ib % 16 * 16 + ic / 4) % 256]
          else
            match base64Index d with
            | none => .error errCorruptInput
            | some id =>
              match base64DecodeGroups rest with
              | .error e => .error e
              | .ok tail =>
                .ok ((ia * 4 + ib / 16) % 256 :: (ib % 16 * 16 + ic / 4) % 256
                  :: (ic % 4 * 64 + id) % 256 :: tail)
    | _, _ => .error errCorruptInput
  | _ => .error errCorruptInput

/-- `base64.StdEncoding.DecodeString`: carriage returns and line feeds in the
input are passed over, the rest is decoded in groups of four. -/
def base64Decode (s : String) : Except String (List Nat) :=
  base64DecodeGroups (s.toList.filter (fun c => c ≠ '\r' ∧ c ≠ '\n'))

/-- The error `errBadDataLinkAddr`. -/
def errBadDataLinkAddr : String := "Bad data-link addr"

/-- `ParseCanonicalAddr`: the octets of the address (`MACAddr(data)`), or an error. -/
def ParseCanonicalAddr (s : String) : Except String (List Nat) :=
  match base64Decode s with
  | .error e => .error e
  | .ok data =>
    if data.length = 8 then .ok data
    else if data.length = 6 then .ok data
    else if data.length = 20 then .ok data
    else .error errBadDataLinkAddr

/-! ## Decoding scalars: `encoding/json`, and the decoders of the models -/

/-- A JSON value as a scalar decoder sees it. `number` carries the text of a
JSON number literal (so an integer literal has no sign other than a minus and
no leading zero other than the literal `0`); `other` stands for `true`,
`false`, arrays and objects. -/
inductive JSONValue where
  | null
  | number (literal : String)
  | string (s : String)
  | other
deriving DecidableEq, Repr

/-- The message of a `strconv` error. -/
def NumError.text : NumError → String
  | .ErrSyntax => "invalid syntax"
  | .ErrRange => "value out of range"

/-- `json.Unmarshal(data, &a)` for `a` of type `uint8`, giving the value of `a`
after the call (it is `0` before): a number literal must parse as an unsigned
integer and fit 8 bits; `null` has no effect and is no error; any other value
is a type error. -/
def jsonUint8 : JSONValue → Except String Nat
  | .null => .ok 0
  | .number literal =>
    match ParseUint literal 64 with
    | .error _ => .error "json: cannot unmarshal number into Go value of type uint8"
    | .ok n =>
      if n > 255 then .error "json: cannot unmarshal number into Go value of type uint8"
      else .ok n
  | .string _ => .error "json: cannot unmarshal string into Go value of type uint8"
  | .other => .error "json: cannot unmarshal value into Go value of type uint8"

/-- `json.Unmarshal(data, &s)` for `s` of type `string`, giving the value of `s`
after the call (it is empty before). -/
def jsonString : JSONValue → Except String String
  | .null => .ok ""
  | .string s => .ok s
  | .number _ => .error "json: cannot unmarshal number into Go value of type string"
  | .other => .error "json: cannot unmarshal value into Go value of type string"

/-- The type `string`, under a name that stays usable inside the namespace of
`Nameserver`, where `String` is the method `Nameserver.String`. -/
abbrev Text := String

/-- The part the decoders of `Nameserver` (`UnmarshalJSON`, `UnmarshalYAML`,
`UnmarshalTOML`) share once the string is decoded; `parseIP` and
`splitHostPort` are `net.ParseIP` and `net.SplitHostPort`. -/
def Nameserver.decode (parseIP : Text → Option (List Nat))
    (splitHostPort : Text → Except Text (Text × Text)) (s : Text) :
    Except Text Nameserver :=
  match parseIP s with
  | some _ => .ok { Host := s, Port := 53 }
  | none =>
    match splitHostPort s with
    | .error e => .error e
    | .ok (host, portStr) =>
      if portStr ≠ "" then
        match ParseUint portStr 16 with
        | .error e => .error e.text
        | .ok port => .ok { Host := host, Port := port % 2 ^ 16 }
      else .ok { Host := host, Port := 53 }

/-- `Nameserver.UnmarshalJSON`. -/
def Nameserver.UnmarshalJSON (parseIP : Text → Option (List Nat))
    (splitHostPort : Text → Except Text (Text × Text)) (data : JSONValue) :
    Except Text Nameserver :=
  match jsonString data with
  | .error e => .error e
  | .ok s => Nameserver.decode parseIP splitHostPort s

/-- `Nameserver.UnmarshalYAML`, given what `value.Decode(&s)` yields. -/
def Nameserver.UnmarshalYAML (parseIP : Text → Option (List Nat))
    (splitHostPort : Text → Except Text (Text × Text))
    (decoded : Except Text Text) : Except Text Nameserver :=
  match decoded with
  | .error e => .error e
  | .ok s => Nameserver.decode parseIP splitHostPort s

/-- The body the decoders of `IPv6PrefixLen` share, given what decoding into a
`uint8` and decoding into a `string` yield: the `uint8` when that decoding
succeeds; otherwise the string parsed by `strconv.ParseUint(b, 10, 8)`. -/
def IPv6PrefixLen.unmarshal (asUint8 : Except String Nat) (asString : Except String String) :
    Except String Nat :=
  match asUint8 with
  | .ok a => .ok a
  | .error _ =>
    match asString with
    | .error e => .error e
    | .ok b =>
      match ParseUint b 8 with
      | .error e => .error e.text
      | .ok v => .ok (v % 2 ^ 8)

/-- `IPv6PrefixLen.UnmarshalJSON`. -/
def IPv6PrefixLen.UnmarshalJSON (data : JSONValue) : Except String Nat :=
  IPv6PrefixLen.unmarshal (jsonUint8 data) (jsonString data)

/-- `IPv6PrefixLen.UnmarshalYAML`, given what `value.Decode(&a)` and
`value.Decode(&b)` yield for the node. -/
def IPv6PrefixLen.UnmarshalYAML (asUint8 : Except String Nat) (asString : Except String String) :
    Except String Nat :=
  IPv6PrefixLen.unmarshal asUint8 asString

/-- Decoding of the member `cidr` of an IPv6 block of a droplet from JSON: the
field `IPv6Addr.Cidr` is declared `uint8`. -/
def decodeCidrJSON (data : JSONValue) : Except String Nat :=
  jsonUint8 data

/-- Whether a string of digits is a JSON integer literal: `0`, or digits that
do not start with `0`. -/
def jsonIntegerLiteral (literal : String) : Bool :=
  match literal.toList with
  | [] => false
  | ['0'] => true
  | c :: _ => c ≠ '0'

/-- The texts of a list, each followed by a newline, one after the other. -/
def linesOf : List String → String
  | [] => ""
  | x :: xs => x ++ "\n" ++ linesOf xs

/-- Three nameservers: an IPv4 host on port 53, an IPv6 host and a DNS name on port 5353. -/
def sampleNameservers : List Nameserver :=
  [{ Host := "8.8.8.8", Port := 53 }, { Host := "2001:4860:4860::8888", Port := 5353 },
   { Host := "ns.example.com", Port := 5353 }]

/-- The sample droplet with the three sample nameservers. -/
def sampleDropletDNS : Droplet :=
  { sampleDroplet with DNS := some { Nameservers := sampleNameservers } }

/-- The sample droplet without a dns section. -/
def sampleDropletNoDNS : Droplet := { sampleDroplet with DNS := none }

/-! ## `pkg/store/dir.go`: the directory store

The three indexes are Go maps, modelled as association lists read with
`List.lookup`, written with `mapSet` and `mapDelete`. The document cache is
`lru.ARCCache`, an external library: the model keeps its entries and its
capacity, and on `Add` keeps the most recently added entries up to the
capacity; which entries the real cache evicts, and the effect of `Get` on
later evictions, are not modelled. Reading a file and decoding its content are
parameters; each call reports the paths it read. The lines the handlers print
with `fmt.Printf` and the mutex are not modelled: the handlers are taken one at
a time. -/

/-- The map deletion `delete(m, k)`. -/
def mapDelete {β : Type} (m : List (String × β)) (k : String) : List (String × β) :=
  m.filter (fun e => e.1 ≠ k)

/-- A value held by the document cache, whose values are of type
`interface{}`: a `*document.Document` or a `document.Metadata`. -/
inductive CacheValue where
  | document (d : Document)
  | metadata (m : Metadata)
deriving DecidableEq, Repr

/-- The cache `lru.ARCCache`: its capacity and its entries, most recent first. -/
structure ARCCache where
  size : Nat
  entries : List (String × CacheValue)
deriving DecidableEq, Repr

/-- `ARCCache.Remove`. -/
def ARCCache.Remove (c : ARCCache) (key : String) : ARCCache :=
  { c with entries := mapDelete c.entries key }

/-- `ARCCache.Get`. -/
def ARCCache.Get (c : ARCCache) (key : String) : Option CacheValue :=
  c.entries.lookup key

/-- `ARCCache.Add`. -/
def ARCCache.Add (c : ARCCache) (key : String) (value : CacheValue) : ARCCache :=
  { c with entries := ((key, value) :: mapDelete c.entries key).take c.size }

/-- Type `DirStore`: the three indexes and the document cache. -/
structure DirStore where
  typeURIsForDataLinkAddr : List (String × List String)
  dataLinkAddrsForFilePath : List (String × List String)
  filePathForDataLinkAddrAndTypeURI : List (String × List (String × String))
  documentCache : ARCCache
deriving DecidableEq, Repr

/-- The store `NewDirStore` builds: empty indexes, an empty cache of the given capacity. -/
def DirStore.empty (cacheSize : Nat) : DirStore :=
  { typeURIsForDataLinkAddr := [], dataLinkAddrsForFilePath := [],
    filePathForDataLinkAddrAndTypeURI := [],
    documentCache := { size := cacheSize, entries := [] } }

/-- `NewDirStore`: `lru.NewARC` refuses a capacity that is not positive. -/
def NewDirStore (cacheSize : Nat) : Except String DirStore :=
  if cacheSize = 0 then .error "Must provide a positive size"
  else .ok (DirStore.empty cacheSize)

/-- The error `ErrNotFound` of package `store`. -/
def ErrNotFound : String := "Not found"

/-- The error `errBadFileExtension`. -/
def errBadFileExtension : String := "Bad file extension"

/-- The error `errBadPath`. -/
def errBadPath : String := "Bad path"

/-- `ioutil.ReadFile`: the content of a file, or an error. -/
structure FileSystem where
  ReadFile : String → Except String (List Nat)

/-- `json.Unmarshal(data, &d)` and `yaml.Unmarshal(data, &d)` for `d` of type
`*document.Document`, nil before the call: an error, a fault, or the pointer
after the call, which is still nil (`none`) when the decoder did not allocate
a document. -/
structure Decoders where
  jsonUnmarshal : List Nat → Ret (Option Document)
  yamlUnmarshal : List Nat → Ret (Option Document)

/-- The scan of `filepath.Ext` from the end of the path, on the reversed path;
`acc` is the part of the extension passed over. -/
def extScan : List Char → List Char → List Char
  | [], _ => []
  | c :: cs, acc =>
    if c = '/' then [] else if c = '.' then '.' :: acc else extScan cs (c :: acc)

/-- `filepath.Ext`: the suffix beginning at the last dot of the last element of
the path, empty when that element has no dot. -/
def Ext (path : String) : String :=
  String.mk (extScan path.toList.reverse [])

/-- `readDocumentFromFile`. -/
def readDocumentFromFile (fs : FileSystem) (dec : Decoders) (path : String) :
    Ret (Option Document) :=
  match fs.ReadFile path with
  | .error e => .err e
  | .ok data =>
    if data.length = 0 then .err errBadPath
    else if Ext path = ".json" then dec.jsonUnmarshal data
    else if Ext path = ".yaml" ∨ Ext path = ".yml" then dec.yamlUnmarshal data
    else .err errBadFileExtension

/-- `Droplet.DataLinkAddrs`: the MACs of the private interfaces, then those of
the public interfaces. -/
def Droplet.DataLinkAddrs (d : Droplet) : List (List Nat) :=
  d.NetworkInterfaces.PrivateInterfaces.map (·.Mac)
    ++ d.NetworkInterfaces.PublicInterfaces.map (·.Mac)

/-- The result of a call on the store: the store after the call, the paths
read with `ioutil.ReadFile` during the call, in order, and how the call ended. -/
structure Call (α : Type) where
  store : DirStore
  reads : List String
  ret : Ret α

/-- The index updates of one iteration of the loop over the addresses a file
declares, in `didAddFile` and `didChangeFile`: the schema is appended to the
list of the address, and the path is bound to the address and the schema. -/
def DirStore.bind (s : DirStore) (path typeURI canonicalDataLinkAddr : String) : DirStore :=
  { s with
    typeURIsForDataLinkAddr :=
      mapSet s.typeURIsForDataLinkAddr canonicalDataLinkAddr
        ((s.typeURIsForDataLinkAddr.lookup canonicalDataLinkAddr).getD [] ++ [typeURI]),
    filePathForDataLinkAddrAndTypeURI :=
      match s.filePathForDataLinkAddrAndTypeURI.lookup canonicalDataLinkAddr with
      | some filePathForTypeURI =>
        mapSet s.filePathForDataLinkAddrAndTypeURI canonicalDataLinkAddr
          (mapSet filePathForTypeURI typeURI path)
      | none =>
        mapSet s.filePathForDataLinkAddrAndTypeURI canonicalDataLinkAddr [(typeURI, path)] }

/-- The removal loop of `didChangeFile` and `didRemoveFile` over the addresses
recorded for a path: both entries of each address are deleted. -/
def DirStore.unbindAll (s : DirStore) (dataLinkAddrs : List String) : DirStore :=
  dataLinkAddrs.foldl
    (fun s dataLinkAddr =>
      { s with
        typeURIsForDataLinkAddr := mapDelete s.typeURIsForDataLinkAddr dataLinkAddr,
        filePathForDataLinkAddrAndTypeURI :=
          mapDelete s.filePathForDataLinkAddrAndTypeURI dataLinkAddr })
    s

/-- The block `if dataLinkAddrs, ok := s.dataLinkAddrsForFilePath[path]; ok`
of `didChangeFile` and `didRemoveFile`. -/
def DirStore.forget (s : DirStore) (path : String) : DirStore :=
  match s.dataLinkAddrsForFilePath.lookup path with
  | some dataLinkAddrs =>
    let s := s.unbindAll dataLinkAddrs
    { s with dataLinkAddrsForFilePath := mapDelete s.dataLinkAddrsForFilePath path }
  | none => s

/-- `DirStore.didAddFile`. -/
def DirStore.didAddFile (fs : FileSystem) (dec : Decoders) (s : DirStore) (path : String) :
    Call Unit :=
  match readDocumentFromFile fs dec path with
  | .err _ => { store := s, reads := [path], ret := .ok () }
  | .fault reason => { store := s, reads := [path], ret := .fault reason }
  | .ok none =>
    { store := s, reads := [path], ret := .fault "invalid memory address or nil pointer dereference" }
  | .ok (some file) =>
    match file.Contents with
    | .nil =>
      { store := s, reads := [path],
        ret := .fault "invalid memory address or nil pointer dereference" }
    | .droplet d =>
      let canonicalDataLinkAddrs := d.DataLinkAddrs.map CanonicalString
      let s := canonicalDataLinkAddrs.foldl
        (fun s canonicalDataLinkAddr =>
          let s := s.bind path file.Kind canonicalDataLinkAddr
          { s with documentCache := s.documentCache.Remove canonicalDataLinkAddr })
        s
      { store :=
          { s with
            dataLinkAddrsForFilePath :=
              mapSet s.dataLinkAddrsForFilePath path canonicalDataLinkAddrs },
        reads := [path], ret := .ok () }

/-- `DirStore.didChangeFile`. -/
def DirStore.didChangeFile (fs : FileSystem) (dec : Decoders) (s : DirStore) (path : String) :
    Call Unit :=
  match readDocumentFromFile fs dec path with
  | .err _ => { store := s, reads := [path], ret := .ok () }
  | .fault reason => { store := s, reads := [path], ret := .fault reason }
  | .ok file =>
    let s := { s with documentCache := s.documentCache.Remove path }
    let s := s.forget path
    match file with
    | none =>
      { store := s, reads := [path],
        ret := .fault "invalid memory address or nil pointer dereference" }
    | some file =>
      match file.Contents with
      | .nil =>
        { store := s, reads := [path],
          ret := .fault "invalid memory address or nil pointer dereference" }
      | .droplet d =>
        let canonicalDataLinkAddrs := d.DataLinkAddrs.map CanonicalString
        let s := canonicalDataLinkAddrs.foldl
          (fun s canonicalDataLinkAddr => s.bind path file.Kind canonicalDataLinkAddr) s
        { store :=
            { s with
              dataLinkAddrsForFilePath :=
                mapSet s.dataLinkAddrsForFilePath path canonicalDataLinkAddrs },
          reads := [path], ret := .ok () }

/-- `DirStore.didRemoveFile`. -/
def DirStore.didRemoveFile (s : DirStore) (path : String) : Call Unit :=
  let s := s.forget path
  { store := { s with documentCache := s.documentCache.Remove path }, reads := [],
    ret := .ok () }

/-- `DirStore.getDocument`: the cached value when it is a `*document.Document`,
otherwise the file is read and its payload is put in the cache. -/
def DirStore.getDocument (fs : FileSystem) (dec : Decoders) (s : DirStore) (path : String) :
    Call Document :=
  match s.documentCache.Get path with
  | some (.document m) => { store := s, reads := [], ret := .ok m }
  | _ =>
    match readDocumentFromFile fs dec path with
    | .err e => { store := s, reads := [path], ret := .err e }
    | .fault reason => { store := s, reads := [path], ret := .fault reason }
    | .ok none =>
      { store := s, reads := [path],
        ret := .fault "invalid memory address or nil pointer dereference" }
    | .ok (some file) =>
      { store := { s with documentCache := s.documentCache.Add path (.metadata file.Contents) },
        reads := [path], ret := .ok file }

/-- `DirStore.ListSupportedTypeURIs`. -/
def DirStore.ListSupportedTypeURIs (s : DirStore) (canonicalDataLinkAddr : String) :
    Except String (List String) :=
  match s.typeURIsForDataLinkAddr.lookup canonicalDataLinkAddr with
  | some v => .ok v
  | none => .error ErrNotFound

/-- The path the index binds to an address and a schema, if any: the two map
reads at the head of `DirStore.GetDocument`. -/
def DirStore.resolve (s : DirStore) (canonicalDataLinkAddr typeURI : String) : Option String :=
  match s.filePathForDataLinkAddrAndTypeURI.lookup canonicalDataLinkAddr with
  | some filePathForTypeURI => filePathForTypeURI.lookup typeURI
  | none => none

/-- `DirStore.GetDocument`. -/
def DirStore.GetDocument (fs : FileSystem) (dec : Decoders) (s : DirStore)
    (canonicalDataLinkAddr typeURI : String) : Call Document :=
  match s.resolve canonicalDataLinkAddr typeURI with
  | some filePath => s.getDocument fs dec filePath
  | none => { store := s, reads := [], ret := .err ErrNotFound }

/-- The operation bits of an `fsnotify.Event`. -/
structure Op where
  Create : Bool
  Write : Bool
  Remove : Bool
  Rename : Bool
  Chmod : Bool
deriving DecidableEq, Repr

/-- Type `fsnotify.Event`. -/
structure FsEvent where
  Name : String
  Op : Op
deriving DecidableEq, Repr

/-- The dispatch of the event consumer started by `NewDirStore`. -/
def DirStore.handleEvent (fs : FileSystem) (dec : Decoders) (s : DirStore) (event : FsEvent) :
    Call Unit :=
  if event.Op.Create then s.didAddFile fs dec event.Name
  else if event.Op.Chmod ∨ event.Op.Write then s.didChangeFile fs dec event.Name
  else if event.Op.Rename ∨ event.Op.Remove then s.didRemoveFile event.Name
  else { store := s, reads := [], ret := .ok () }

/-- The stores the event consumer can be in: the empty store, and the store
after any event that did not fault, handled in a reachable store with any
content of the file system at that moment. -/
inductive Reachable (cacheSize : Nat) : DirStore → Prop where
  | empty : Reachable cacheSize (DirStore.empty cacheSize)
  | step (s : DirStore) (fs : FileSystem) (dec : Decoders) (event : FsEvent) :
      Reachable cacheSize s → (s.handleEvent fs dec event).ret = .ok () →
      Reachable cacheSize (s.handleEvent fs dec event).store

/-! ## `pkg/models/document/document.go`: decoding a document

`encoding/json` and `yaml.v3` are external libraries. What the document
decoders rely on is passed as a parameter: the syntax check of a text, whether
a text is the value `null` (for YAML, also whether it holds no document at
all), the decoding of the envelope into its `kind` and the raw text of its
`metadata` member, and the decoding of a droplet payload. A YAML node is
represented by its text. -/

/-- The error `errBadTypeURI`. -/
def errBadTypeURI : String := "Bad TypeURI"

/-- The parts of `encoding/json` used to decode a document. `decodeMetadata`
is `json.Unmarshal(data, &metadata)` for `metadata` holding a new droplet: the
interface value after the call, which is nil when the text is `null`. -/
structure JSONLib where
  checkValid : List Nat → Except String Unit
  isNull : List Nat → Bool
  decodeRaw : List Nat → Except String (String × List Nat)
  decodeMetadata : List Nat → Ret Metadata

/-- The parts of `yaml.v3` used to decode a document. `decodeDroplet` is
`node.Decode(&droplet)`. -/
structure YAMLLib where
  checkValid : List Nat → Except String Unit
  isNull : List Nat → Bool
  decodeRaw : List Nat → Except String (String × List Nat)
  decodeDroplet : List Nat → Ret Droplet

/-- `unmarshalJSONMetadata`. -/
def unmarshalJSONMetadata (lib : JSONLib) (kind : String) (data : List Nat) : Ret Metadata :=
  if kind = TypeURIV1 then lib.decodeMetadata data else .err errBadTypeURI

/-- `unmarshalYAMLMetadata`. -/
def unmarshalYAMLMetadata (lib : YAMLLib) (kind : String) (node : List Nat) : Ret Metadata :=
  if kind = TypeURIV1 then
    match lib.decodeDroplet node with
    | .ok droplet => .ok (.droplet droplet)
    | .err e => .err e
    | .fault reason => .fault reason
  else .err errBadTypeURI

/-- `Document.UnmarshalJSON`. -/
def Document.UnmarshalJSON (lib : JSONLib) (data : List Nat) : Ret Document :=
  match lib.decodeRaw data with
  | .error e => .err e
  | .ok (kind, contents) =>
    match unmarshalJSONMetadata lib kind contents with
    | .ok m => .ok { Kind := kind, Contents := m }
    | .err e => .err e
    | .fault reason => .fault reason

/-- `Document.UnmarshalYAML`. -/
def Document.UnmarshalYAML (lib : YAMLLib) (node : List Nat) : Ret Document :=
  match lib.decodeRaw node with
  | .error e => .err e
  | .ok (kind, contents) =>
    match unmarshalYAMLMetadata lib kind contents with
    | .ok m => .ok { Kind := kind, Contents := m }
    | .err e => .err e
    | .fault reason => .fault reason

/-- `json.Unmarshal(data, &d)` for a nil `d` of type `*document.Document`: a
text that is not valid JSON is an error; the value `null` leaves the pointer
nil; for any other value a document is allocated and `Document.UnmarshalJSON`
decodes the text into it. -/
def jsonUnmarshalDocument (lib : JSONLib) (data : List Nat) : Ret (Option Document) :=
  match lib.checkValid data with
  | .error e => .err e
  | .ok () =>
    if lib.isNull data then .ok none
    else
      match Document.UnmarshalJSON lib data with
      | .ok d => .ok (some d)
      | .err e => .err e
      | .fault reason => .fault reason

/-- `yaml.Unmarshal(data, &d)` for a nil `d` of type `*document.Document`: a
text that does not parse is an error; a text with no document, or whose
document is null, leaves the pointer nil; otherwise a document is allocated
and `Document.UnmarshalYAML` decodes the root node into it. -/
def yamlUnmarshalDocument (lib : YAMLLib) (data : List Nat) : Ret (Option Document) :=
  match lib.checkValid data with
  | .error e => .err e
  | .ok () =>
    if lib.isNull data then .ok none
    else
      match Document.UnmarshalYAML lib data with
      | .ok d => .ok (some d)
      | .err e => .err e
      | .fault reason => .fault reason

/-- The decoders `readDocumentFromFile` calls, over the two libraries. -/
def documentDecoders (json : JSONLib) (yaml : YAMLLib) : Decoders :=
  { jsonUnmarshal := jsonUnmarshalDocument json, yamlUnmarshal := yamlUnmarshalDocument yaml }

/-! ## Sample values for the directory store -/

/-- A second hardware address. -/
def sampleMac2 : List Nat := [0x52, 0x54, 0x00, 0xab, 0xcd, 0xef]

/-- The sample droplet with its public interface on the second address. -/
def sampleDropletMoved : Droplet :=
  { sampleDroplet with
    NetworkInterfaces :=
      { PrivateInterfaces := [],
        PublicInterfaces := [{ samplePublic with Mac := sampleMac2 }] } }

/-- A document of the droplet schema holding the sample droplet. -/
def sampleDocument : Document := { Kind := TypeURIV1, Contents := .droplet sampleDroplet }

/-- A document of the droplet schema holding the moved droplet. -/
def sampleDocumentMoved : Document :=
  { Kind := TypeURIV1, Contents := .droplet sampleDropletMoved }

/-- Decoders for the sample files: the content `[1]` stands for the encoding
of `sampleDocument`, `[2]` for that of `sampleDocumentMoved`, `[0]` for the
JSON text `null`; any other content is refused. -/
def sampleDecoders : Decoders :=
  let decode := fun (data : List Nat) =>
    if data = [1] then Ret.ok (some sampleDocument)
    else if data = [2] then Ret.ok (some sampleDocumentMoved)
    else if data = [0] then Ret.ok none
    else Ret.err "invalid character"
  { jsonUnmarshal := decode, yamlUnmarshal := decode }

/-- A file system holding the listed files and nothing else. -/
def fileSystemOf (files : List (String × List Nat)) : FileSystem :=
  { ReadFile := fun path =>
      match files.lookup path with
      | some data => .ok data
      | none => .error ("open " ++ path ++ ": no such file or directory") }

/-- A create event. -/
def createEvent (path : String) : FsEvent :=
  { Name := path,
    Op := { Create := true, Write := false, Remove := false, Rename := false, Chmod := false } }

/-- A write event. -/
def writeEvent (path : String) : FsEvent :=
  { Name := path,
    Op := { Create := false, Write := true, Remove := false, Rename := false, Chmod := false } }

/-- A remove event. -/
def removeEvent (path : String) : FsEvent :=
  { Name := path,
    Op := { Create := false, Write := false, Remove := true, Rename := false, Chmod := false } }

/-- The store after a create event on `/srv/a.json` holding the sample document. -/
def storeCreated : DirStore :=
  ((DirStore.empty 128).handleEvent (fileSystemOf [("/srv/a.json", [1])]) sampleDecoders
    (createEvent "/srv/a.json")).store

/-- The store after a second create event on `/srv/a.json`, the file now
holding the moved document. -/
def storeCreatedTwice : DirStore :=
  (storeCreated.handleEvent (fileSystemOf [("/srv/a.json", [2])]) sampleDecoders
    (createEvent "/srv/a.json")).store

/-! ## `pkg/models/net/ipv4.go` and `ipv6.go`: decoding an address

`parseIP` is `net.ParseIP`, with `none` for the nil address. On a nil address
`To4` returns nil, which is what `(parseIP s).bind To4` computes. -/

/-- `IPv4.UnmarshalJSON`; `IPv4Mask.UnmarshalJSON` has the same body. The
result is the address stored, an error, or the fault of `panic("")`. -/
def IPv4.UnmarshalJSON (parseIP : String → Option (List Nat)) (data : JSONValue) :
    Ret (List Nat) :=
  match jsonString data with
  | .error e => .err e
  | .ok s =>
    match (parseIP s).bind To4 with
    | none => .fault ""
    | some ip => .ok ip

/-- `IPv4Mask.UnmarshalJSON`. -/
def IPv4Mask.UnmarshalJSON (parseIP : String → Option (List Nat)) (data : JSONValue) :
    Ret (List Nat) :=
  match jsonString data with
  | .error e => .err e
  | .ok s =>
    match (parseIP s).bind To4 with
    | none => .fault ""
    | some ip => .ok ip

/-- `IPv4.UnmarshalYAML`, given what `value.Decode(&s)` yields;
`IPv4Mask.UnmarshalYAML` has the same body. -/
def IPv4.UnmarshalYAML (parseIP : String → Option (List Nat)) (decoded : Except String String) :
    Ret (List Nat) :=
  match decoded with
  | .error e => .err e
  | .ok s =>
    match (parseIP s).bind To4 with
    | none => .fault ""
    | some ip => .ok ip

/-- `IPv6.UnmarshalJSON`. -/
def IPv6.UnmarshalJSON (parseIP : String → Option (List Nat)) (data : JSONValue) :
    Ret (List Nat) :=
  match jsonString data with
  | .error e => .err e
  | .ok s =>
    match parseIP s with
    | none => .fault ""
    | some ip =>
      match To4 ip with
      | some _ => .fault ""
      | none => .ok ip

/-- `IPv6.UnmarshalYAML`, given what `value.Decode(&s)` yields. -/
def IPv6.UnmarshalYAML (parseIP : String → Option (List Nat)) (decoded : Except String String) :
    Ret (List Nat) :=
  match decoded with
  | .error e => .err e
  | .ok s =>
    match parseIP s with
    | none => .fault ""
    | some ip =>
      match To4 ip with
      | some _ => .fault ""
      | none => .ok ip

/-- `MACAddr.UnmarshalJSON`; `parseMAC` is `net.ParseMAC`. -/
def MACAddr.UnmarshalJSON (parseMAC : String → Except String (List Nat)) (data : JSONValue) :
    Ret (List Nat) :=
  match jsonString data with
  | .error e => .err e
  | .ok s =>
    match parseMAC s with
    | .error e => .err e
    | .ok hardwareAddr => .ok hardwareAddr

/-! ## `net.SplitHostPort`

The function is part of the Go standard library, not of the repository; the
decoders take it as a parameter. This definition follows the library: the port
is what follows the last colon, and a host in brackets ends at the first
closing bracket, which must stand right before that colon. -/

/-- The first position of a character in a list, counted from `i`. -/
def indexOfChar (c : Char) : List Char → Nat → Option Nat
  | [], _ => none
  | x :: xs, i => if x = c then some i else indexOfChar c xs (i + 1)

/-- The last position of a character in a list, counted from `i`. -/
def lastIndexOfChar (c : Char) : List Char → Nat → Option Nat
  | [], _ => none
  | x :: xs, i =>
    match lastIndexOfChar c xs (i + 1) with
    | some j => some j
    | none => if x = c then some i else none

/-- The text of a `net.AddrError`: the address is named unless it is empty. -/
def addrError (addr why : String) : String :=
  if addr ≠ "" then "address " ++ addr ++ ": " ++ why else why

/-- `net.SplitHostPort`. -/
def SplitHostPort (hostport : String) : Except String (String × String) :=
  let hp := hostport.toList
  match lastIndexOfChar ':' hp 0 with
  | none => .error (addrError hostport "missing port in address")
  | some i =>
    if hp.head? = some '[' then
      match indexOfChar ']' hp 0 with
      | none => .error (addrError hostport "missing \x27]\x27 in address")
      | some close =>
        if close + 1 = hp.length then .error (addrError hostport "missing port in address")
        else if close + 1 = i then
          if (indexOfChar '[' (hp.drop 1) 0).isSome then
            .error (addrError hostport "unexpected \x27[\x27 in address")
          else if (indexOfChar ']' (hp.drop (close + 1)) 0).isSome then
            .error (addrError hostport "unexpected \x27]\x27 in address")
          else .ok (String.mk ((hp.take close).drop 1), String.mk (hp.drop (i + 1)))
        else if hp.get? (close + 1) = some ':' then
          .error (addrError hostport "too many colons in address")
        else .error (addrError hostport "missing port in address")
    else if (indexOfChar ':' (hp.take i) 0).isSome then
      .error (addrError hostport "too many colons in address")
    else if (indexOfChar '[' hp 0).isSome then
      .error (addrError hostport "unexpected \x27[\x27 in address")
    else if (indexOfChar ']' hp 0).isSome then
      .error (addrError hostport "unexpected \x27]\x27 in address")
    else .ok (String.mk (hp.take i), String.mk (hp.drop (i + 1)))

/-! ## `net.ParseIP`

The function is part of the Go standard library too. This definition follows
the library as it stood when the repository was written (release 1.13 of Go,
files `net/ip.go` and `net/parse.go`): the first `.` or `:` of the text
decides between the dotted-decimal and the colon form; a text with neither is
no address. Texts are read character by character; every character the
library compares with is ASCII, so reading by octets gives the same result. -/

/-- The bound `big` of the number scanners of package `net`. -/
def big : Nat := 0xFFFFFF

/-- The loop of `dtoi`: `n` is the number read so far, `i` the count of
characters consumed. The result is the number, the count, and success. -/
def dtoiLoop : List Char → Nat → Nat → Nat × Nat × Bool
  | [], n, i => if i = 0 then (0, 0, false) else (n, i, true)
  | c :: cs, n, i =>
    if '0' ≤ c ∧ c ≤ '9' then
      if n * 10 + (c.toNat - '0'.toNat) ≥ big then (big, i, false)
      else dtoiLoop cs (n * 10 + (c.toNat - '0'.toNat)) (i + 1)
    else if i = 0 then (0, 0, false) else (n, i, true)

/-- `dtoi`: decimal to integer. -/
def dtoi (s : List Char) : Nat × Nat × Bool := dtoiLoop s 0 0

/-- The value of a hexadecimal digit, if the character is one. -/
def hexValue (c : Char) : Option Nat :=
  if '0' ≤ c ∧ c ≤ '9' then some (c.toNat - '0'.toNat)
  else if 'a' ≤ c ∧ c ≤ 'f' then some (c.toNat - 'a'.toNat + 10)
  else if 'A' ≤ c ∧ c ≤ 'F' then some (c.toNat - 'A'.toNat + 10)
  else none

/-- The loop of `xtoi`. -/
def xtoiLoop : List Char → Nat → Nat → Nat × Nat × Bool
  | [], n, i => if i = 0 then (0, i, false) else (n, i, true)
  | c :: cs, n, i =>
    match hexValue c with
    | some d =>
      if n * 16 + d ≥ big then (0, i, false)
      else xtoiLoop cs (n * 16 + d) (i + 1)
    | none => if i = 0 then (0, i, false) else (n, i, true)

/-- `xtoi`: hexadecimal to integer. -/
def xtoi (s : List Char) : Nat × Nat × Bool := xtoiLoop s 0 0

/-- `net.IPv4(a, b, c, d)`: the 16-octet form of an IPv4 address. -/
def IPv4Of (a b c d : Nat) : List Nat :=
  [0, 0, 0, 0, 0, 0, 0, 0, 0, 0, 0xff, 0xff, a, b, c, d]

/-- The loop of `parseIPv4`: `rounds` fields are still to be read, `p` holds
the octets read so far. -/
def parseIPv4Loop : Nat → List Char → List Nat → Option (List Nat)
  | 0, s, p =>
    if s.length ≠ 0 then none
    else some (IPv4Of (p.getD 0 0) (p.getD 1 0) (p.getD 2 0) (p.getD 3 0))
  | rounds + 1, s, p =>
    if s.length = 0 then none
    else if p.length > 0 ∧ s.head? ≠ some '.' then none
    else
      let s := if p.length > 0 then s.drop 1 else s
      match dtoi s with
      | (n, c, ok) =>
        if ¬ ok ∨ n > 0xFF then none
        else parseIPv4Loop rounds (s.drop c) (p ++ [n % 256])

/-- `parseIPv4`: four decimal fields separated by dots, and nothing else. -/
def parseIPv4 (s : List Char) : Option (List Nat) := parseIPv4Loop 4 s []

/-- The loop of `parseIPv6`, which runs while `i < IPv6len`: `i` is the count
of octets written, the length of `ip`; it starts at 0 and grows by 2 in each
round that goes on, so the loop has at most 8 rounds, counted down by the
first argument. The result is the state in which the loop is left (the octets
written, the position of the ellipsis if there is one, the text not yet read),
or nothing where `parseIPv6` returns nil. -/
def parseIPv6Loop : Nat → List Nat → Option Nat → List Char →
    Option (List Nat × Option Nat × List Char)
  | 0, ip, ellipsis, s => some (ip, ellipsis, s)
  | rounds + 1, ip, ellipsis, s =>
    match xtoi s with
    | (n, c, ok) =>
      if ¬ ok ∨ n > 0xFFFF then none
      else if c < s.length ∧ s.get? c = some '.' then
        if ellipsis = none ∧ ip.length ≠ 12 then none
        else if ip.length + 4 > 16 then none
        else
          match parseIPv4 s with
          | none => none
          | some ip4 => some (ip ++ ip4.drop 12, ellipsis, [])
      else
        let ip := ip ++ [n / 256 % 256, n % 256]
        let s := s.drop c
        if s.length = 0 then some (ip, ellipsis, s)
        else if s.head? ≠ some ':' ∨ s.length = 1 then none
        else
          let s := s.drop 1
          if s.head? = some ':' then
            if ellipsis.isSome then none
            else if (s.drop 1).length = 0 then some (ip, some ip.length, s.drop 1)
            else parseIPv6Loop rounds ip (some ip.length) (s.drop 1)
          else parseIPv6Loop rounds ip ellipsis s

/-- `parseIPv6`: groups of hexadecimal digits separated by colons, with at most
one ellipsis `::`, which stands for the groups that are missing, and
optionally a dotted-decimal tail. -/
def parseIPv6 (s : List Char) : Option (List Nat) :=
  let leading : Bool := decide (s.length ≥ 2 ∧ s.get? 0 = some ':' ∧ s.get? 1 = some ':')
  if leading ∧ (s.drop 2).length = 0 then some (List.replicate 16 0)
  else
    match parseIPv6Loop 8 [] (if leading then some 0 else none)
        (if leading then s.drop 2 else s) with
    | none => none
    | some (ip, ellipsis, s) =>
      if s.length ≠ 0 then none
      else if ip.length < 16 then
        match ellipsis with
        | none => none
        | some e => some (ip.take e ++ List.replicate (16 - ip.length) 0 ++ ip.drop e)
      else if ellipsis.isSome then none
      else some ip

/-- The loop of `net.ParseIP` over the characters of `s`. -/
def parseIPScan (s : List Char) : List Char → Option (List Nat)
  | [] => none
  | c :: rest =>
    if c = '.' then parseIPv4 s
    else if c = ':' then parseIPv6 s
    else parseIPScan s rest

/-- `net.ParseIP`. -/
def ParseIP (s : String) : Option (List Nat) := parseIPScan s.toList s.toList

/-! Equality of results of type `Except` is decidable when equality of errors
and of values is. -/

deriving instance DecidableEq for Except

/-! ## Sample libraries -/

/-- The octets of an ASCII text. -/
def bytesOf (text : String) : List Nat := text.toList.map Char.toNat

/-- The text of a document of the droplet schema whose member `metadata` is `null`. -/
def envelopeNullMetadata : String :=
  "\x7b\"kind\":\"digitalocean.com/v1\",\"metadata\":null\x7d"

/-- What `encoding/json` does on the two texts of the examples: the text
`null`, and the document `envelopeNullMetadata`, whose raw `metadata` member
is the text `null`; decoding `null` into the interface value that holds a new
droplet sets the interface value to nil. Every other text is refused. -/
def sampleJSON : JSONLib :=
  { checkValid := fun data =>
      if data = bytesOf "null" ∨ data = bytesOf envelopeNullMetadata then .ok ()
      else .error "invalid character",
    isNull := fun data => decide (data = bytesOf "null"),
    decodeRaw := fun data =>
      if data = bytesOf envelopeNullMetadata then .ok (TypeURIV1, bytesOf "null")
      else .error "json: cannot unmarshal into Go value of type document.rawJSONDocument",
    decodeMetadata := fun data =>
      if data = bytesOf "null" then .ok .nil else .err "unexpected end of JSON input" }

/-- A YAML library that refuses every text. -/
def sampleYAML : YAMLLib :=
  { checkValid := fun _ => .error "yaml: did not find expected node content",
    isNull := fun _ => false,
    decodeRaw := fun _ => .error "yaml: did not find expected node content",
    decodeDroplet := fun _ => .err "yaml: did not find expected node content" }

/-- What `net.ParseIP` returns on the texts of the examples: the 16-octet
forms of `8.8.8.8` and `10.0.0.2`, the address `2001:db8::2`, and nil for any
other text, as for one that is no IP literal. -/
def sampleParseIP (s : String) : Option (List Nat) :=
  if s = "8.8.8.8" then some [0, 0, 0, 0, 0, 0, 0, 0, 0, 0, 255, 255, 8, 8, 8, 8]
  else if s = "10.0.0.2" then some [0, 0, 0, 0, 0, 0, 0, 0, 0, 0, 255, 255, 10, 0, 0, 2]
  else if s = "2001:db8::2" then
    some [0x20, 0x01, 0x0d, 0xb8, 0, 0, 0, 0, 0, 0, 0, 0, 0, 0, 0, 2]
  else none

/-! ## Properties of a directory store -/

/-- Every binding of an address and a schema to a path is backed by the
path-to-MACs index: the path is a key of that index and the address is among
the addresses recorded for the path. -/
def BindingsRecorded (s : DirStore) : Prop :=
  ∀ M S P, s.resolve M S = some P →
    ∃ dataLinkAddrs, s.dataLinkAddrsForFilePath.lookup P = some dataLinkAddrs ∧
      M ∈ dataLinkAddrs

/-- The stores reachable when a create event only ever arrives for a path that
is not indexed at that moment. -/
inductive ReachableByFirstCreates (cacheSize : Nat) : DirStore → Prop where
  | empty : ReachableByFirstCreates cacheSize (DirStore.empty cacheSize)
  | step (s : DirStore) (fs : FileSystem) (dec : Decoders) (event : FsEvent) :
      ReachableByFirstCreates cacheSize s →
      (event.Op.Create = true → s.dataLinkAddrsForFilePath.lookup event.Name = none) →
      (s.handleEvent fs dec event).ret = .ok () →
      ReachableByFirstCreates cacheSize (s.handleEvent fs dec event).store

/-! ## `pkg/store/dir.go`: listing the documents of an address, and lookups

`DirStore.ListDocuments` collects the bound paths in a Go map used as a set and
ranges over that map, whose iteration order is not specified: the order is the
parameter `order`, applied to the distinct paths. -/

/-- The loop of `ListDocuments` over the paths: a document that fails to load
is skipped, a fault ends the call. -/
def DirStore.loadAll (fs : FileSystem) (dec : Decoders) :
    List String → DirStore → List String → List Document → Call (List Document)
  | [], s, reads, ret => { store := s, reads := reads, ret := .ok ret }
  | filePath :: rest, s, reads, ret =>
    match (s.getDocument fs dec filePath).ret with
    | .ok d =>
      DirStore.loadAll fs dec rest (s.getDocument fs dec filePath).store
        (reads ++ (s.getDocument fs dec filePath).reads) (ret ++ [d])
    | .err _ =>
      DirStore.loadAll fs dec rest (s.getDocument fs dec filePath).store
        (reads ++ (s.getDocument fs dec filePath).reads) ret
    | .fault reason =>
      { store := (s.getDocument fs dec filePath).store,
        reads := reads ++ (s.getDocument fs dec filePath).reads, ret := .fault reason }

/-- `DirStore.ListDocuments`. -/
def DirStore.ListDocuments (fs : FileSystem) (dec : Decoders)
    (order : List String → List String) (s : DirStore) (canonicalDataLinkAddr : String) :
    Call (List Document) :=
  match s.ListSupportedTypeURIs canonicalDataLinkAddr with
  | .error e => { store := s, reads := [], ret := .err e }
  | .ok typeURIs =>
    match s.filePathForDataLinkAddrAndTypeURI.lookup canonicalDataLinkAddr with
    | some filePathForTypeURI =>
      let filePaths := (typeURIs.filterMap (fun typeURI => filePathForTypeURI.lookup typeURI)).dedup
      DirStore.loadAll fs dec (order filePaths) s [] []
    | none => { store := s, reads := [], ret := .err ErrNotFound }

/-- The stores reachable by events and lookups in any order, with any content
of the file system at each step. An event that faults ends the process; a
lookup runs in a request handler, so the store it leaves is reachable however
the lookup ends. The order in which `ListDocuments` visits the paths is any
rearrangement of them. -/
inductive ReachableWithLookups (cacheSize : Nat) : DirStore → Prop where
  | empty : ReachableWithLookups cacheSize (DirStore.empty cacheSize)
  | event (s : DirStore) (fs : FileSystem) (dec : Decoders) (event : FsEvent) :
      ReachableWithLookups cacheSize s → (s.handleEvent fs dec event).ret = .ok () →
      ReachableWithLookups cacheSize (s.handleEvent fs dec event).store
  | getDocument (s : DirStore) (fs : FileSystem) (dec : Decoders)
      (canonicalDataLinkAddr typeURI : String) :
      ReachableWithLookups cacheSize s →
      ReachableWithLookups cacheSize (s.GetDocument fs dec canonicalDataLinkAddr typeURI).store
  | listDocuments (s : DirStore) (fs : FileSystem) (dec : Decoders)
      (order : List String → List String) (canonicalDataLinkAddr : String) :
      ReachableWithLookups cacheSize s → (∀ l, (order l).Perm l) →
      ReachableWithLookups cacheSize
        (s.ListDocuments fs dec order canonicalDataLinkAddr).store

/-- Every key of the document cache is a key of the path-to-MACs index. -/
def CacheKeysIndexed (s : DirStore) : Prop :=
  ∀ key, (s.documentCache.Get key).isSome →
    (s.dataLinkAddrsForFilePath.lookup key).isSome

/-- The schema list and the bindings of an address agree: both are absent, or
the list is not empty and holds exactly the schemas that are bound to a path. -/
def SchemasMatchBindings (s : DirStore) : Prop :=
  ∀ M,
    (s.typeURIsForDataLinkAddr.lookup M = none
      ↔ s.filePathForDataLinkAddrAndTypeURI.lookup M = none) ∧
    ∀ typeURIs, s.typeURIsForDataLinkAddr.lookup M = some typeURIs →
      typeURIs ≠ [] ∧ ∀ S, S ∈ typeURIs ↔ (s.resolve M S).isSome

/-- The stores reachable by events and lookups when a create event only ever
arrives for a path that is not indexed at that moment. -/
inductive ReachableWithLookupsByFirstCreates (cacheSize : Nat) : DirStore → Prop where
  | empty : ReachableWithLookupsByFirstCreates cacheSize (DirStore.empty cacheSize)
  | event (s : DirStore) (fs : FileSystem) (dec : Decoders) (event : FsEvent) :
      ReachableWithLookupsByFirstCreates cacheSize s →
      (event.Op.Create = true → s.dataLinkAddrsForFilePath.lookup event.Name = none) →
      (s.handleEvent fs dec event).ret = .ok () →
      ReachableWithLookupsByFirstCreates cacheSize (s.handleEvent fs dec event).store
  | getDocument (s : DirStore) (fs : FileSystem) (dec : Decoders)
      (canonicalDataLinkAddr typeURI : String) :
      ReachableWithLookupsByFirstCreates cacheSize s →
      ReachableWithLookupsByFirstCreates cacheSize
        (s.GetDocument fs dec canonicalDataLinkAddr typeURI).store
  | listDocuments (s : DirStore) (fs : FileSystem) (dec : Decoders)
      (order : List String → List String) (canonicalDataLinkAddr : String) :
      ReachableWithLookupsByFirstCreates cacheSize s → (∀ l, (order l).Perm l) →
      ReachableWithLookupsByFirstCreates cacheSize
        (s.ListDocuments fs dec order canonicalDataLinkAddr).store

/-! ## More sample stores -/

/-- The store `storeCreated` after `GetDocument` for the first sample address
loaded `/srv/a.json` into the cache. -/
def storeCached : DirStore :=
  (storeCreated.GetDocument (fileSystemOf [("/srv/a.json", [1])]) sampleDecoders
    (CanonicalString sampleMac) TypeURIV1).store

/-- The store `storeCached` after a create event on `/srv/a.json`, the file
now holding the moved document. -/
def storeCachedRecreated : DirStore :=
  (storeCached.handleEvent (fileSystemOf [("/srv/a.json", [2])]) sampleDecoders
    (createEvent "/srv/a.json")).store

/-- The store `storeCreatedTwice` after a remove event on `/srv/a.json`. -/
def storeRemoved : DirStore :=
  (storeCreatedTwice.handleEvent (fileSystemOf []) sampleDecoders
    (removeEvent "/srv/a.json")).store

/-- The store `storeRemoved` after `GetDocument` for the first sample address,
at a moment when a file `/srv/a.json` exists again. -/
def storeRemovedLookedUp : DirStore :=
  (storeRemoved.GetDocument (fileSystemOf [("/srv/a.json", [1])]) sampleDecoders
    (CanonicalString sampleMac) TypeURIV1).store

/-- The store after create events on `/srv/a.json` and then `/srv/b.json`,
both holding the sample document, so both declaring the first sample address. -/
def storeShared : DirStore :=
  (storeCreated.handleEvent (fileSystemOf [("/srv/a.json", [1]), ("/srv/b.json", [1])])
    sampleDecoders (createEvent "/srv/b.json")).store

/-- The store after create events on `/srv/a.json`, holding the sample
document, and `/srv/b.json`, holding the moved document: two files that
declare different addresses. -/
def storeTwoFiles : DirStore :=
  (storeCreated.handleEvent (fileSystemOf [("/srv/a.json", [1]), ("/srv/b.json", [2])])
    sampleDecoders (createEvent "/srv/b.json")).store

/-! ## `internal/pkg/arp/table_darwin.go`: the sysctl backend

The kernel is a parameter: what the system call yields for the size query and
for each attempt to dump the table. The walk over the records of the dumped
table reads them through raw pointers; it is a parameter too, giving the
entries it emits, or nothing when it does not end. -/

/-- What one `syscall.Syscall6(SYS___SYSCTL, ...)` yields: the third result
`ep`, a `syscall.Errno`, which is an unsigned machine word; the value of
`*oldlen` after the call; the octets the kernel wrote to the buffer. -/
structure SysctlReply where
  ep : Nat
  oldlen : Nat
  data : List Nat
deriving DecidableEq, Repr

/-- The kernel as `Table.Poll` meets it: the reply to the size query, and the
reply to the attempt number `i` to dump the table into a buffer of a given size. -/
structure SysctlKernel where
  query : SysctlReply
  dump : Nat → Nat → SysctlReply

/-- The wrapper `sysctl` of `table_darwin.go`: the error it returns, if any.
The test is `ep < 0` on the unsigned `ep`. -/
def Darwin.sysctl (reply : SysctlReply) : Option Nat :=
  if reply.ep < 0 then some reply.ep else none

/-- The text of a `syscall.Errno`, as far as the examples need it. -/
def errnoText (ep : Nat) : String := "errno " ++ toString ep

/-- The loop `L` of `Table.Poll`: attempt number `i` with `needed` octets. The
result is the buffer on `break L`, the error of the context when it is done, a
fault when the buffer is empty at `&rawRoutingTableBuf[0]`, or nothing when
`fuel` attempts did not end the loop. -/
def Darwin.dumpLoop (kernel : SysctlKernel) (done : Nat → Option String) :
    Nat → Nat → Nat → Option (Ret (List Nat))
  | 0, _, _ => none
  | fuel + 1, i, needed =>
    match done i with
    | some e => some (.err e)
    | none =>
      if needed = 0 then some (.fault "index out of range [0] with length 0")
      else
        let reply := kernel.dump i needed
        let rawRoutingTableBuf :=
          reply.data.take needed ++ List.replicate (needed - reply.data.length) 0
        match Darwin.sysctl reply with
        | none => some (.ok rawRoutingTableBuf)
        | some _ =>
          Darwin.dumpLoop kernel done fuel (i + 1)
            ((reply.oldlen + reply.oldlen / 2) % 2 ^ 64)

/-- `Table.Poll` of `table_darwin.go`: the entries passed to the callback, or
the error returned, or nothing when the call does not return (within `fuel`
attempts of the loop, or because the walk does not end). -/
def Darwin.Poll (kernel : SysctlKernel) (done : Nat → Option String)
    (walk : List Nat → Option (List Entry)) (fuel : Nat) : Option (Ret (List Entry)) :=
  match Darwin.sysctl kernel.query with
  | some ep => some (.err (errnoText ep))
  | none =>
    if kernel.query.oldlen = 0 then some (.ok [])
    else
      match Darwin.dumpLoop kernel done fuel 0 kernel.query.oldlen with
      | none => none
      | some (.err e) => some (.err e)
      | some (.fault reason) => some (.fault reason)
      | some (.ok rawRoutingTableBuf) =>
        match walk rawRoutingTableBuf with
        | none => none
        | some entries => some (.ok entries)

/-- A kernel whose size query fails with `EPERM` (1), leaving `*oldlen` at 0. -/
def kernelQueryFails : SysctlKernel :=
  { query := { ep := 1, oldlen := 0, data := [] },
    dump := fun _ _ => { ep := 1, oldlen := 0, data := [] } }

/-- A kernel whose size query asks for 8 octets and whose dump fails with
`ENOMEM` (12) on every attempt, the table having outgrown the buffer: it
reports 16 octets as needed and writes nothing. -/
def kernelDumpFails : SysctlKernel :=
  { query := { ep := 0, oldlen := 8, data := [] },
    dump := fun _ _ => { ep := 12, oldlen := 16, data := [] } }

/-- A walk that emits no entry. -/
def walkNothing : List Nat → Option (List Entry) := fun _ => some []

/-! ## `internal/pkg/arp/table_linux.go`: the netlink backend

The socket is a parameter: the errors of `unix.Socket`, `unix.Bind` and
`unix.Write`, and what each `unix.Read` yields. Structures are read from the
octets in the byte order of the target, little-endian. The constants of
package `unix` have their Linux values. The reply buffer `buf` is a slice whose
octets from its length up to its capacity are zero; a read through a raw
pointer at or past the capacity reads memory the model does not hold, and the
model stops there with `undefined`. -/

/-- `unix.SizeofNlMsghdr` and `unix.NLMSG_HDRLEN`. -/
def SizeofNlMsghdr : Nat := 16

/-- `unix.NLMSG_ERROR`. -/
def NLMSG_ERROR : Nat := 2

/-- `unix.NLMSG_DONE`. -/
def NLMSG_DONE : Nat := 3

/-- `unix.NLM_F_MULTI`. -/
def NLM_F_MULTI : Nat := 2

/-- `unix.SizeofRtAttr`. -/
def SizeofRtAttr : Nat := 4

/-- `unix.NDA_DST`. -/
def NDA_DST : Nat := 1

/-- `unix.NDA_LLADDR`. -/
def NDA_LLADDR : Nat := 2

/-- `unix.AF_INET`. -/
def AF_INET : Nat := 2

/-- The error `errBadNlMsg`. -/
def errBadNlMsg : String := "Bad NlMsg"

/-- The error `errNlMsgErr`. -/
def errNlMsgErr : String := "NlMsg error"

/-- The conversion `uintptr(x)` of an `int` on a 64-bit target. -/
def intToUintptr (x : Int) : Nat := (x % 2 ^ 64).toNat

/-- The conversion of the bits of a `uint32` to `int32`. -/
def int32OfBits (x : Nat) : Int :=
  if x % 2 ^ 32 < 2 ^ 31 then ((x % 2 ^ 32 : Nat) : Int) else ((x % 2 ^ 32 : Nat) : Int) - 2 ^ 32

/-- `nlMsgAlign`: `(len + 3) &^ 3` on a `uintptr`. -/
def nlMsgAlign (len : Nat) : Nat := (len + 3) % 2 ^ 64 / 4 * 4

/-- `rtaAlign`: `(len + 3) &^ 3` on a `uintptr`. -/
def rtaAlign (len : Nat) : Nat := (len + 3) % 2 ^ 64 / 4 * 4

/-- `nlMsgOK`, given the field `nlh.Len`. -/
def nlMsgOK (nlhLen : Nat) (len : Int) : Bool :=
  decide (intToUintptr len ≥ SizeofNlMsghdr ∧ nlhLen ≥ SizeofNlMsghdr
    ∧ nlhLen ≤ intToUintptr len)

/-- A 16-bit field of an array of octets at a position, an octet that is not
there reading as zero. -/
def le16 (bytes : List Nat) (i : Nat) : Nat :=
  bytes.getD i 0 % 256 + 256 * (bytes.getD (i + 1) 0 % 256)

/-- A 32-bit field of an array of octets at a position. -/
def le32 (bytes : List Nat) (i : Nat) : Nat :=
  le16 bytes i + 65536 * le16 bytes (i + 2)

/-- The slice `buf` after the read loop: its octets and its capacity. -/
structure NlBuffer where
  data : List Nat
  cap : Nat
deriving DecidableEq, Repr

/-- Whether the octets from `i` up to `i + n` lie within the capacity. -/
def NlBuffer.holds (b : NlBuffer) (i n : Nat) : Bool := decide (i + n ≤ b.cap)

/-- The neighbour entry `Entry` of `table_linux.go`, without the fields `Flags`
and `State`, which `Poll` never sets; `none` is the nil slice. -/
structure NeighEntry where
  InterfaceIndex : Int
  Family : Nat
  DestinationAddr : Option (List Nat)
  LinkLayerAddr : Option (List Nat)
deriving DecidableEq, Repr

/-- How `Table.Poll` ends, or fails to: it returns (with an error or none), it
faults, it reads past the capacity of `buf`, it runs longer than the model
allows, or it waits for a read that never comes. -/
inductive PollEnd where
  | returned (err : Option String)
  | faulted (reason : String)
  | undefined
  | outOfFuel
  | blocked
deriving DecidableEq, Repr

/-- The loop over the attributes of one message: `attr` is the position of the
attribute in `buf`, `len` the `uintptr` count of octets left. The slice
expression `buf[off : off+addrLen]` faults when it ends past the capacity. -/
def attrLoop (b : NlBuffer) : Nat → Nat → Nat → NeighEntry → Except PollEnd NeighEntry
  | 0, _, _, _ => .error .outOfFuel
  | fuel + 1, attr, len, entry =>
    if len < SizeofRtAttr then .ok entry
    else if ¬ b.holds attr 2 then .error .undefined
    else if le16 b.data attr < SizeofRtAttr ∨ le16 b.data attr > len then .ok entry
    else if ¬ b.holds attr 4 then .error .undefined
    else
      let rtaLen := le16 b.data attr
      let rtaType := le16 b.data (attr + 2)
      let off := attr + 4
      let addrLen := rtaLen - 4
      let newLen := (len + 2 ^ 64 - rtaAlign rtaLen) % 2 ^ 64
      if rtaType = NDA_LLADDR then
        if ¬ b.holds off addrLen then .error (.faulted "slice bounds out of range")
        else
          attrLoop b fuel (attr + rtaAlign (rtaAlign rtaLen)) newLen
            { entry with
              LinkLayerAddr :=
                some ((List.range addrLen).map (fun k => b.data.getD (off + k) 0 % 256)) }
      else if rtaType = NDA_DST then
        if ¬ b.holds off addrLen then .error (.faulted "slice bounds out of range")
        else
          attrLoop b fuel (attr + rtaAlign (rtaAlign rtaLen)) newLen
            { entry with
              DestinationAddr :=
                some ((List.range addrLen).map (fun k => b.data.getD (off + k) 0 % 256)) }
      else attrLoop b fuel (attr + rtaAlign (rtaAlign rtaLen)) newLen entry

/-- What one round of the parse loop does: it ends `Poll`, or it goes on to
the next message, having passed an entry to the callback or not. -/
inductive ParseStep where
  | stop (ending : PollEnd)
  | next (emitted : Option NeighEntry) (off : Nat) (bufLen : Int)
deriving DecidableEq, Repr

/-- One round of the parse loop of `Table.Poll`, for the message at position
`off` of `buf`, with `bufLen` octets counted as left. -/
def parseMessage (b : NlBuffer) (off : Nat) (bufLen : Int) : ParseStep :=
  if intToUintptr bufLen < SizeofNlMsghdr then .stop (.returned none)
  else if ¬ b.holds off 4 then .stop .undefined
  else if ¬ nlMsgOK (le32 b.data off) bufLen then .stop (.returned none)
  else if ¬ b.holds off 6 then .stop .undefined
  else if le16 b.data (off + 4) = NLMSG_ERROR then .stop (.returned (some errNlMsgErr))
  else if ¬ b.holds off 24 then .stop .undefined
  else
    let nlLen := le32 b.data off
    let family := b.data.getD (off + 16) 0 % 256
    match attrLoop b (b.cap + 1) (off + 28) ((nlLen + 2 ^ 64 - 28) % 2 ^ 64)
        { InterfaceIndex := int32OfBits (le32 b.data (off + 20)), Family := family,
          DestinationAddr := none, LinkLayerAddr := none } with
    | .error ending => .stop ending
    | .ok entry =>
      .next (if family = AF_INET then some entry else none)
        (off + nlMsgAlign (nlMsgAlign nlLen)) (bufLen - (nlMsgAlign nlLen : Nat))

/-- The parse loop of `Table.Poll`: the entries passed to the callback, in
order, and how the loop ends. -/
def parseLoop (b : NlBuffer) : Nat → Nat → Int → List NeighEntry → List NeighEntry × PollEnd
  | 0, _, _, entries => (entries, .outOfFuel)
  | fuel + 1, off, bufLen, entries =>
    match parseMessage b off bufLen with
    | .stop ending => (entries, ending)
    | .next none off1 bufLen1 => parseLoop b fuel off1 bufLen1 entries
    | .next (some entry) off1 bufLen1 => parseLoop b fuel off1 bufLen1 (entries ++ [entry])

/-- The read loop of `Table.Poll`: `reads` is what the successive calls of
`unix.Read(fd, tmpBuf)` yield, an error or the octets received, of which the
512 octets of `tmpBuf` take the first 512. The result is `buf` when the loop
is left by `break`. -/
def readLoop : List (Except String (List Nat)) → List Nat → List Nat →
    Except PollEnd (List Nat)
  | [], _, _ => .error .blocked
  | .error e :: _, _, _ => .error (.returned (some e))
  | .ok received :: rest, tmpBuf, buf =>
    let tmpBuf := received.take 512 ++ tmpBuf.drop (received.take 512).length
    let buf := buf ++ received.take 512
    if ¬ nlMsgOK (le32 tmpBuf 0) buf.length then .error (.returned (some errBadNlMsg))
    else if le16 tmpBuf 4 = NLMSG_ERROR then .error (.returned (some errNlMsgErr))
    else if le16 tmpBuf 4 = NLMSG_DONE then .ok buf
    else if le16 tmpBuf 6 &&& NLM_F_MULTI = 0 then .ok buf
    else readLoop rest tmpBuf buf

/-- The netlink socket as `Table.Poll` meets it. `grown` is the capacity the
run time gives `buf` when more than the initial 8192 octets are appended. -/
structure Netlink where
  socket : Option String
  bind : Option String
  write : Option String
  reads : List (Except String (List Nat))
  grown : Nat

/-- The capacity of `buf` after the read loop. -/
def capacityOf (k : Netlink) (data : List Nat) : Nat :=
  if data.length ≤ 8192 then 8192 else max data.length k.grown

/-- `Table.Poll` of `table_linux.go`: the entries passed to the callback, and
how the call ends. -/
def Linux.Poll (k : Netlink) : List NeighEntry × PollEnd :=
  match k.socket with
  | some e => ([], .returned (some e))
  | none =>
    match k.bind with
    | some e => ([], .faulted e)
    | none =>
      match k.write with
      | some e => ([], .returned (some e))
      | none =>
        match readLoop k.reads (List.replicate 512 0) [] with
        | .error ending => ([], ending)
        | .ok data =>
          parseLoop { data := data, cap := capacityOf k data } (capacityOf k data + 1) 0
            data.length []

/-! ## Sample netlink replies -/

/-- A neighbour message of 48 octets in a multi-part reply: family `AF_INET`,
interface 3, destination `10.0.0.2`, link-layer address `52:54:00:12:34:56`. -/
def neighbourMessage : List Nat :=
  [48, 0, 0, 0, 28, 0, 2, 0, 0, 0, 0, 0, 0, 0, 0, 0,
   2, 0, 0, 0, 3, 0, 0, 0, 2, 0, 0, 1,
   8, 0, 1, 0, 10, 0, 0, 2,
   10, 0, 2, 0, 0x52, 0x54, 0x00, 0x12, 0x34, 0x56, 0, 0]

/-- A header of 16 octets whose length field is 8. -/
def shortHeader : List Nat :=
  [8, 0, 0, 0, 28, 0, 2, 0, 0, 0, 0, 0, 0, 0, 0, 0]

/-- An `NLMSG_ERROR` message of 36 octets. -/
def errorMessage : List Nat :=
  [36, 0, 0, 0, 2, 0, 0, 0, 0, 0, 0, 0, 0, 0, 0, 0,
   0xff, 0xff, 0xff, 0xff,
   28, 0, 0, 0, 30, 0, 1, 3, 0, 0, 0, 0, 0, 0, 0, 0]

/-- The `NLMSG_DONE` message of 20 octets that closes a multi-part reply. -/
def doneMessage : List Nat :=
  [20, 0, 0, 0, 3, 0, 2, 0, 0, 0, 0, 0, 0, 0, 0, 0, 0, 0, 0, 0]

/-- A socket that yields the given reads and no error elsewhere. -/
def netlinkOf (reads : List (List Nat)) : Netlink :=
  { socket := none, bind := none, write := none, reads := reads.map Except.ok, grown := 0 }

/-- The entry of `neighbourMessage`. -/
def neighbourEntry : NeighEntry :=
  { InterfaceIndex := 3, Family := 2, DestinationAddr := some [10, 0, 0, 2],
    LinkLayerAddr := some [0x52, 0x54, 0x00, 0x12, 0x34, 0x56] }

/-- Whether the read loop goes on to the next read after a datagram of at
least 8 and at most 512 octets, `soFar` octets having been read before it: its
first header passes `nlMsgOK`, is neither `NLMSG_ERROR` nor `NLMSG_DONE`, and
has the flag `NLM_F_MULTI`. -/
def readsOn (received : List Nat) (soFar : Nat) : Bool :=
  decide (8 ≤ received.length ∧ received.length ≤ 512) &&
    nlMsgOK (le32 received 0) ((soFar + received.length : Nat) : Int) &&
    decide (le16 received 4 ≠ NLMSG_ERROR ∧ le16 received 4 ≠ NLMSG_DONE
      ∧ le16 received 6 &&& NLM_F_MULTI ≠ 0)

/-- Whether the read loop goes on after each datagram of a list. -/
def allReadOn : List (List Nat) → Nat → Bool
  | [], _ => true
  | received :: rest, soFar =>
    readsOn received soFar && allReadOn rest (soFar + received.length)

/-- The rounds of the parse loop: the position, the count of octets left and
the entries passed to the callback when a round begins. -/
inductive ParseReaches (b : NlBuffer) : Nat → Int → List NeighEntry → Prop where
  | start : ParseReaches b 0 (b.data.length : Int) []
  | skip (off : Nat) (bufLen : Int) (entries : List NeighEntry) (off1 : Nat) (bufLen1 : Int) :
      ParseReaches b off bufLen entries →
      parseMessage b off bufLen = .next none off1 bufLen1 →
      ParseReaches b off1 bufLen1 entries
  | emit (off : Nat) (bufLen : Int) (entries : List NeighEntry) (entry : NeighEntry)
      (off1 : Nat) (bufLen1 : Int) :
      ParseReaches b off bufLen entries →
      parseMessage b off bufLen = .next (some entry) off1 bufLen1 →
      ParseReaches b off1 bufLen1 (entries ++ [entry])

/-! ## The poll as the watcher meets it

The callback the watcher hands to `Table.Poll` reads each entry through
`entry.RemoteIP()` and `entry.HardwareAddr()`; the call itself returns, faults
or never returns. -/

/-- `unix.AF_INET6`. -/
def AF_INET6 : Nat := 10

/-- `Entry.RemoteIP` of `table_linux.go`: the destination address for the
families `AF_INET` and `AF_INET6`, nil (the empty address) otherwise. -/
def NeighEntry.RemoteIP (e : NeighEntry) : List Nat :=
  if e.Family = AF_INET then e.DestinationAddr.getD []
  else if e.Family = AF_INET6 then e.DestinationAddr.getD []
  else []

/-- `Entry.HardwareAddr` of `table_linux.go`. -/
def NeighEntry.HardwareAddr (e : NeighEntry) : Option (List Nat) := e.LinkLayerAddr

/-- What the callback of the watcher reads of an entry. -/
def NeighEntry.toEntry (e : NeighEntry) : Entry :=
  { RemoteIP := e.RemoteIP, HardwareAddr := e.HardwareAddr }

/-- A run of `Table.Poll` of `table_linux.go` as its caller meets it; nothing
for a run the model of the netlink backend does not follow to its end (a read
past the capacity of `buf`, a run out of fuel). -/
def Linux.pollResult (k : Netlink) : Option PollResult :=
  match Linux.Poll k with
  | (entries, .returned err) =>
    some { entries := entries.map NeighEntry.toEntry, ending := .returned err }
  | (entries, .faulted reason) =>
    some { entries := entries.map NeighEntry.toEntry, ending := .faulted reason }
  | (entries, .blocked) =>
    some { entries := entries.map NeighEntry.toEntry, ending := .blocked }
  | (_, .undefined) => none
  | (_, .outOfFuel) => none

/-- A run of `Table.Poll` of `table_darwin.go` as its caller meets it; nothing
for a run the model of the sysctl backend does not follow to its end. -/
def Darwin.pollResult (kernel : SysctlKernel) (done : Nat → Option String)
    (walk : List Nat → Option (List Entry)) (fuel : Nat) : Option PollResult :=
  match Darwin.Poll kernel done walk fuel with
  | none => none
  | some (.ok entries) => some { entries := entries, ending := .returned none }
  | some (.err e) => some { entries := [], ending := .returned (some e) }
  | some (.fault reason) => some { entries := [], ending := .faulted reason }

/-- A netlink socket that delivers the neighbour message and the closing
`NLMSG_DONE` message as two datagrams. -/
def netlinkTwoDatagrams : Netlink := netlinkOf [neighbourMessage, doneMessage]

/-- A netlink socket whose `unix.Bind` fails. -/
def netlinkBindFails : Netlink :=
  { socket := none, bind := some "permission denied", write := none, reads := [], grown := 0 }

/-- A poll that returns an error after emitting the entry of the caller. -/
def failedPoll : PollResult :=
  { entries := [{ RemoteIP := [10, 0, 0, 2], HardwareAddr := some sampleMac }],
    ending := .returned (some "NlMsg error") }

/-! # Theorems -/

/-! ## The dispatcher -/

theorem record_trace (w : Exchange) (e : Event) : (w.record e).trace = w.trace ++ [e] := rfl

theorem record_status (w : Exchange) (e : Event) : (w.record e).status = w.status := rfl

theorem httpError_statusCode (w : Exchange) (msg : String) (code : Nat) (h : w.status = none) :
    (Outcome.returned (httpError w msg code)).statusCode = some code := by
  simp [httpError, Fprintln, Exchange.Write, Exchange.WriteHeader, Outcome.statusCode, h]

theorem httpError_trace (w : Exchange) (msg : String) (code : Nat) :
    (httpError w msg code).trace = w.trace := by
  unfold httpError Fprintln Exchange.Write Exchange.WriteHeader
  cases w.status <;> rfl

/-- A poll that does not return the error nil leaves the watcher as it was. -/
theorem forcePoll_keeps (w : Watcher) (p : PollResult) (h : p.ending ≠ .returned none) :
    (Watcher.ForcePoll w p).1 = w := by
  unfold Watcher.ForcePoll
  cases h1 : p.ending with
  | returned err =>
    cases err with
    | none => exact absurd h1 h
    | some e => rfl
  | faulted reason => rfl
  | blocked => rfl

/-- The sample polls as runs of the netlink backend: the neighbour message and
the closing message in two datagrams give the poll that finds the caller; a
request served while the poll returns an error after emitting the caller is
answered 404, the error discarded and the published map as it was. -/
theorem sample_polls_of_netlink :
    Linux.pollResult netlinkTwoDatagrams = some samplePoll ∧
    (HTTPServer.ServeHTTP sampleNet failedPoll sampleServer Exchange.fresh
        (getRequest "/metadata/v1/id")).1.arpWatcher = sampleServer.arpWatcher ∧
    (HTTPServer.ServeHTTP sampleNet failedPoll sampleServer Exchange.fresh
        (getRequest "/metadata/v1/id")).2
      = .returned { status := some 404, body := "not found\n", stdout := [],
                    trace := [.lookup "10.0.0.2", .forcePoll, .lookup "10.0.0.2"] } := by
  refine ⟨by decide, by decide, by decide⟩

/-- A request from an address the watcher does not know, served while
`unix.Bind` fails: the poll faults at `panic(err)`, and the handler with it,
after the first lookup and `ForcePoll`. -/
theorem cold_lookup_and_faulting_poll :
    Linux.pollResult netlinkBindFails
      = some { entries := [], ending := .faulted "permission denied" } ∧
    (HTTPServer.ServeHTTP sampleNet { entries := [], ending := .faulted "permission denied" }
        sampleServer Exchange.fresh (getRequest "/metadata/v1/id")).2
      = .panicked { status := none, body := "", stdout := [],
                    trace := [.lookup "10.0.0.2", .forcePoll] } "permission denied" := by
  refine ⟨by decide, by decide⟩

theorem recordAll_append (w : Exchange) (es fs : List Event) :
    w.recordAll (es ++ fs) = (w.recordAll es).recordAll fs := by
  simp [Exchange.recordAll, List.foldl_append]

theorem recordAll_cons (w : Exchange) (e : Event) (es : List Event) :
    w.recordAll (e :: es) = (w.record e).recordAll es := rfl

theorem recordAll_status (w : Exchange) (es : List Event) :
    (w.recordAll es).status = w.status := by
  induction es generalizing w with
  | nil => rfl
  | cons e es ih => rw [recordAll_cons, ih, record_status]

theorem recordAll_trace (w : Exchange) (es : List Event) :
    (w.recordAll es).trace = w.trace ++ es := by
  induction es generalizing w with
  | nil => simp [Exchange.recordAll]
  | cons e es ih => rw [recordAll_cons, ih, record_trace]; simp

/-- The loop over the schema URIs when none of them has a registered endpoint. -/
theorem serveTypeURIs_no_match (router : Router) (w : Exchange) (r : Request)
    (typeURIs : List String) (hnone : ∀ u ∈ typeURIs, router.Match u = none) :
    serveTypeURIs router w r typeURIs
      = .returned (httpError (w.recordAll (typeURIs.map .routerMatch)) "" 404) := by
  induction typeURIs generalizing w with
  | nil => rfl
  | cons u us ih =>
    have hu : router.Match u = none := hnone u (List.mem_cons_self _ _)
    simp only [serveTypeURIs, hu, Option.bind, List.map_cons, recordAll_cons]
    exact ih _ (fun v hv => hnone v (List.mem_cons_of_mem _ hv))

/-- The loop over the schema URIs when `uri` is the first with a registered endpoint. -/
theorem serveTypeURIs_first_match (router : Router) (w : Exchange) (r : Request)
    (pre post : List String) (uri : String) (handler : Exchange → Request → Outcome)
    (hpre : ∀ u ∈ pre, router.Match u = none)
    (huri : router.Match uri = some { http := some handler }) :
    serveTypeURIs router w r (pre ++ uri :: post)
      = handler (w.recordAll (pre.map .routerMatch ++ [.routerMatch uri, .serve uri])) r := by
  induction pre generalizing w with
  | nil =>
    simp [serveTypeURIs, huri, Exchange.recordAll]
  | cons u us ih =>
    have hu : router.Match u = none := hpre u (List.mem_cons_self _ _)
    simp only [List.cons_append, serveTypeURIs, hu, Option.bind, List.map_cons, recordAll_cons]
    exact ih _ (fun v hv => hpre v (List.mem_cons_of_mem _ hv))

/-- Every endpoint registered by `NewRouter` is an HTTP endpoint. -/
theorem NewRouter_endpoints_http (c : Codecs) (st : Store) (u : String) (ep : Endpoint)
    (h : (NewRouter c st).Match u = some ep) : ep.http.isSome = true := by
  simp only [NewRouter, Router.Match, List.lookup] at h
  split at h
  · cases h; rfl
  · cases h

/-- C2. In `HTTPServer.ServeHTTP`, once the caller is identified and the store
has returned the list of schema URIs for the caller's canonical address, with
a router all of whose endpoints are HTTP endpoints (as those of `NewRouter`
are): if `uri` is the first URI of the list, in list order, that
`Router.Match` resolves, the outcome of the request is the outcome of that
endpoint's `ServeHTTP`, entered after the `Router.Match` calls for the URIs up
to `uri` and nothing else, so exactly one endpoint is invoked and the
dispatcher does nothing after it; if `Router.Match` resolves no URI of the
list, the response is 404 and no endpoint is invoked. -/
theorem serveHTTP_first_registered_endpoint (net : NetLib) (p : PollResult) (s s1 : HTTPServer)
    (r : Request) (host : String) (remoteIP addr : List Nat) (w1 : Exchange)
    (typeURIs : List String)
    (hsplit : net.SplitHostPort r.RemoteAddr = .ok host)
    (hparse : net.ParseIP host = some remoteIP)
    (hid : identifyHardwareAddr p s Exchange.fresh remoteIP = .ok (s1, w1, some addr))
    (hlist : s1.store.ListSupportedTypeURIs (CanonicalString addr) = .ok typeURIs)
    (hhttp : ∀ u ep, s1.router.Match u = some ep → ep.http.isSome = true) :
    let res := (HTTPServer.ServeHTTP net p s Exchange.fresh r).2
    let w2 := w1.record (.listTypeURIs (CanonicalString addr))
    let r2 := { r with RemoteDataLinkAddr := CanonicalString addr }
    (∀ pre uri post ep, typeURIs = pre ++ uri :: post →
      (∀ u ∈ pre, s1.router.Match u = none) → s1.router.Match uri = some ep →
      ∃ handler, ep.http = some handler ∧
        res = handler (w2.recordAll (pre.map .routerMatch ++ [.routerMatch uri, .serve uri])) r2 ∧
        (pre.map Event.routerMatch ++ [.routerMatch uri, .serve uri]).count (.serve uri) = 1 ∧
        ∀ v, v ≠ uri →
          (pre.map Event.routerMatch ++ [.routerMatch uri, .serve uri]).count (.serve v) = 0) ∧
    ((∀ u ∈ typeURIs, s1.router.Match u = none) →
      res.statusCode = some 404 ∧
      res.exchange.trace = w2.trace ++ typeURIs.map .routerMatch) := by
  intro res w2 r2
  have hres : res = serveTypeURIs s1.router w2 r2 typeURIs := by
    show (HTTPServer.ServeHTTP net p s Exchange.fresh r).2 = _
    simp only [HTTPServer.ServeHTTP, hsplit, hparse, hid, hlist]
  have hw1 : w1.status = none := by
    unfold identifyHardwareAddr at hid
    split at hid
    · simp only [Except.ok.injEq, Prod.mk.injEq] at hid
      rw [← hid.2.1]; rfl
    · split at hid
      · cases hid
      · cases hid
      · simp only [Except.ok.injEq, Prod.mk.injEq] at hid
        rw [← hid.2.1]; rfl
  refine ⟨?_, ?_⟩
  · intro pre uri post ep hsplitList hpre huri
    have hsome := hhttp uri ep huri
    obtain ⟨http⟩ := ep
    cases http with
    | none => simp at hsome
    | some handler =>
      refine ⟨handler, rfl, ?_, ?_, ?_⟩
      · rw [hres, hsplitList]
        exact serveTypeURIs_first_match _ _ _ _ _ _ _ hpre huri
      · rw [List.count_append]
        have h0 : (pre.map Event.routerMatch).count (.serve uri) = 0 := by
          apply List.count_eq_zero_of_not_mem
          simp
        simp [h0]
      · intro v hv
        rw [List.count_append]
        have h0 : (pre.map Event.routerMatch).count (.serve v) = 0 := by
          apply List.count_eq_zero_of_not_mem
          simp
        simp [h0, hv]
  · intro hnone
    rw [hres, serveTypeURIs_no_match _ _ _ _ hnone]
    refine ⟨httpError_statusCode _ _ _ ?_, ?_⟩
    · rw [recordAll_status]; exact hw1
    · simp [Outcome.exchange, httpError_trace, recordAll_trace]

/-- The witness of C2: a store that lists an unregistered schema before the
droplet schema (the droplet endpoint serves the request, after two
`Router.Match` calls), and a store that lists only an unregistered schema (404). -/
theorem serveHTTP_first_registered_endpoint_witness :
    (∃ handler,
      (Endpoint.mk (some (EndpointV1.ServeHTTP sampleCodecs twoSchemaStore))).http = some handler ∧
      (HTTPServer.ServeHTTP sampleNet emptyPoll (warmServer twoSchemaStore) Exchange.fresh
          (getRequest "/metadata/v1/id")).2
        = handler
            ({ Exchange.fresh with
                trace := [.lookup "10.0.0.2", .listTypeURIs (CanonicalString sampleMac)] }.recordAll
              ([Event.routerMatch "example.com/v0"]
                ++ [Event.routerMatch TypeURIV1, Event.serve TypeURIV1]))
            (getRequest "/metadata/v1/id")) ∧
    (HTTPServer.ServeHTTP sampleNet emptyPoll (warmServer foreignSchemaStore) Exchange.fresh
        (getRequest "/metadata/v1/id")).2.statusCode = some 404 :=
  ⟨((serveHTTP_first_registered_endpoint sampleNet emptyPoll (warmServer twoSchemaStore)
        (warmServer twoSchemaStore) (getRequest "/metadata/v1/id") "10.0.0.2" [10, 0, 0, 2]
        sampleMac { Exchange.fresh with trace := [.lookup "10.0.0.2"] }
        ["example.com/v0", TypeURIV1] rfl rfl rfl rfl
        (NewRouter_endpoints_http sampleCodecs twoSchemaStore)).1
      ["example.com/v0"] TypeURIV1 [] _ rfl
      (by intro u hu; rw [List.mem_singleton] at hu; subst hu; rfl) rfl).imp
      (fun _ h => ⟨h.1, h.2.1⟩),
   ((serveHTTP_first_registered_endpoint sampleNet emptyPoll (warmServer foreignSchemaStore)
        (warmServer foreignSchemaStore) (getRequest "/metadata/v1/id") "10.0.0.2" [10, 0, 0, 2]
        sampleMac { Exchange.fresh with trace := [.lookup "10.0.0.2"] }
        ["example.com/v0"] rfl rfl rfl rfl
        (NewRouter_endpoints_http sampleCodecs foreignSchemaStore)).2
      (by intro u hu; rw [List.mem_singleton] at hu; subst hu; rfl)).1⟩

/-! ## The droplet endpoint: requests evaluated -/

/-- C3. A request that reaches `EndpointV1.ServeHTTP` with the header
`X-Remote-Data-Link-Addr` empty is answered, whatever its method and path and
whatever the store holds, by `notFoundHandlerV1` alone: no route handler runs
and the store is not called, the body is the text `not found`, and the status
written is 301 (`http.StatusMovedPermanently`), not 404. -/
theorem endpointV1_without_header_status_301 (c : Codecs) (st : Store)
    (remoteAddr method path : String) :
    EndpointV1.ServeHTTP c st Exchange.fresh
        { RemoteAddr := remoteAddr, Method := method, Path := path, RemoteDataLinkAddr := "" }
      = .returned { status := some 301, body := "not found", stdout := [], trace := [] } := by
  rfl

/-- C5. With one public interface (`n = 1`), the interface listing and the
address-block listings for index `1 = n` pass the guard `id > len` and fault on
the index expression, after the interface listing has already written two
lines; for index `2 > n`, and on the attribute routes for index `1`, the
handler returns through `notFoundHandlerV1` with status 301, not 404. -/
theorem interface_index_equal_to_length_faults :
    EndpointV1.ServeHTTP sampleCodecs (storeOf sampleDroplet) Exchange.fresh
        (getRequest "/metadata/v1/interfaces/public/1/")
      = .panicked
          { status := some 200, body := "mac\ntype\n", stdout := [],
            trace := [.handler "getEnumeratedInterfaceIndex",
                      .getDocument (CanonicalString sampleMac) TypeURIV1] }
          "index out of range" ∧
    (EndpointV1.ServeHTTP sampleCodecs (storeOf sampleDroplet) Exchange.fresh
        (getRequest "/metadata/v1/interfaces/public/1/ipv4/")).faulted = true ∧
    (EndpointV1.ServeHTTP sampleCodecs (storeOf sampleDroplet) Exchange.fresh
        (getRequest "/metadata/v1/interfaces/public/1/ipv6/")).faulted = true ∧
    (EndpointV1.ServeHTTP sampleCodecs (storeOf sampleDroplet) Exchange.fresh
        (getRequest "/metadata/v1/interfaces/public/1/anchor_ipv4/")).faulted = true ∧
    (EndpointV1.ServeHTTP sampleCodecs (storeOf sampleDroplet) Exchange.fresh
        (getRequest "/metadata/v1/interfaces/private/0/")).faulted = true ∧
    (EndpointV1.ServeHTTP sampleCodecs (storeOf sampleDroplet) Exchange.fresh
        (getRequest "/metadata/v1/interfaces/public/2/")).statusCode = some 301 ∧
    (EndpointV1.ServeHTTP sampleCodecs (storeOf sampleDroplet) Exchange.fresh
        (getRequest "/metadata/v1/interfaces/public/1/mac")).statusCode = some 301 := by
  refine ⟨?_, ?_, ?_, ?_, ?_, ?_, ?_⟩ <;> rfl

/-- C6, the routes that exist: for every droplet bound to the caller,
`/metadata/v1/id` is answered 200 with the decimal text of the id, and
`/hostname`, `/user-data` and `/vendor-data` are answered 200 with the field. -/
theorem getDropletAttr_scalars (c : Codecs) (d : Droplet) :
    (EndpointV1.ServeHTTP c (storeOf d) Exchange.fresh (getRequest "/metadata/v1/id")).statusCode
      = some 200 ∧
    (EndpointV1.ServeHTTP c (storeOf d) Exchange.fresh (getRequest "/metadata/v1/id")).body
      = toString d.ID ∧
    (EndpointV1.ServeHTTP c (storeOf d) Exchange.fresh
        (getRequest "/metadata/v1/hostname")).statusCode = some 200 ∧
    (EndpointV1.ServeHTTP c (storeOf d) Exchange.fresh (getRequest "/metadata/v1/hostname")).body
      = d.Hostname ∧
    (EndpointV1.ServeHTTP c (storeOf d) Exchange.fresh
        (getRequest "/metadata/v1/user-data")).statusCode = some 200 ∧
    (EndpointV1.ServeHTTP c (storeOf d) Exchange.fresh (getRequest "/metadata/v1/user-data")).body
      = d.UserData ∧
    (EndpointV1.ServeHTTP c (storeOf d) Exchange.fresh
        (getRequest "/metadata/v1/vendor-data")).statusCode = some 200 ∧
    (EndpointV1.ServeHTTP c (storeOf d) Exchange.fresh (getRequest "/metadata/v1/vendor-data")).body
      = d.VendorData := by
  refine ⟨?_, ?_, ?_, ?_, ?_, ?_, ?_, ?_⟩ <;> rfl

/-- C6. For every droplet bound to the caller, `GET /metadata/v1/region`
matches no registered route (the attribute pattern of `getDropletAttr` has no
`region` alternative): the router's not-found handler answers with status 301
and the text `not found`, no route handler runs and the document is not read. -/
theorem region_is_not_routed (c : Codecs) (d : Droplet) :
    EndpointV1.ServeHTTP c (storeOf d) Exchange.fresh (getRequest "/metadata/v1/region")
      = .returned { status := some 301, body := "not found", stdout := [], trace := [] } := by
  rfl

/-- C7. `GET .../ipv6/address` on an interface that has an IPv6 block: with no
IPv4 block the handler faults on the nil IPv4 block (private interface `0` of
the sample); with an IPv4 block the body is the text of the IPv4 address
`10.0.0.2`, not of the IPv6 address `2001:db8::2` (public interface `0`). -/
theorem ipv6_address_reads_ipv4_block :
    IPString [0x20, 0x01, 0x0d, 0xb8, 0, 0, 0, 0, 0, 0, 0, 0, 0, 0, 0, 2] = "2001:db8::2" ∧
    EndpointV1.ServeHTTP sampleCodecs (storeOf sampleDropletIPv6) Exchange.fresh
        (getRequest "/metadata/v1/interfaces/private/0/ipv6/address")
      = .panicked
          { status := none, body := "", stdout := [],
            trace := [.handler "getNetworkInterfaceAttr",
                      .getDocument (CanonicalString sampleMac) TypeURIV1] }
          "invalid memory address or nil pointer dereference" ∧
    EndpointV1.ServeHTTP sampleCodecs (storeOf sampleDropletIPv6) Exchange.fresh
        (getRequest "/metadata/v1/interfaces/public/0/ipv6/address")
      = .returned
          { status := some 200, body := "10.0.0.2", stdout := [],
            trace := [.handler "getNetworkInterfaceAttr",
                      .getDocument (CanonicalString sampleMac) TypeURIV1] } := by
  refine ⟨?_, ?_, ?_⟩ <;> rfl

/-- C8. For every droplet bound to the caller, with or without a floating
address and whether it is active or not, `GET
/metadata/v1/floating_ip/ipv4/ip_address` is answered by `notFoundHandlerV1`
with status 301 and the text `not found`: the route captures the attribute
`ipv4/ip_address`, for which the switch of `getFloatingIPAttr` has no case. -/
theorem floating_ip_address_never_served (c : Codecs) (d : Droplet) :
    EndpointV1.ServeHTTP c (storeOf d) Exchange.fresh
        (getRequest "/metadata/v1/floating_ip/ipv4/ip_address")
      = .returned
          { status := some 301, body := "not found", stdout := [],
            trace := [.handler "getFloatingIPAttr",
                      .getDocument (CanonicalString sampleMac) TypeURIV1] } := by
  have h : EndpointV1.ServeHTTP c (storeOf d) Exchange.fresh
        (getRequest "/metadata/v1/floating_ip/ipv4/ip_address")
      = match d.FloatingIP with
        | none => .returned (notFoundHandlerV1
            (Exchange.fresh.recordAll [.handler "getFloatingIPAttr",
              .getDocument (CanonicalString sampleMac) TypeURIV1]))
        | some _ => .returned (notFoundHandlerV1
            (Exchange.fresh.recordAll [.handler "getFloatingIPAttr",
              .getDocument (CanonicalString sampleMac) TypeURIV1])) := rfl
  rw [h]
  cases d.FloatingIP <;> rfl

/-- C10. For every droplet bound to the caller, `GET /metadata/v1/` returns
with nothing written to the response: the body is empty (so it lists neither
`interfaces/` nor `floating_ip/`), the status is the default 200, and the
index lines have gone to standard output. -/
theorem getIndex_writes_no_body (c : Codecs) (d : Droplet) :
    (EndpointV1.ServeHTTP c (storeOf d) Exchange.fresh (getRequest "/metadata/v1/")).body = "" ∧
    (EndpointV1.ServeHTTP c (storeOf d) Exchange.fresh (getRequest "/metadata/v1/")).statusCode
      = some 200 ∧
    (EndpointV1.ServeHTTP sampleCodecs (storeOf sampleDroplet) Exchange.fresh
        (getRequest "/metadata/v1/")).exchange.stdout
      = ["hostname", "user-data", "vendor-data", "public-keys", "region", "interfaces/", "dns/",
         "floating_ip/", "tags/", "features/"] := by
  have h : EndpointV1.ServeHTTP c (storeOf d) Exchange.fresh (getRequest "/metadata/v1/")
      = getIndex (storeOf d) (Exchange.fresh.record (.handler "getIndex"))
          (getRequest "/metadata/v1/") [] := rfl
  rw [h]
  refine ⟨?_, ?_, rfl⟩
  · simp only [getIndex, getDropletDocument, storeOf, if_true]
    split_ifs <;> rfl
  · simp only [getIndex, getDropletDocument, storeOf, if_true]
    split_ifs <;> rfl

/-! ## Decimal indices and `strconv` -/

theorem foldl_digits_ge (ds : List Char) (n : Nat) :
    n ≤ ds.foldl (fun n c => n * 10 + (c.toNat - '0'.toNat)) n := by
  induction ds generalizing n with
  | nil => exact Nat.le_refl _
  | cons c cs ih =>
    simp only [List.foldl_cons]
    exact Nat.le_trans (by omega) (ih _)

theorem isDigit_iff (c : Char) : c.isDigit = true ↔ ('0' ≤ c ∧ c ≤ '9') := by
  simp [Char.isDigit, Char.le_def, UInt32.le_def]

theorem parseUintLoop_digits (maxVal : Nat) (hmax : maxVal < 2 ^ 64) (ds : List Char) (n : Nat)
    (hdig : ∀ c ∈ ds, c.isDigit = true)
    (hval : ds.foldl (fun n c => n * 10 + (c.toNat - '0'.toNat)) n ≤ maxVal) :
    parseUintLoop maxVal ds n
      = .ok (ds.foldl (fun n c => n * 10 + (c.toNat - '0'.toNat)) n) := by
  induction ds generalizing n with
  | nil => rfl
  | cons c cs ih =>
    have hc : '0' ≤ c ∧ c ≤ '9' := (isDigit_iff c).1 (hdig c (List.mem_cons_self _ _))
    simp only [List.foldl_cons] at hval ⊢
    have hge := foldl_digits_ge cs (n * 10 + (c.toNat - '0'.toNat))
    have h1 : n * 10 + (c.toNat - '0'.toNat) ≤ maxVal := Nat.le_trans hge hval
    have hcut : ¬ n ≥ parseUintCutoff := by
      unfold parseUintCutoff
      norm_num
      norm_num at hmax
      omega
    have hn10 : (n * 10) % 2 ^ 64 = n * 10 := Nat.mod_eq_of_lt (by omega)
    have hn1 : (n * 10 + (c.toNat - '0'.toNat)) % 2 ^ 64 = n * 10 + (c.toNat - '0'.toNat) :=
      Nat.mod_eq_of_lt (by omega)
    unfold parseUintLoop
    rw [if_pos hc, if_neg hcut]
    simp only [hn10, hn1]
    rw [if_neg (by omega)]
    exact ih _ (fun c hc => hdig c (List.mem_cons_of_mem _ hc)) hval

theorem ParseInt_digits (s : String) (bitSize : Nat) (hbits : 1 ≤ bitSize ∧ bitSize ≤ 64)
    (hne : s.toList ≠ []) (hdig : ∀ c ∈ s.toList, c.isDigit = true)
    (hval : decimalValue s < 2 ^ (bitSize - 1)) :
    ParseInt s bitSize = .ok (decimalValue s : Int) := by
  unfold ParseInt
  cases hs : s.toList with
  | nil => exact absurd hs hne
  | cons c cs =>
    have hc : c.isDigit = true := hdig c (by rw [hs]; exact List.mem_cons_self _ _)
    have hsign : ¬ (c = '+' ∨ c = '-') := by
      rintro (h | h) <;> · subst h; revert hc; decide
    have hneg : ¬ c = '-' := fun h => hsign (Or.inr h)
    have hpow : 2 ^ (bitSize - 1) ≤ 2 ^ bitSize - 1 := by
      have : 2 ^ bitSize = 2 * 2 ^ (bitSize - 1) := by
        rw [← pow_succ']; congr 1; omega
      have : 0 < 2 ^ (bitSize - 1) := Nat.two_pow_pos _
      omega
    have hmax : 2 ^ bitSize - 1 < 2 ^ 64 := by
      have : 2 ^ bitSize ≤ 2 ^ 64 := Nat.pow_le_pow_right (by norm_num) hbits.2
      have : 0 < 2 ^ bitSize := Nat.two_pow_pos _
      omega
    have hv : (c :: cs).foldl (fun n c => n * 10 + (c.toNat - '0'.toNat)) 0
        = decimalValue s := by
      unfold decimalValue; rw [hs]
    have hloop := parseUintLoop_digits (2 ^ bitSize - 1) hmax (c :: cs) 0
      (by rw [← hs]; exact hdig) (by rw [hv]; omega)
    rw [hv] at hloop
    have hplus : ¬ c = '+' := fun h => hsign (Or.inl h)
    simp only [hneg, hplus, or_self, if_false, reduceCtorEq, hloop, not_false_eq_true, true_and,
      false_and, decide_False, decide_True, Bool.false_eq_true]
    rw [if_neg (by omega)]

/-! ## Route matching -/

theorem dropLiteral_concat (l a rest : List Char) (h : l.length ≤ a.length) :
    dropLiteral l (a ++ rest) = (dropLiteral l a).map (· ++ rest) := by
  induction l generalizing a with
  | nil => simp [dropLiteral]
  | cons c cs ih =>
    cases a with
    | nil => simp at h
    | cons x xs =>
      simp only [List.cons_append, dropLiteral]
      split
      · exact ih xs (by simpa using h)
      · rfl

theorem span_digits (ds rest : List Char) (hdig : ∀ c ∈ ds, c.isDigit = true) :
    (ds ++ '/' :: rest).span Char.isDigit = (ds, '/' :: rest) := by
  induction ds with
  | nil => rfl
  | cons d ds ih =>
    have hd : d.isDigit = true := hdig d (List.mem_cons_self _ _)
    have := ih (fun c hc => hdig c (List.mem_cons_of_mem _ hc))
    simp [List.span_eq_take_drop, List.takeWhile_cons, List.dropWhile_cons, hd] at this ⊢
    exact this

theorem matchPieces_digits (name : String) (ps : List Piece) (id : String) (rest : List Char)
    (vars : Vars) (hne : id.toList ≠ []) (hdig : ∀ c ∈ id.toList, c.isDigit = true) :
    matchPieces (.digits name :: ps) (id.toList ++ '/' :: rest) vars
      = matchPieces ps ('/' :: rest) (vars ++ [(name, id)]) := by
  rw [matchPieces, span_digits _ _ hdig]
  cases h : id.toList with
  | nil => exact absurd h hne
  | cons d ds =>
    have : String.mk (d :: ds) = id := by
      rw [← h]
      cases id
      rfl
    simp only [this]

/-- The first two routes do not match a path under `/metadata/v1/interfaces/`. -/
theorem routes_before_interfaces (X : List Char) :
    matchPieces [.lit "/metadata/v1.", .oneOf "ext" ["json", "yaml"]]
      ("/metadata/v1/interfaces/".toList ++ X) [] = none ∧
    matchPieces [.lit "/metadata/v1/",
        .oneOf "attr" ["id", "hostname", "user-data", "vendor-data", "public-keys"]]
      ("/metadata/v1/interfaces/".toList ++ X) [] = none := by
  constructor
  · rw [matchPieces, dropLiteral_concat _ _ _ (by decide)]
    rfl
  · rw [matchPieces, dropLiteral_concat _ _ _ (by decide)]
    rw [show dropLiteral "/metadata/v1/".toList "/metadata/v1/interfaces/".toList
      = some "interfaces/".toList from rfl]
    simp only [Option.map, matchPieces, List.findSome?]
    simp (disch := decide) only [dropLiteral_concat]
    rfl

/-- The attribute route of an interface matches its own paths. -/
theorem interface_attr_template (t id attr : String) (ht : t = "public" ∨ t = "private")
    (hattr : attr = "mac" ∨ attr = "type")
    (hne : id.toList ≠ []) (hdig : ∀ c ∈ id.toList, c.isDigit = true) :
    matchPieces [.lit "/metadata/v1/interfaces/", .oneOf "type" ["public", "private"],
        .lit "/", .digits "id", .lit "/",
        .oneOf "attr" ["mac", "type", "ipv4/address", "ipv4/netmask", "ipv4/gateway",
          "ipv6/address", "ipv6/cidr", "ipv6/gateway"]]
      ("/metadata/v1/interfaces/".toList ++ (t.toList ++ '/' :: (id.toList ++ '/' :: attr.toList))) []
      = some [("type", t), ("id", id), ("attr", attr)] := by
  rw [matchPieces, dropLiteral_concat _ _ _ (by decide)]
  rw [show dropLiteral "/metadata/v1/interfaces/".toList "/metadata/v1/interfaces/".toList
      = some [] from rfl]
  simp only [Option.map, List.nil_append]
  have htail : ∀ V : Vars, matchPieces [.lit "/", .digits "id", .lit "/",
        .oneOf "attr" ["mac", "type", "ipv4/address", "ipv4/netmask", "ipv4/gateway",
          "ipv6/address", "ipv6/cidr", "ipv6/gateway"]]
        ('/' :: (id.toList ++ '/' :: attr.toList)) V
        = some ((V ++ [("id", id)]) ++ [("attr", attr)]) := by
    intro V
    rw [matchPieces]
    rw [show dropLiteral "/".toList ('/' :: (id.toList ++ '/' :: attr.toList))
      = some (id.toList ++ '/' :: attr.toList) from rfl]
    simp only []
    rw [matchPieces_digits _ _ _ _ _ hne hdig]
    rcases hattr with rfl | rfl <;> rfl
  simp only [matchPieces, List.findSome?] at htail ⊢
  rcases ht with rfl | rfl
  · rw [dropLiteral_concat "public".toList "public".toList _ (by decide)]
    rw [show dropLiteral "public".toList "public".toList = some [] from rfl]
    simp only [Option.map, List.nil_append, htail]
    rfl
  · rw [dropLiteral_concat "public".toList "private".toList _ (by decide)]
    rw [show dropLiteral "public".toList "private".toList = none from rfl]
    rw [dropLiteral_concat "private".toList "private".toList _ (by decide)]
    rw [show dropLiteral "private".toList "private".toList = some [] from rfl]
    simp only [Option.map, List.nil_append, htail]
    rfl

theorem interfaceAttrPath_toList (t id attr : String) :
    (interfaceAttrPath t id attr).toList
      = "/metadata/v1/interfaces/".toList ++ (t.toList ++ '/' :: (id.toList ++ '/' :: attr.toList)) := by
  simp [interfaceAttrPath, String.toList]

theorem muxServeHTTP_interface_attr (c : Codecs) (st : Store) (w : Exchange)
    (remoteAddr addr t id attr : String) (ht : t = "public" ∨ t = "private")
    (hattr : attr = "mac" ∨ attr = "type")
    (hne : id.toList ≠ []) (hdig : ∀ ch ∈ id.toList, ch.isDigit = true) :
    muxServeHTTP c st w
        { RemoteAddr := remoteAddr, Method := "GET", Path := interfaceAttrPath t id attr,
          RemoteDataLinkAddr := addr }
      = getNetworkInterfaceAttr st (w.record (.handler "getNetworkInterfaceAttr"))
          { RemoteAddr := remoteAddr, Method := "GET", Path := interfaceAttrPath t id attr,
            RemoteDataLinkAddr := addr }
          [("type", t), ("id", id), ("attr", attr)] := by
  unfold muxServeHTTP routesV1
  simp only [muxMatch, interfaceAttrPath_toList, (routes_before_interfaces _).1,
    (routes_before_interfaces _).2, interface_attr_template t id attr ht hattr hne hdig]
  simp

theorem goIndex_natCast {α : Type} (xs : List α) (i : Nat) : goIndex xs (i : Int) = xs.get? i := by
  simp [goIndex]

theorem getDropletDocument_bound (st : Store) (w : Exchange) (r : Request) (kind : String)
    (d : Droplet)
    (hdoc : st.GetDocument r.RemoteDataLinkAddr TypeURIV1 = .ok { Kind := kind, Contents := .droplet d }) :
    getDropletDocument st w r
      = (w.record (.getDocument r.RemoteDataLinkAddr TypeURIV1), some d) := by
  simp [getDropletDocument, hdoc]

/-! ## Attributes of an interface -/

theorem getNetworkInterfaceAttr_public (st : Store) (w : Exchange) (r : Request) (kind : String)
    (d : Droplet) (id attr : String) (ni : PublicNetworkInterface)
    (hdoc : st.GetDocument r.RemoteDataLinkAddr TypeURIV1
      = .ok { Kind := kind, Contents := .droplet d })
    (hne : id.toList ≠ []) (hdig : ∀ ch ∈ id.toList, ch.isDigit = true)
    (h32 : decimalValue id < 2 ^ 31)
    (hni : d.NetworkInterfaces.PublicInterfaces.get? (decimalValue id) = some ni) :
    getNetworkInterfaceAttr st w r [("type", "public"), ("id", id), ("attr", attr)]
      = publicInterfaceAttr (w.record (.getDocument r.RemoteDataLinkAddr TypeURIV1)) ni attr := by
  have hlt : decimalValue id < d.NetworkInterfaces.PublicInterfaces.length := by
    rcases List.get?_eq_some.1 hni with ⟨h, _⟩
    exact h
  have hparse := ParseInt_digits id 32 (by decide) hne hdig h32
  have h1 : Vars.get [("type", "public"), ("id", id), ("attr", attr)] "type" = "public" := rfl
  have h2 : Vars.get [("type", "public"), ("id", id), ("attr", attr)] "id" = id := rfl
  have h3 : Vars.get [("type", "public"), ("id", id), ("attr", attr)] "attr" = attr := rfl
  unfold getNetworkInterfaceAttr
  rw [getDropletDocument_bound st w r kind d hdoc]
  simp only [h1, h2, h3, hparse, if_true, goIndex_natCast, hni]
  rw [if_neg (by omega)]

theorem getNetworkInterfaceAttr_private (st : Store) (w : Exchange) (r : Request) (kind : String)
    (d : Droplet) (id attr : String) (ni : PrivateNetworkInterface)
    (hdoc : st.GetDocument r.RemoteDataLinkAddr TypeURIV1
      = .ok { Kind := kind, Contents := .droplet d })
    (hne : id.toList ≠ []) (hdig : ∀ ch ∈ id.toList, ch.isDigit = true)
    (h32 : decimalValue id < 2 ^ 31)
    (hni : d.NetworkInterfaces.PrivateInterfaces.get? (decimalValue id) = some ni) :
    getNetworkInterfaceAttr st w r [("type", "private"), ("id", id), ("attr", attr)]
      = privateInterfaceAttr (w.record (.getDocument r.RemoteDataLinkAddr TypeURIV1)) ni attr := by
  have hlt : decimalValue id < d.NetworkInterfaces.PrivateInterfaces.length := by
    rcases List.get?_eq_some.1 hni with ⟨h, _⟩
    exact h
  have hparse := ParseInt_digits id 32 (by decide) hne hdig h32
  have h0 : ¬ Vars.get [("type", "private"), ("id", id), ("attr", attr)] "type" = "public" := by
    show ¬ ("private" = "public")
    decide
  have h1 : Vars.get [("type", "private"), ("id", id), ("attr", attr)] "type" = "private" := rfl
  have h2 : Vars.get [("type", "private"), ("id", id), ("attr", attr)] "id" = id := rfl
  have h3 : Vars.get [("type", "private"), ("id", id), ("attr", attr)] "attr" = attr := rfl
  unfold getNetworkInterfaceAttr
  rw [getDropletDocument_bound st w r kind d hdoc]
  simp only [if_neg h0]
  simp only [h1, h2, h3, hparse, if_true, goIndex_natCast, hni]
  rw [if_neg (by omega)]

/-- C4, as amended. For every store that binds a droplet document to the
caller's canonical address, and every index written as a non-empty string of
decimal digits (leading zeros allowed) whose value `i` is below `2^31`: if the
public side has an `i`-th interface, `GET
/metadata/v1/interfaces/public/{id}/mac` is answered 200 with the
colon-separated hexadecimal form of that interface's MAC, and `.../type` is
answered 200 with `public`; likewise for the private side with `private`. -/
theorem interface_mac_and_type_served (c : Codecs) (st : Store) (kind : String) (d : Droplet)
    (remoteAddr addr id : String)
    (haddr : addr ≠ "")
    (hdoc : st.GetDocument addr TypeURIV1 = .ok { Kind := kind, Contents := .droplet d })
    (hne : id.toList ≠ []) (hdig : ∀ ch ∈ id.toList, ch.isDigit = true)
    (h32 : decimalValue id < 2 ^ 31) :
    let get := fun (t attr : String) =>
      EndpointV1.ServeHTTP c st Exchange.fresh
        { RemoteAddr := remoteAddr, Method := "GET", Path := interfaceAttrPath t id attr,
          RemoteDataLinkAddr := addr }
    (∀ ni, d.NetworkInterfaces.PublicInterfaces.get? (decimalValue id) = some ni →
      (get "public" "mac").statusCode = some 200 ∧
      (get "public" "mac").body = HumanReadableString ni.Mac ∧
      (get "public" "type").statusCode = some 200 ∧
      (get "public" "type").body = "public") ∧
    (∀ ni, d.NetworkInterfaces.PrivateInterfaces.get? (decimalValue id) = some ni →
      (get "private" "mac").statusCode = some 200 ∧
      (get "private" "mac").body = HumanReadableString ni.Mac ∧
      (get "private" "type").statusCode = some 200 ∧
      (get "private" "type").body = "private") := by
  intro get
  have hget : ∀ t attr, t = "public" ∨ t = "private" → attr = "mac" ∨ attr = "type" →
      get t attr = getNetworkInterfaceAttr st
        (Exchange.fresh.record (.handler "getNetworkInterfaceAttr"))
        { RemoteAddr := remoteAddr, Method := "GET", Path := interfaceAttrPath t id attr,
          RemoteDataLinkAddr := addr }
        [("type", t), ("id", id), ("attr", attr)] := by
    intro t attr ht hattr
    show EndpointV1.ServeHTTP c st Exchange.fresh _ = _
    unfold EndpointV1.ServeHTTP
    rw [if_neg haddr]
    exact muxServeHTTP_interface_attr c st _ remoteAddr addr t id attr ht hattr hne hdig
  constructor
  · intro ni hni
    rw [hget "public" "mac" (Or.inl rfl) (Or.inl rfl),
      hget "public" "type" (Or.inl rfl) (Or.inr rfl),
      getNetworkInterfaceAttr_public st _ _ kind d id "mac" ni hdoc hne hdig h32 hni,
      getNetworkInterfaceAttr_public st _ _ kind d id "type" ni hdoc hne hdig h32 hni]
    refine ⟨rfl, ?_, rfl, rfl⟩
    show ("" ++ HumanReadableString ni.Mac) = _
    rfl
  · intro ni hni
    rw [hget "private" "mac" (Or.inr rfl) (Or.inl rfl),
      hget "private" "type" (Or.inr rfl) (Or.inr rfl),
      getNetworkInterfaceAttr_private st _ _ kind d id "mac" ni hdoc hne hdig h32 hni,
      getNetworkInterfaceAttr_private st _ _ kind d id "type" ni hdoc hne hdig h32 hni]
    refine ⟨rfl, ?_, rfl, rfl⟩
    show ("" ++ HumanReadableString ni.Mac) = _
    rfl

/-- The witness of C4 as amended: index `000` on the sample droplet, whose
public interface `0` has the MAC `52:54:00:12:34:56`. -/
theorem interface_mac_and_type_served_witness :
    (EndpointV1.ServeHTTP sampleCodecs (storeOf sampleDroplet) Exchange.fresh
        (getRequest (interfaceAttrPath "public" "000" "mac"))).statusCode = some 200 ∧
    (EndpointV1.ServeHTTP sampleCodecs (storeOf sampleDroplet) Exchange.fresh
        (getRequest (interfaceAttrPath "public" "000" "mac"))).body
      = HumanReadableString sampleMac ∧
    HumanReadableString sampleMac = "52:54:00:12:34:56" ∧
    (EndpointV1.ServeHTTP sampleCodecs (storeOf sampleDroplet) Exchange.fresh
        (getRequest (interfaceAttrPath "public" "000" "type"))).body = "public" :=
  have h := (interface_mac_and_type_served sampleCodecs (storeOf sampleDroplet) TypeURIV1
    sampleDroplet "10.0.0.2:49152" (CanonicalString sampleMac) "000" (by decide) rfl (by decide)
    (by decide) (by decide)).1 samplePublic rfl
  ⟨h.1, h.2.1, rfl, h.2.2.2⟩

/-- C4, the counterexample. The droplet has `2^31 + 1` public interfaces, so
index `2147483648` is below the number of interfaces; `strconv.ParseInt` with
bit size 32 rejects it, and `GET .../public/2147483648/mac` is answered by
`notFoundHandlerV1` (status 301, text `not found`) instead of 200 with the MAC. -/
theorem interface_index_beyond_int32_not_served :
    decimalValue "2147483648" < sampleDropletHuge.NetworkInterfaces.PublicInterfaces.length ∧
    EndpointV1.ServeHTTP sampleCodecs (storeOf sampleDropletHuge) Exchange.fresh
        (getRequest (interfaceAttrPath "public" "2147483648" "mac"))
      = .returned
          { status := some 301, body := "not found", stdout := [],
            trace := [.handler "getNetworkInterfaceAttr",
                      .getDocument (CanonicalString sampleMac) TypeURIV1] } ∧
    (EndpointV1.ServeHTTP sampleCodecs (storeOf sampleDropletHuge) Exchange.fresh
        (getRequest (interfaceAttrPath "public" "2147483648" "mac"))).statusCode ≠ some 200 := by
  have hlen : sampleDropletHuge.NetworkInterfaces.PublicInterfaces.length = 2 ^ 31 + 1 :=
    List.length_replicate _ _
  have hval : decimalValue "2147483648" = 2147483648 := by decide
  have hres : EndpointV1.ServeHTTP sampleCodecs (storeOf sampleDropletHuge) Exchange.fresh
        (getRequest (interfaceAttrPath "public" "2147483648" "mac"))
      = .returned
          { status := some 301, body := "not found", stdout := [],
            trace := [.handler "getNetworkInterfaceAttr",
                      .getDocument (CanonicalString sampleMac) TypeURIV1] } := rfl
  refine ⟨?_, hres, ?_⟩
  · rw [hlen, hval]; norm_num
  · rw [hres]; decide

/-! ## The interface listing -/

/-- C9, as amended. For every store that binds a droplet document to the
caller's canonical address, `/metadata/v1/interfaces/` is answered 200 without
a fault; the listing has the line `public/` exactly when the public interface
array is non-empty and the line `private/` exactly when the private interface
array is non-empty; when both arrays are empty the body is empty (and the
status is still 200). -/
theorem interfaces_listing_sides (c : Codecs) (st : Store) (kind : String) (d : Droplet)
    (remoteAddr method addr : String)
    (haddr : addr ≠ "")
    (hdoc : st.GetDocument addr TypeURIV1 = .ok { Kind := kind, Contents := .droplet d }) :
    let res := EndpointV1.ServeHTTP c st Exchange.fresh
      { RemoteAddr := remoteAddr, Method := method, Path := "/metadata/v1/interfaces/",
        RemoteDataLinkAddr := addr }
    res.statusCode = some 200 ∧ res.faulted = false ∧
    ("public/" ∈ listingEntries res.body ↔ d.NetworkInterfaces.PublicInterfaces ≠ []) ∧
    ("private/" ∈ listingEntries res.body ↔ d.NetworkInterfaces.PrivateInterfaces ≠ []) ∧
    (d.NetworkInterfaces.PublicInterfaces = [] → d.NetworkInterfaces.PrivateInterfaces = [] →
      res.body = "") := by
  intro res
  have hres : res = getInterfaceIndex st (Exchange.fresh.record (.handler "getInterfaceIndex"))
      { RemoteAddr := remoteAddr, Method := method, Path := "/metadata/v1/interfaces/",
        RemoteDataLinkAddr := addr } [] := by
    show EndpointV1.ServeHTTP c st Exchange.fresh _ = _
    unfold EndpointV1.ServeHTTP
    rw [if_neg haddr]
    rfl
  rw [hres]
  unfold getInterfaceIndex
  rw [getDropletDocument_bound st _ _ kind d hdoc]
  rcases d with ⟨_, _, _, _, _, _, ⟨priv, pub⟩, _, _, _, _⟩
  cases pub with
  | nil =>
    cases priv with
    | nil =>
      simp only [List.length_nil, Nat.lt_irrefl, if_false, gt_iff_lt]
      refine ⟨rfl, rfl, ?_, ?_, ?_⟩
      · have h : "public/" ∉ listingEntries "" := by decide
        simp only [ne_eq, not_true_eq_false, iff_false]
        exact h
      · have h : "private/" ∉ listingEntries "" := by decide
        simp only [ne_eq, not_true_eq_false, iff_false]
        exact h
      · intro _ _; rfl
    | cons p ps =>
      simp only [List.length_nil, List.length_cons, Nat.lt_irrefl, if_false, Nat.zero_lt_succ,
        if_true, gt_iff_lt]
      refine ⟨rfl, rfl, ?_, ?_, ?_⟩
      · have h : "public/" ∉ listingEntries "private/\n" := by decide
        simp only [ne_eq, not_true_eq_false, iff_false]
        exact h
      · have h : "private/" ∈ listingEntries "private/\n" := by decide
        simp only [ne_eq, reduceCtorEq, not_false_eq_true, iff_true]
        exact h
      · intro _ h; cases h
  | cons q qs =>
    cases priv with
    | nil =>
      simp only [List.length_nil, List.length_cons, Nat.lt_irrefl, if_false, Nat.zero_lt_succ,
        if_true, gt_iff_lt]
      refine ⟨rfl, rfl, ?_, ?_, ?_⟩
      · have h : "public/" ∈ listingEntries "public/\n" := by decide
        simp only [ne_eq, reduceCtorEq, not_false_eq_true, iff_true]
        exact h
      · have h : "private/" ∉ listingEntries "public/\n" := by decide
        simp only [ne_eq, not_true_eq_false, iff_false]
        exact h
      · intro h; cases h
    | cons p ps =>
      simp only [List.length_nil, List.length_cons, Nat.lt_irrefl, if_false, Nat.zero_lt_succ,
        if_true, gt_iff_lt]
      refine ⟨rfl, rfl, ?_, ?_, ?_⟩
      · have h : "public/" ∈ listingEntries "public/\nprivate/\n" := by decide
        simp only [ne_eq, reduceCtorEq, not_false_eq_true, iff_true]
        exact h
      · have h : "private/" ∈ listingEntries "public/\nprivate/\n" := by decide
        simp only [ne_eq, reduceCtorEq, not_false_eq_true, iff_true]
        exact h
      · intro h; cases h

/-- The witness of C9 as amended: the sample droplet, with one public and no
private interface, lists `public/` and only that. -/
theorem interfaces_listing_sides_witness :
    (EndpointV1.ServeHTTP sampleCodecs (storeOf sampleDroplet) Exchange.fresh
        (getRequest "/metadata/v1/interfaces/")).statusCode = some 200 ∧
    ("public/" ∈ listingEntries (EndpointV1.ServeHTTP sampleCodecs (storeOf sampleDroplet)
        Exchange.fresh (getRequest "/metadata/v1/interfaces/")).body
      ↔ sampleDroplet.NetworkInterfaces.PublicInterfaces ≠ []) ∧
    ("private/" ∈ listingEntries (EndpointV1.ServeHTTP sampleCodecs (storeOf sampleDroplet)
        Exchange.fresh (getRequest "/metadata/v1/interfaces/")).body
      ↔ sampleDroplet.NetworkInterfaces.PrivateInterfaces ≠ []) :=
  have h := interfaces_listing_sides sampleCodecs (storeOf sampleDroplet) TypeURIV1 sampleDroplet
    "10.0.0.2:49152" "GET" (CanonicalString sampleMac) (by decide) rfl
  ⟨h.1, h.2.2.1, h.2.2.2.1⟩

/-- C9, the counterexample. For the sample droplet without any interface,
`/metadata/v1/interfaces/` is answered with status 200 and an empty body, not 404. -/
theorem interfaces_listing_empty_is_200 :
    sampleDropletNoInterfaces.NetworkInterfaces.PublicInterfaces = [] ∧
    sampleDropletNoInterfaces.NetworkInterfaces.PrivateInterfaces = [] ∧
    EndpointV1.ServeHTTP sampleCodecs (storeOf sampleDropletNoInterfaces) Exchange.fresh
        (getRequest "/metadata/v1/interfaces/")
      = .returned
          { status := none, body := "", stdout := [],
            trace := [.handler "getInterfaceIndex",
                      .getDocument (CanonicalString sampleMac) TypeURIV1] } ∧
    (EndpointV1.ServeHTTP sampleCodecs (storeOf sampleDropletNoInterfaces) Exchange.fresh
        (getRequest "/metadata/v1/interfaces/")).statusCode = some 200 ∧
    (EndpointV1.ServeHTTP sampleCodecs (storeOf sampleDropletNoInterfaces) Exchange.fresh
        (getRequest "/metadata/v1/interfaces/")).statusCode ≠ some 404 := by
  refine ⟨rfl, rfl, rfl, rfl, ?_⟩
  decide

/-! ## The watcher: what a poll publishes, and closing -/

theorem lookup_cons_ite {β : Type} (es : List (String × β)) (k k1 : String) (v : β) :
    ((k1, v) :: es).lookup k = if k = k1 then some v else es.lookup k := by
  by_cases h : k = k1
  · subst h
    simp [List.lookup]
  · have hb : (k == k1) = false := by simp [h]
    simp only [List.lookup, hb, h, if_false]

theorem lookup_append {β : Type} (a b : List (String × β)) (k : String) :
    (a ++ b).lookup k = match a.lookup k with
      | some v => some v
      | none => b.lookup k := by
  induction a with
  | nil => rfl
  | cons e es ih =>
    obtain ⟨k1, v1⟩ := e
    rw [List.cons_append, lookup_cons_ite, lookup_cons_ite, ih]
    by_cases h : k = k1
    · simp only [h, if_true]
    · simp only [h, if_false]

theorem lookup_filter_ne {β : Type} (m : List (String × β)) (k k1 : String) :
    (m.filter (fun e => e.1 ≠ k1)).lookup k = if k = k1 then none else m.lookup k := by
  induction m with
  | nil => simp
  | cons e es ih =>
    obtain ⟨k2, v2⟩ := e
    rw [List.filter_cons]
    by_cases h2 : k2 = k1
    · have hd : decide ((k2, v2).1 ≠ k1) = false := by simp [h2]
      rw [hd]
      simp only [Bool.false_eq_true, if_false, ih, lookup_cons_ite]
      by_cases h : k = k1
      · simp only [h, if_true]
      · have h' : ¬ k = k2 := by rw [h2]; exact h
        simp only [h, h', if_false]
    · have hd : decide ((k2, v2).1 ≠ k1) = true := by simp [h2]
      rw [hd]
      simp only [if_true, ih, lookup_cons_ite]
      by_cases h : k = k1
      · subst h
        have h' : ¬ k = k2 := fun x => h2 x.symm
        simp only [h', if_true, if_false]
      · simp only [h, if_false]

theorem lookup_mapSet {β : Type} (m : List (String × β)) (k k1 : String) (v : β) :
    (mapSet m k1 v).lookup k = if k = k1 then some v else m.lookup k := by
  unfold mapSet
  rw [lookup_append, lookup_filter_ne, lookup_cons_ite]
  by_cases h : k = k1
  · simp only [h, if_true]
  · simp only [h, if_false]
    cases m.lookup k <;> rfl

/-- C18, as amended. For every watcher whose `done` channel is open, the first
`Close` returns no error and leaves the ticker stopped and the channel closed,
with the published map untouched; a second `Close` does not return: it faults
on closing the closed channel, and the watcher is still stopped. -/
theorem close_once_then_fault (w : Watcher) (hopen : w.doneClosed = false) :
    (Watcher.Close w).2 = .ok () ∧
    (Watcher.Close w).1.tickerStopped = true ∧
    (Watcher.Close w).1.doneClosed = true ∧
    (Watcher.Close w).1.hardwareAddrsByIP4 = w.hardwareAddrsByIP4 ∧
    (Watcher.Close (Watcher.Close w).1).2 = .fault "close of closed channel" ∧
    (Watcher.Close (Watcher.Close w).1).1 = (Watcher.Close w).1 := by
  simp [Watcher.Close, hopen]

/-- The witness of C18 as amended: a running watcher with an empty map. -/
theorem close_once_then_fault_witness :
    (Watcher.Close { hardwareAddrsByIP4 := [] }).2 = .ok () ∧
    (Watcher.Close { hardwareAddrsByIP4 := [] }).1.tickerStopped = true ∧
    (Watcher.Close { hardwareAddrsByIP4 := [] }).1.doneClosed = true :=
  have h := close_once_then_fault { hardwareAddrsByIP4 := [] } rfl
  ⟨h.1, h.2.1, h.2.2.1⟩

/-- C18, the counterexample. On a running watcher, the second `Close` after a
first one that returned no error faults; it does not return no error. -/
theorem second_close_faults :
    (Watcher.Close { hardwareAddrsByIP4 := [] }).2 = .ok () ∧
    (Watcher.Close (Watcher.Close { hardwareAddrsByIP4 := [] }).1).2
      = .fault "close of closed channel" ∧
    (Watcher.Close (Watcher.Close { hardwareAddrsByIP4 := [] }).1).2 ≠ .ok () := by
  refine ⟨rfl, rfl, ?_⟩
  decide

/-! ## The canonical form of a hardware address -/

set_option maxRecDepth 100000 in
theorem base64Char_facts : ∀ n, n < 64 →
    base64Index (base64Char n) = some n ∧ base64Char n ≠ '=' ∧ base64Char n ≠ '\r'
      ∧ base64Char n ≠ '\n' := by
  decide

theorem base64DecodeGroups_encode : ∀ m : List Nat, (∀ x ∈ m, x < 256) →
    base64DecodeGroups (base64Encode m) = .ok m
  | [], _ => rfl
  | [a], h => by
    have ha : a < 256 := h a (by simp)
    have h1 := base64Char_facts (a / 4) (by omega)
    have h2 := base64Char_facts (a % 4 * 16) (by omega)
    simp only [base64Encode, base64DecodeGroups, h1.1, h2.1, and_self, if_true]
    congr 2
    omega
  | [a, b], h => by
    have ha : a < 256 := h a (by simp)
    have hb : b < 256 := h b (by simp)
    have h1 := base64Char_facts (a / 4) (by omega)
    have h2 := base64Char_facts (a % 4 * 16 + b / 16) (by omega)
    have h3 := base64Char_facts (b % 16 * 4) (by omega)
    simp only [base64Encode, base64DecodeGroups, h1.1, h2.1, h3.1, h3.2.1, false_and, if_false,
      and_self, if_true]
    congr 2
    · omega
    · congr 1
      omega
  | a :: b :: c :: rest, h => by
    have ha : a < 256 := h a (by simp)
    have hb : b < 256 := h b (by simp)
    have hc : c < 256 := h c (by simp)
    have h1 := base64Char_facts (a / 4) (by omega)
    have h2 := base64Char_facts (a % 4 * 16 + b / 16) (by omega)
    have h3 := base64Char_facts (b % 16 * 4 + c / 64) (by omega)
    have h4 := base64Char_facts (c % 64) (by omega)
    have ih := base64DecodeGroups_encode rest (fun x hx => h x (by simp [hx]))
    simp only [base64Encode, base64DecodeGroups, h1.1, h2.1, h3.1, h4.1, h3.2.1, h4.2.1,
      false_and, if_false, ih]
    congr 2
    · omega
    · congr 1
      · omega
      · congr 1
        omega

theorem base64Encode_no_newline : ∀ m : List Nat, (∀ x ∈ m, x < 256) →
    ∀ ch ∈ base64Encode m, ch ≠ '\r' ∧ ch ≠ '\n'
  | [], _ => by simp [base64Encode]
  | [a], h => by
    have ha : a < 256 := h a (by simp)
    have h1 := base64Char_facts (a / 4) (by omega)
    have h2 := base64Char_facts (a % 4 * 16) (by omega)
    intro ch hch
    simp only [base64Encode, List.mem_cons, List.mem_singleton, List.not_mem_nil, or_false] at hch
    rcases hch with rfl | rfl | rfl | rfl
    · exact h1.2.2
    · exact h2.2.2
    · decide
    · decide
  | [a, b], h => by
    have ha : a < 256 := h a (by simp)
    have hb : b < 256 := h b (by simp)
    have h1 := base64Char_facts (a / 4) (by omega)
    have h2 := base64Char_facts (a % 4 * 16 + b / 16) (by omega)
    have h3 := base64Char_facts (b % 16 * 4) (by omega)
    intro ch hch
    simp only [base64Encode, List.mem_cons, List.mem_singleton, List.not_mem_nil, or_false] at hch
    rcases hch with rfl | rfl | rfl | rfl
    · exact h1.2.2
    · exact h2.2.2
    · exact h3.2.2
    · decide
  | a :: b :: c :: rest, h => by
    have ha : a < 256 := h a (by simp)
    have hb : b < 256 := h b (by simp)
    have hc : c < 256 := h c (by simp)
    have h1 := base64Char_facts (a / 4) (by omega)
    have h2 := base64Char_facts (a % 4 * 16 + b / 16) (by omega)
    have h3 := base64Char_facts (b % 16 * 4 + c / 64) (by omega)
    have h4 := base64Char_facts (c % 64) (by omega)
    have ih := base64Encode_no_newline rest (fun x hx => h x (by simp [hx]))
    intro ch hch
    simp only [base64Encode, List.mem_cons] at hch
    rcases hch with rfl | rfl | rfl | rfl | hch
    · exact h1.2.2
    · exact h2.2.2
    · exact h3.2.2
    · exact h4.2.2
    · exact ih ch hch

/-- Decoding the canonical string of any sequence of octets gives the octets back. -/
theorem base64Decode_canonicalString (m : List Nat) (hoct : ∀ x ∈ m, x < 256) :
    base64Decode (CanonicalString m) = .ok m := by
  unfold base64Decode CanonicalString
  have hfilter : (base64Encode m).filter (fun c => c ≠ '\r' ∧ c ≠ '\n') = base64Encode m := by
    apply List.filter_eq_self.2
    intro ch hch
    have := base64Encode_no_newline m hoct ch hch
    simp [this.1, this.2]
  show base64DecodeGroups ((base64Encode m).filter _) = _
  rw [hfilter]
  exact base64DecodeGroups_encode m hoct

/-- C19. For every sequence of octets `m` of length 6, 8 or 20,
`ParseCanonicalAddr (CanonicalString m)` succeeds with exactly the octets of
`m`; and for every string whose base64 decoding succeeds with a number of
octets other than 6, 8 and 20, `ParseCanonicalAddr` fails with
`errBadDataLinkAddr`. -/
theorem parseCanonicalAddr_roundtrip (m : List Nat) (s : String) (data : List Nat)
    (hoct : ∀ x ∈ m, x < 256) :
    (m.length = 6 ∨ m.length = 8 ∨ m.length = 20 →
      ParseCanonicalAddr (CanonicalString m) = .ok m) ∧
    (base64Decode s = .ok data → data.length ≠ 6 → data.length ≠ 8 → data.length ≠ 20 →
      ParseCanonicalAddr s = .error errBadDataLinkAddr) := by
  constructor
  · intro hlen
    unfold ParseCanonicalAddr
    rw [base64Decode_canonicalString m hoct]
    rcases hlen with h | h | h <;> simp [h]
  · intro hdec h6 h8 h20
    unfold ParseCanonicalAddr
    rw [hdec]
    simp [h6, h8, h20]

/-- The witness of C19: the address `52:54:00:12:34:56` goes through its
canonical string `UlQAEjRW` and back, and the canonical string of three octets
is refused. -/
theorem parseCanonicalAddr_roundtrip_witness :
    CanonicalString sampleMac = "UlQAEjRW" ∧
    ParseCanonicalAddr (CanonicalString sampleMac) = .ok sampleMac ∧
    ParseCanonicalAddr "AQID" = .error errBadDataLinkAddr :=
  have h := parseCanonicalAddr_roundtrip sampleMac "AQID" [1, 2, 3] (by decide)
  ⟨rfl, h.1 (Or.inl rfl), h.2 rfl (by decide) (by decide) (by decide)⟩

/-! ## `strconv.ParseUint`, characterised -/

theorem digit_toNat (c : Char) (h : '0' ≤ c ∧ c ≤ '9') : 48 ≤ c.toNat ∧ c.toNat ≤ 57 := by
  have h1 := h.1
  have h2 := h.2
  simp only [Char.le_def, UInt32.le_def] at h1 h2
  exact ⟨h1, h2⟩

theorem parseUintLoop_ok (maxVal : Nat) (ds : List Char) (n v : Nat) (hn : n ≤ maxVal)
    (hok : parseUintLoop maxVal ds n = .ok v) :
    (∀ c ∈ ds, c.isDigit = true) ∧
      ds.foldl (fun n c => n * 10 + (c.toNat - '0'.toNat)) n = v ∧ v ≤ maxVal := by
  induction ds generalizing n with
  | nil =>
    simp only [parseUintLoop, Except.ok.injEq] at hok
    subst hok
    exact ⟨by simp, rfl, hn⟩
  | cons c cs ih =>
    unfold parseUintLoop at hok
    by_cases hc : '0' ≤ c ∧ c ≤ '9'
    · rw [if_pos hc] at hok
      by_cases hcut : n ≥ parseUintCutoff
      · rw [if_pos hcut] at hok; cases hok
      · rw [if_neg hcut] at hok
        simp only [] at hok
        by_cases hov : (n * 10 % 2 ^ 64 + (c.toNat - '0'.toNat)) % 2 ^ 64 < n * 10 % 2 ^ 64
            ∨ (n * 10 % 2 ^ 64 + (c.toNat - '0'.toNat)) % 2 ^ 64 > maxVal
        · rw [if_pos hov] at hok; cases hok
        · rw [if_neg hov] at hok
          have hd := digit_toNat c hc
          have h0 : '0'.toNat = 48 := rfl
          unfold parseUintCutoff at hcut
          norm_num at hcut hov
          norm_num at hok
          have hn1 : (n * 10 + (c.toNat - '0'.toNat)) % 18446744073709551616
              = n * 10 + (c.toNat - '0'.toNat) := by
            rw [h0] at hov ⊢
            omega
          rw [hn1] at hok hov
          have := ih _ hov.2 hok
          refine ⟨?_, this.2.1, this.2.2⟩
          intro x hx
          rcases List.mem_cons.1 hx with rfl | hx
          · exact (isDigit_iff x).2 hc
          · exact this.1 x hx
    · rw [if_neg hc] at hok; cases hok

/-- `strconv.ParseUint(s, 10, bitSize)` succeeds exactly on the non-empty strings
of decimal digits whose value fits `bitSize` bits, and gives that value. -/
theorem ParseUint_ok_iff (s : String) (bitSize v : Nat) (hbits : bitSize ≤ 64) :
    ParseUint s bitSize = .ok v ↔
      s.toList ≠ [] ∧ (∀ c ∈ s.toList, c.isDigit = true) ∧ decimalValue s = v
        ∧ v < 2 ^ bitSize := by
  have hpos : 0 < 2 ^ bitSize := Nat.two_pow_pos _
  have hle : 2 ^ bitSize ≤ 2 ^ 64 := Nat.pow_le_pow_right (by norm_num) hbits
  constructor
  · intro h
    unfold ParseUint at h
    by_cases hs : s.toList = []
    · rw [if_pos hs] at h; cases h
    · rw [if_neg hs] at h
      have := parseUintLoop_ok _ _ _ _ (Nat.zero_le _) h
      exact ⟨hs, this.1, this.2.1, by omega⟩
  · rintro ⟨hs, hdig, hval, hlt⟩
    unfold ParseUint
    rw [if_neg hs]
    have := parseUintLoop_digits (2 ^ bitSize - 1) (by omega) s.toList 0 hdig
      (by unfold decimalValue at hval; omega)
    rw [this]
    unfold decimalValue at hval
    rw [hval]

/-! ## Decoding a nameserver -/

/-- C12. For every string `s`, whatever `net.ParseIP` and `net.SplitHostPort`
answer: `UnmarshalJSON` on the JSON string `s` and `UnmarshalYAML` on a node
decoded to `s` both decode `s` as follows. If `s` is an IP literal the result
is host `s`, port 53. Otherwise `s` is split into host and port: if the split
fails, decoding fails with that error; an empty port gives port 53 with the
split host; a port that is a string of decimal digits with value at most 65535
gives that value with the split host; any other non-empty port makes decoding
fail. -/
theorem nameserver_decode_cases (parseIP : String → Option (List Nat))
    (splitHostPort : String → Except String (String × String)) (s : String) :
    Nameserver.UnmarshalJSON parseIP splitHostPort (.string s)
      = Nameserver.decode parseIP splitHostPort s ∧
    Nameserver.UnmarshalYAML parseIP splitHostPort (.ok s)
      = Nameserver.decode parseIP splitHostPort s ∧
    (∀ ip, parseIP s = some ip →
      Nameserver.decode parseIP splitHostPort s = .ok { Host := s, Port := 53 }) ∧
    (parseIP s = none →
      (∀ e, splitHostPort s = .error e →
        Nameserver.decode parseIP splitHostPort s = .error e) ∧
      (∀ host, splitHostPort s = .ok (host, "") →
        Nameserver.decode parseIP splitHostPort s = .ok { Host := host, Port := 53 }) ∧
      (∀ host portStr, splitHostPort s = .ok (host, portStr) → portStr ≠ "" →
        ((∀ c ∈ portStr.toList, c.isDigit = true) → decimalValue portStr ≤ 65535 →
          Nameserver.decode parseIP splitHostPort s
            = .ok { Host := host, Port := decimalValue portStr }) ∧
        (¬ ((∀ c ∈ portStr.toList, c.isDigit = true) ∧ decimalValue portStr ≤ 65535) →
          ∃ e, Nameserver.decode parseIP splitHostPort s = .error e))) := by
  refine ⟨rfl, rfl, ?_, ?_⟩
  · intro ip hip
    simp only [Nameserver.decode, hip]
  · intro hnone
    refine ⟨?_, ?_, ?_⟩
    · intro e he
      simp only [Nameserver.decode, hnone, he]
    · intro host hsplit
      simp [Nameserver.decode, hnone, hsplit]
    · intro host portStr hsplit hne
      have hlist : portStr.toList ≠ [] := by
        intro h
        apply hne
        cases portStr
        simp only [String.toList] at h
        subst h
        rfl
      constructor
      · intro hdig hval
        have hp : ParseUint portStr 16 = .ok (decimalValue portStr) :=
          (ParseUint_ok_iff portStr 16 _ (by norm_num)).2 ⟨hlist, hdig, rfl, by norm_num; omega⟩
        simp only [Nameserver.decode, hnone, hsplit, hne, ne_eq, not_false_eq_true, if_true, hp]
        have : decimalValue portStr % 2 ^ 16 = decimalValue portStr :=
          Nat.mod_eq_of_lt (by norm_num; omega)
        rw [this]
      · intro hbad
        cases hp : ParseUint portStr 16 with
        | error e =>
          exact ⟨e.text, by
            simp only [Nameserver.decode, hnone, hsplit, hne, ne_eq, not_false_eq_true, if_true,
              hp]⟩
        | ok v =>
          exfalso
          have := (ParseUint_ok_iff portStr 16 v (by norm_num)).1 hp
          apply hbad
          refine ⟨this.2.1, ?_⟩
          have h3 := this.2.2.2
          rw [this.2.2.1]
          norm_num at h3
          omega

/-! ## Decoding an IPv6 prefix length -/

/-- The member `cidr` of a droplet's IPv6 block is decoded as a plain `uint8`:
from JSON it accepts a number literal exactly when it is a string of decimal
digits with value at most 255, and no string. -/
theorem decodeCidrJSON_accepts (text : String) (v : Nat) :
    (decodeCidrJSON (.number text) = .ok v ↔
      text.toList ≠ [] ∧ (∀ c ∈ text.toList, c.isDigit = true) ∧ decimalValue text = v
        ∧ v ≤ 255) ∧
    (∃ e, decodeCidrJSON (.string text) = .error e) := by
  refine ⟨?_, ⟨_, rfl⟩⟩
  unfold decodeCidrJSON jsonUint8
  cases hp : ParseUint text 64 with
  | error x =>
    simp only [hp, reduceCtorEq, false_iff]
    intro h
    have := (ParseUint_ok_iff text 64 v (by norm_num)).2 ⟨h.1, h.2.1, h.2.2.1, by
      norm_num; omega⟩
    rw [hp] at this
    cases this
  | ok u =>
    have hu := (ParseUint_ok_iff text 64 u (by norm_num)).1 hp
    by_cases hbig : u > 255
    · simp only [hp, hbig, if_true, reduceCtorEq, false_iff]
      intro h
      have : u = v := by rw [← hu.2.2.1, h.2.2.1]
      omega
    · simp only [hp, hbig, if_false, Except.ok.injEq]
      constructor
      · intro h
        subst h
        exact ⟨hu.1, hu.2.1, hu.2.2.1, by omega⟩
      · intro h
        rw [← hu.2.2.1, h.2.2.1]

/-! ## The nameserver listing -/

theorem fprintlnAll_body (w : Exchange) (xs : List String) :
    (fprintlnAll w xs).body = w.body ++ linesOf xs := by
  induction xs generalizing w with
  | nil => simp [fprintlnAll, linesOf]
  | cons x xs ih =>
    have h : fprintlnAll w (x :: xs) = fprintlnAll (Fprintln w x) xs := rfl
    rw [h, ih]
    simp [Fprintln, Exchange.Write, linesOf, String.append_assoc]

theorem fprintlnAll_statusCode (w : Exchange) (xs : List String) (h : w.status = none) :
    (Outcome.returned (fprintlnAll w xs)).statusCode = some 200 := by
  have hgen : ∀ (xs : List String) (w : Exchange), w.status = none ∨ w.status = some 200 →
      (fprintlnAll w xs).status = none ∨ (fprintlnAll w xs).status = some 200 := by
    intro xs
    induction xs with
    | nil => intro w hw; exact hw
    | cons x xs ih =>
      intro w hw
      have h2 : fprintlnAll w (x :: xs) = fprintlnAll (Fprintln w x) xs := rfl
      rw [h2]
      apply ih
      rcases hw with hw | hw <;> simp [Fprintln, Exchange.Write, hw]
  rcases hgen xs w (Or.inl h) with h1 | h1 <;> simp [Outcome.statusCode, h1]

/-- The nameserver route for a store that binds a droplet document to the
caller's canonical address: when the document has a dns section, `GET
/metadata/v1/dns/nameservers` is answered 200, without a fault, with the
formatted text of each nameserver in document order, each followed by a
newline; when it has none, the answer is that of `notFoundHandlerV1`. A
nameserver is formatted as its bare host when its port is 53, and when its
port is neither 53 nor 0 as `host:port`, the host in brackets when it contains
a colon (as an IPv6 literal does). -/
theorem dns_nameservers_listing (c : Codecs) (st : Store) (kind : String) (d : Droplet)
    (remoteAddr addr : String)
    (haddr : addr ≠ "")
    (hdoc : st.GetDocument addr TypeURIV1 = .ok { Kind := kind, Contents := .droplet d }) :
    let res := EndpointV1.ServeHTTP c st Exchange.fresh
      { RemoteAddr := remoteAddr, Method := "GET", Path := "/metadata/v1/dns/nameservers",
        RemoteDataLinkAddr := addr }
    (∀ dns, d.DNS = some dns →
      res.statusCode = some 200 ∧ res.faulted = false ∧
      res.body = linesOf (dns.Nameservers.map Nameserver.String)) ∧
    (d.DNS = none →
      res = .returned (notFoundHandlerV1
        (Exchange.fresh.recordAll [.handler "getDNSAttr", .getDocument addr TypeURIV1]))) ∧
    (∀ n : Nameserver,
      (n.Port = 53 → n.String = n.Host) ∧
      (n.Port ≠ 53 → n.Port ≠ 0 →
        (n.Host.toList.any (fun ch => ch = ':') = true →
          n.String = "[" ++ n.Host ++ "]:" ++ toString n.Port) ∧
        (n.Host.toList.any (fun ch => ch = ':') = false →
          n.String = n.Host ++ ":" ++ toString n.Port))) := by
  intro res
  have hres : res = getDNSAttr st (Exchange.fresh.record (.handler "getDNSAttr"))
      { RemoteAddr := remoteAddr, Method := "GET", Path := "/metadata/v1/dns/nameservers",
        RemoteDataLinkAddr := addr } [("attr", "nameservers")] := by
    show EndpointV1.ServeHTTP c st Exchange.fresh _ = _
    unfold EndpointV1.ServeHTTP
    rw [if_neg haddr]
    rfl
  have hattr : Vars.get [("attr", "nameservers")] "attr" = "nameservers" := rfl
  refine ⟨?_, ?_, ?_⟩
  · intro dns hdns
    rw [hres]
    unfold getDNSAttr
    rw [getDropletDocument_bound st _ _ kind d hdoc]
    simp only [hdns, hattr, if_true]
    refine ⟨fprintlnAll_statusCode _ _ rfl, rfl, ?_⟩
    show (fprintlnAll _ _).body = _
    rw [fprintlnAll_body]
    show "" ++ _ = _
    simp
  · intro hdns
    rw [hres]
    unfold getDNSAttr
    rw [getDropletDocument_bound st _ _ kind d hdoc]
    simp only [hdns]
    rfl
  · intro n
    constructor
    · intro h53
      simp [Nameserver.String, h53]
    · intro h53 h0
      constructor
      · intro hcolon
        simp only [Nameserver.String, h0, h53, or_self, if_false, JoinHostPort]
        rw [if_pos hcolon]
      · intro hcolon
        simp only [Nameserver.String, h0, h53, or_self, if_false, JoinHostPort]
        rw [if_neg (by rw [hcolon]; exact Bool.false_ne_true)]

/-- The listing for a droplet with the nameservers `8.8.8.8` port 53,
`2001:4860:4860::8888` port 5353 and `ns.example.com` port 5353. -/
theorem dns_nameservers_listing_example :
    (EndpointV1.ServeHTTP sampleCodecs (storeOf sampleDropletDNS) Exchange.fresh
        (getRequest "/metadata/v1/dns/nameservers")).statusCode = some 200 ∧
    (EndpointV1.ServeHTTP sampleCodecs (storeOf sampleDropletDNS) Exchange.fresh
        (getRequest "/metadata/v1/dns/nameservers")).body
      = linesOf (sampleNameservers.map Nameserver.String) ∧
    linesOf (sampleNameservers.map Nameserver.String)
      = "8.8.8.8\n[2001:4860:4860::8888]:5353\nns.example.com:5353\n" :=
  have h := (dns_nameservers_listing sampleCodecs (storeOf sampleDropletDNS) TypeURIV1
    sampleDropletDNS "10.0.0.2:49152" (CanonicalString sampleMac) (by decide) rfl).1
    { Nameservers := sampleNameservers } rfl
  ⟨h.1, h.2.2, by decide⟩

/-- What `notFoundHandlerV1` leaves of a response nothing was written to:
status 301 and the body `not found`. -/
theorem notFoundHandlerV1_fresh (w : Exchange) (hs : w.status = none) (hb : w.body = "") :
    (Outcome.returned (notFoundHandlerV1 w)).statusCode = some 301 ∧
    (Outcome.returned (notFoundHandlerV1 w)).body = "not found" := by
  simp [notFoundHandlerV1, Fprint, Exchange.Write, Exchange.WriteHeader, Outcome.statusCode,
    Outcome.body, Outcome.exchange, hs, hb]

/-- C11. `GET /metadata/v1/dns/nameservers` for a caller bound to a droplet
document. Without a dns section the answer is status 301
(`http.StatusMovedPermanently`) with the body `not found`, not the 404 of the
not-found response: for the sample droplet without dns, and for every store,
every caller with an address and every droplet without dns. With a dns
section the answer is 200, without a fault, with the formatted text of each
nameserver in document order, each followed by a newline, where a nameserver
is formatted as its bare host when its port is 53, and when its port is
neither 53 nor 0 as `host:port`, the host in brackets when it contains a
colon (as an IPv6 literal does). -/
theorem dns_nameservers_absent_section_status_301 :
    EndpointV1.ServeHTTP sampleCodecs (storeOf sampleDropletNoDNS) Exchange.fresh
        (getRequest "/metadata/v1/dns/nameservers")
      = .returned
          { status := some 301, body := "not found", stdout := [],
            trace := [.handler "getDNSAttr",
                      .getDocument (CanonicalString sampleMac) TypeURIV1] } ∧
    (∀ (c : Codecs) (st : Store) (kind : String) (d : Droplet) (remoteAddr addr : String),
      addr ≠ "" →
      st.GetDocument addr TypeURIV1 = .ok { Kind := kind, Contents := .droplet d } →
      d.DNS = none →
      (EndpointV1.ServeHTTP c st Exchange.fresh
        { RemoteAddr := remoteAddr, Method := "GET", Path := "/metadata/v1/dns/nameservers",
          RemoteDataLinkAddr := addr }).statusCode = some 301 ∧
      (EndpointV1.ServeHTTP c st Exchange.fresh
        { RemoteAddr := remoteAddr, Method := "GET", Path := "/metadata/v1/dns/nameservers",
          RemoteDataLinkAddr := addr }).body = "not found" ∧
      (EndpointV1.ServeHTTP c st Exchange.fresh
        { RemoteAddr := remoteAddr, Method := "GET", Path := "/metadata/v1/dns/nameservers",
          RemoteDataLinkAddr := addr }).faulted = false) ∧
    (∀ (c : Codecs) (st : Store) (kind : String) (d : Droplet) (remoteAddr addr : String),
      addr ≠ "" →
      st.GetDocument addr TypeURIV1 = .ok { Kind := kind, Contents := .droplet d } →
      ∀ dns, d.DNS = some dns →
        (EndpointV1.ServeHTTP c st Exchange.fresh
          { RemoteAddr := remoteAddr, Method := "GET", Path := "/metadata/v1/dns/nameservers",
            RemoteDataLinkAddr := addr }).statusCode = some 200 ∧
        (EndpointV1.ServeHTTP c st Exchange.fresh
          { RemoteAddr := remoteAddr, Method := "GET", Path := "/metadata/v1/dns/nameservers",
            RemoteDataLinkAddr := addr }).faulted = false ∧
        (EndpointV1.ServeHTTP c st Exchange.fresh
          { RemoteAddr := remoteAddr, Method := "GET", Path := "/metadata/v1/dns/nameservers",
            RemoteDataLinkAddr := addr }).body
          = linesOf (dns.Nameservers.map Nameserver.String)) ∧
    (EndpointV1.ServeHTTP sampleCodecs (storeOf sampleDropletDNS) Exchange.fresh
        (getRequest "/metadata/v1/dns/nameservers")).body
      = "8.8.8.8\n[2001:4860:4860::8888]:5353\nns.example.com:5353\n" ∧
    (∀ n : Nameserver,
      (n.Port = 53 → n.String = n.Host) ∧
      (n.Port ≠ 53 → n.Port ≠ 0 →
        (n.Host.toList.any (fun ch => ch = ':') = true →
          n.String = "[" ++ n.Host ++ "]:" ++ toString n.Port) ∧
        (n.Host.toList.any (fun ch => ch = ':') = false →
          n.String = n.Host ++ ":" ++ toString n.Port))) := by
  refine ⟨by decide, ?_, ?_, ?_, ?_⟩
  · intro c st kind d remoteAddr addr haddr hdoc hdns
    have h := (dns_nameservers_listing c st kind d remoteAddr addr haddr hdoc).2.1 hdns
    simp only [] at h
    rw [h]
    have h2 := notFoundHandlerV1_fresh
      (Exchange.fresh.recordAll [.handler "getDNSAttr", .getDocument addr TypeURIV1]) rfl rfl
    exact ⟨h2.1, h2.2, rfl⟩
  · intro c st kind d remoteAddr addr haddr hdoc dns hdns
    exact (dns_nameservers_listing c st kind d remoteAddr addr haddr hdoc).1 dns hdns
  · exact dns_nameservers_listing_example.2.1.trans dns_nameservers_listing_example.2.2
  · exact (dns_nameservers_listing sampleCodecs (storeOf sampleDropletDNS) TypeURIV1
      sampleDropletDNS "10.0.0.2:49152" (CanonicalString sampleMac) (by decide) rfl).2.2

/-! ## The directory store: the indexes after an event -/

theorem lookup_mapDelete {β : Type} (m : List (String × β)) (k k1 : String) :
    (mapDelete m k1).lookup k = if k = k1 then none else m.lookup k :=
  lookup_filter_ne m k k1

theorem unbindAll_nil (s : DirStore) : s.unbindAll [] = s := rfl

theorem unbindAll_cons (s : DirStore) (a : String) (as : List String) :
    s.unbindAll (a :: as)
      = DirStore.unbindAll
          { s with
            typeURIsForDataLinkAddr := mapDelete s.typeURIsForDataLinkAddr a,
            filePathForDataLinkAddrAndTypeURI :=
              mapDelete s.filePathForDataLinkAddrAndTypeURI a } as := rfl

theorem unbindAll_typeURIs (addrs : List String) (s : DirStore) (M : String) :
    (s.unbindAll addrs).typeURIsForDataLinkAddr.lookup M
      = if M ∈ addrs then none else s.typeURIsForDataLinkAddr.lookup M := by
  induction addrs generalizing s with
  | nil => simp [unbindAll_nil]
  | cons a as ih =>
    rw [unbindAll_cons, ih]
    by_cases h : M ∈ as
    · simp [h]
    · by_cases ha : M = a
      · simp [h, ha, lookup_mapDelete]
      · simp [h, ha, lookup_mapDelete]

theorem unbindAll_filePaths (addrs : List String) (s : DirStore) (M : String) :
    (s.unbindAll addrs).filePathForDataLinkAddrAndTypeURI.lookup M
      = if M ∈ addrs then none else s.filePathForDataLinkAddrAndTypeURI.lookup M := by
  induction addrs generalizing s with
  | nil => simp [unbindAll_nil]
  | cons a as ih =>
    rw [unbindAll_cons, ih]
    by_cases h : M ∈ as
    · simp [h]
    · by_cases ha : M = a
      · simp [h, ha, lookup_mapDelete]
      · simp [h, ha, lookup_mapDelete]

theorem unbindAll_paths (addrs : List String) (s : DirStore) :
    (s.unbindAll addrs).dataLinkAddrsForFilePath = s.dataLinkAddrsForFilePath := by
  induction addrs generalizing s with
  | nil => rfl
  | cons a as ih => rw [unbindAll_cons, ih]

theorem unbindAll_cache (addrs : List String) (s : DirStore) :
    (s.unbindAll addrs).documentCache = s.documentCache := by
  induction addrs generalizing s with
  | nil => rfl
  | cons a as ih => rw [unbindAll_cons, ih]

theorem forget_paths (s : DirStore) (path : String) :
    (s.forget path).dataLinkAddrsForFilePath.lookup path = none := by
  unfold DirStore.forget
  cases h : s.dataLinkAddrsForFilePath.lookup path with
  | none => simp only [h]
  | some addrs => simp [lookup_mapDelete]

theorem forget_paths_ne (s : DirStore) (path other : String) (hne : other ≠ path) :
    (s.forget path).dataLinkAddrsForFilePath.lookup other
      = s.dataLinkAddrsForFilePath.lookup other := by
  unfold DirStore.forget
  cases h : s.dataLinkAddrsForFilePath.lookup path with
  | none => simp only
  | some addrs => simp [lookup_mapDelete, hne, unbindAll_paths]

theorem forget_cache (s : DirStore) (path : String) :
    (s.forget path).documentCache = s.documentCache := by
  unfold DirStore.forget
  cases h : s.dataLinkAddrsForFilePath.lookup path with
  | none => simp only
  | some addrs => simp [unbindAll_cache]

theorem forget_typeURIs (s : DirStore) (path M : String) :
    (s.forget path).typeURIsForDataLinkAddr.lookup M
      = if M ∈ (s.dataLinkAddrsForFilePath.lookup path).getD [] then none
        else s.typeURIsForDataLinkAddr.lookup M := by
  unfold DirStore.forget
  cases h : s.dataLinkAddrsForFilePath.lookup path with
  | none => simp
  | some addrs => simp [unbindAll_typeURIs]

theorem forget_filePaths (s : DirStore) (path M : String) :
    (s.forget path).filePathForDataLinkAddrAndTypeURI.lookup M
      = if M ∈ (s.dataLinkAddrsForFilePath.lookup path).getD [] then none
        else s.filePathForDataLinkAddrAndTypeURI.lookup M := by
  unfold DirStore.forget
  cases h : s.dataLinkAddrsForFilePath.lookup path with
  | none => simp
  | some addrs => simp [unbindAll_filePaths]

theorem cache_Remove_Get (c : ARCCache) (key : String) : (c.Remove key).Get key = none := by
  simp [ARCCache.Remove, ARCCache.Get, lookup_mapDelete]

/-- C13. After `didRemoveFile` on a path, in any store: the call
returns without reading any file; the path is absent from the path-to-MACs
index and from the document cache; and every address the index recorded for
the path has no schema list (`ListSupportedTypeURIs` answers `ErrNotFound`)
and no binding for any schema (`GetDocument` answers `ErrNotFound`, reading
no file, whatever the file system holds). -/
theorem didRemoveFile_clears_path (s : DirStore) (path : String) :
    (s.didRemoveFile path).ret = .ok () ∧
    (s.didRemoveFile path).reads = [] ∧
    (s.didRemoveFile path).store.dataLinkAddrsForFilePath.lookup path = none ∧
    (s.didRemoveFile path).store.documentCache.Get path = none ∧
    ∀ dataLinkAddrs, s.dataLinkAddrsForFilePath.lookup path = some dataLinkAddrs →
      ∀ M ∈ dataLinkAddrs,
        (s.didRemoveFile path).store.ListSupportedTypeURIs M = .error ErrNotFound ∧
        ∀ (fs : FileSystem) (dec : Decoders) (S : String),
          (s.didRemoveFile path).store.resolve M S = none ∧
          ((s.didRemoveFile path).store.GetDocument fs dec M S).ret = .err ErrNotFound ∧
          ((s.didRemoveFile path).store.GetDocument fs dec M S).reads = [] := by
  refine ⟨rfl, rfl, ?_, ?_, ?_⟩
  · exact forget_paths s path
  · exact cache_Remove_Get _ _
  · intro dataLinkAddrs hrec M hM
    have hty : (s.didRemoveFile path).store.typeURIsForDataLinkAddr.lookup M = none := by
      show (s.forget path).typeURIsForDataLinkAddr.lookup M = none
      rw [forget_typeURIs, hrec]
      simp [hM]
    have hfp : (s.didRemoveFile path).store.filePathForDataLinkAddrAndTypeURI.lookup M = none := by
      show (s.forget path).filePathForDataLinkAddrAndTypeURI.lookup M = none
      rw [forget_filePaths, hrec]
      simp [hM]
    refine ⟨?_, ?_⟩
    · unfold DirStore.ListSupportedTypeURIs
      rw [hty]
    · intro fs dec S
      have hres : (s.didRemoveFile path).store.resolve M S = none := by
        unfold DirStore.resolve
        rw [hfp]
      refine ⟨hres, ?_, ?_⟩
      · unfold DirStore.GetDocument
        rw [hres]
      · unfold DirStore.GetDocument
        rw [hres]

theorem resolve_bind (s : DirStore) (path S a M S1 : String) :
    (s.bind path S a).resolve M S1
      = if M = a then (if S1 = S then some path else s.resolve M S1) else s.resolve M S1 := by
  unfold DirStore.resolve DirStore.bind
  cases h : s.filePathForDataLinkAddrAndTypeURI.lookup a with
  | none =>
    simp only [lookup_mapSet]
    by_cases hM : M = a
    · subst hM
      simp only [if_true, h]
      rw [lookup_cons_ite]
      rfl
    · simp only [hM, if_false]
  | some inner =>
    simp only [lookup_mapSet]
    by_cases hM : M = a
    · subst hM
      simp only [if_true, h, lookup_mapSet]
    · simp only [hM, if_false]

theorem bind_paths (s : DirStore) (path S a : String) :
    (s.bind path S a).dataLinkAddrsForFilePath = s.dataLinkAddrsForFilePath := rfl

theorem bind_cache (s : DirStore) (path S a : String) :
    (s.bind path S a).documentCache = s.documentCache := rfl

theorem resolve_foldl_bind (L : List String) (s : DirStore) (path S M S1 : String) :
    (L.foldl (fun s a => s.bind path S a) s).resolve M S1
      = if M ∈ L ∧ S1 = S then some path else s.resolve M S1 := by
  induction L generalizing s with
  | nil => simp
  | cons a as ih =>
    rw [List.foldl_cons, ih, resolve_bind]
    by_cases hS : S1 = S
    · by_cases hM : M ∈ as
      · simp [hS, hM]
      · by_cases ha : M = a
        · simp [hS, ha]
        · simp [hS, hM, ha]
    · simp [hS]

theorem foldl_bind_paths (L : List String) (s : DirStore) (path S : String) :
    (L.foldl (fun s a => s.bind path S a) s).dataLinkAddrsForFilePath
      = s.dataLinkAddrsForFilePath := by
  induction L generalizing s with
  | nil => rfl
  | cons a as ih => rw [List.foldl_cons, ih, bind_paths]

theorem foldl_bind_cache (L : List String) (s : DirStore) (path S : String) :
    (L.foldl (fun s a => s.bind path S a) s).documentCache = s.documentCache := by
  induction L generalizing s with
  | nil => rfl
  | cons a as ih => rw [List.foldl_cons, ih, bind_cache]

theorem didChangeFile_parsed (fs : FileSystem) (dec : Decoders) (s : DirStore) (path : String)
    (file : Document) (d : Droplet)
    (hread : readDocumentFromFile fs dec path = .ok (some file))
    (hpayload : file.Contents = .droplet d) :
    s.didChangeFile fs dec path
      = { store :=
            { ((d.DataLinkAddrs.map CanonicalString).foldl
                (fun s a => s.bind path file.Kind a)
                (DirStore.forget { s with documentCache := s.documentCache.Remove path } path))
              with
              dataLinkAddrsForFilePath :=
                mapSet
                  ((d.DataLinkAddrs.map CanonicalString).foldl
                    (fun s a => s.bind path file.Kind a)
                    (DirStore.forget { s with documentCache := s.documentCache.Remove path }
                      path)).dataLinkAddrsForFilePath
                  path (d.DataLinkAddrs.map CanonicalString) },
          reads := [path], ret := .ok () } := by
  unfold DirStore.didChangeFile
  rw [hread]
  simp only [hpayload]

/-- C14. After `didChangeFile` on a path whose file parses to a document
of schema `file.Kind` with a droplet payload, in any store: the call returns;
the path-to-MACs index maps the path to the canonical strings of the addresses
the payload declares, in order; for each of these addresses the binding for
the schema resolves to the path; an address that was recorded for the path
before the event and is not declared any more resolves to the path for no
schema; and the document cache holds no entry for the path. -/
theorem didChangeFile_reindexes (fs : FileSystem) (dec : Decoders) (s : DirStore)
    (path : String) (file : Document) (d : Droplet)
    (hread : readDocumentFromFile fs dec path = .ok (some file))
    (hpayload : file.Contents = .droplet d) :
    (s.didChangeFile fs dec path).ret = .ok () ∧
    (s.didChangeFile fs dec path).store.dataLinkAddrsForFilePath.lookup path
      = some (d.DataLinkAddrs.map CanonicalString) ∧
    (∀ M ∈ d.DataLinkAddrs.map CanonicalString,
      (s.didChangeFile fs dec path).store.resolve M file.Kind = some path) ∧
    (∀ recorded, s.dataLinkAddrsForFilePath.lookup path = some recorded →
      ∀ M ∈ recorded, M ∉ d.DataLinkAddrs.map CanonicalString →
        ∀ S, (s.didChangeFile fs dec path).store.resolve M S ≠ some path) ∧
    (s.didChangeFile fs dec path).store.documentCache.Get path = none := by
  rw [didChangeFile_parsed fs dec s path file d hread hpayload]
  refine ⟨rfl, ?_, ?_, ?_, ?_⟩
  · simp only [lookup_mapSet, if_true]
  · intro M hM
    show DirStore.resolve _ M file.Kind = some path
    unfold DirStore.resolve
    have h := resolve_foldl_bind (d.DataLinkAddrs.map CanonicalString)
      (DirStore.forget { s with documentCache := s.documentCache.Remove path } path)
      path file.Kind M file.Kind
    unfold DirStore.resolve at h
    simp only [h, hM, and_self, if_true]
  · intro recorded hrec M hM hnot S
    have h := resolve_foldl_bind (d.DataLinkAddrs.map CanonicalString)
      (DirStore.forget { s with documentCache := s.documentCache.Remove path } path)
      path file.Kind M S
    have hgone : (DirStore.forget { s with documentCache := s.documentCache.Remove path }
        path).resolve M S = none := by
      unfold DirStore.resolve
      rw [forget_filePaths]
      simp [hrec, hM]
    rw [hgone] at h
    unfold DirStore.resolve at h
    unfold DirStore.resolve
    simp only [h, hnot, false_and, if_false]
    exact fun hc => by cases hc
  · show ARCCache.Get _ path = none
    simp only [foldl_bind_cache, forget_cache]
    exact cache_Remove_Get _ _

/-- The witness of C14: the store that indexed `/srv/a.json` under the first
sample address handles a write of the file after its droplet moved to the
second address. -/
theorem didChangeFile_reindexes_witness :
    readDocumentFromFile (fileSystemOf [("/srv/a.json", [2])]) sampleDecoders "/srv/a.json"
      = .ok (some sampleDocumentMoved) ∧
    sampleDocumentMoved.Contents = .droplet sampleDropletMoved ∧
    storeCreated.dataLinkAddrsForFilePath.lookup "/srv/a.json"
      = some [CanonicalString sampleMac] ∧
    (storeCreated.didChangeFile (fileSystemOf [("/srv/a.json", [2])]) sampleDecoders
        "/srv/a.json").store.dataLinkAddrsForFilePath.lookup "/srv/a.json"
      = some (sampleDropletMoved.DataLinkAddrs.map CanonicalString) ∧
    (∀ S, (storeCreated.didChangeFile (fileSystemOf [("/srv/a.json", [2])]) sampleDecoders
        "/srv/a.json").store.resolve (CanonicalString sampleMac) S ≠ some "/srv/a.json") :=
  have hread : readDocumentFromFile (fileSystemOf [("/srv/a.json", [2])]) sampleDecoders
      "/srv/a.json" = .ok (some sampleDocumentMoved) := by decide
  have hrec : storeCreated.dataLinkAddrsForFilePath.lookup "/srv/a.json"
      = some [CanonicalString sampleMac] := by decide
  ⟨hread, rfl, hrec,
    (didChangeFile_reindexes (fileSystemOf [("/srv/a.json", [2])]) sampleDecoders storeCreated
      "/srv/a.json" sampleDocumentMoved sampleDropletMoved hread rfl).2.1,
    (didChangeFile_reindexes (fileSystemOf [("/srv/a.json", [2])]) sampleDecoders storeCreated
      "/srv/a.json" sampleDocumentMoved sampleDropletMoved hread rfl).2.2.2.1
      [CanonicalString sampleMac] hrec (CanonicalString sampleMac) (List.mem_singleton.mpr rfl)
      (by decide)⟩

/-! ## The directory store: a file that fails to read or parse -/

theorem readDocumentFromFile_of_data (fs : FileSystem) (dec : Decoders) (path : String)
    (data : List Nat) (hdata : fs.ReadFile path = .ok data) (hne : data ≠ []) :
    readDocumentFromFile fs dec path
      = if Ext path = ".json" then dec.jsonUnmarshal data
        else if Ext path = ".yaml" ∨ Ext path = ".yml" then dec.yamlUnmarshal data
        else .err errBadFileExtension := by
  unfold readDocumentFromFile
  rw [hdata]
  have hlen : ¬ data.length = 0 := fun h => hne (List.length_eq_zero.mp h)
  simp only [hlen, if_false]

/-- C15. Whenever `readDocumentFromFile` returns an error for a path,
`didAddFile` and `didChangeFile` on that path each return with the store, and
so its three indexes, exactly as it was. `readDocumentFromFile` returns an
error when the file cannot be read, when it is empty, when its extension is
none of `.json`, `.yaml`, `.yml`, and when the decoder for its extension
returns an error; the decoders return `errBadTypeURI` for a document whose
`kind` is not the droplet schema. -/
theorem failed_parse_changes_nothing (fs : FileSystem) (dec : Decoders) (s : DirStore)
    (path : String) :
    (∀ e, readDocumentFromFile fs dec path = .err e →
      (s.didAddFile fs dec path).store = s ∧ (s.didAddFile fs dec path).ret = .ok () ∧
      (s.didChangeFile fs dec path).store = s ∧ (s.didChangeFile fs dec path).ret = .ok ()) ∧
    (∀ e, fs.ReadFile path = .error e → readDocumentFromFile fs dec path = .err e) ∧
    (fs.ReadFile path = .ok [] → readDocumentFromFile fs dec path = .err errBadPath) ∧
    (∀ data, fs.ReadFile path = .ok data → data ≠ [] →
      Ext path ≠ ".json" → Ext path ≠ ".yaml" → Ext path ≠ ".yml" →
      readDocumentFromFile fs dec path = .err errBadFileExtension) ∧
    (∀ data e, fs.ReadFile path = .ok data → data ≠ [] → Ext path = ".json" →
      dec.jsonUnmarshal data = .err e → readDocumentFromFile fs dec path = .err e) ∧
    (∀ data e, fs.ReadFile path = .ok data → data ≠ [] →
      (Ext path = ".yaml" ∨ Ext path = ".yml") →
      dec.yamlUnmarshal data = .err e → readDocumentFromFile fs dec path = .err e) ∧
    (∀ (json : JSONLib) (yaml : YAMLLib) (data : List Nat) (kind : String)
        (contents : List Nat),
      kind ≠ TypeURIV1 →
      (json.checkValid data = .ok () → json.isNull data = false →
        json.decodeRaw data = .ok (kind, contents) →
        (documentDecoders json yaml).jsonUnmarshal data = .err errBadTypeURI) ∧
      (yaml.checkValid data = .ok () → yaml.isNull data = false →
        yaml.decodeRaw data = .ok (kind, contents) →
        (documentDecoders json yaml).yamlUnmarshal data = .err errBadTypeURI)) := by
  refine ⟨?_, ?_, ?_, ?_, ?_, ?_, ?_⟩
  · intro e he
    unfold DirStore.didAddFile DirStore.didChangeFile
    rw [he]
    exact ⟨rfl, rfl, rfl, rfl⟩
  · intro e he
    unfold readDocumentFromFile
    rw [he]
  · intro he
    unfold readDocumentFromFile
    rw [he]
    rfl
  · intro data hdata hne h1 h2 h3
    rw [readDocumentFromFile_of_data fs dec path data hdata hne]
    simp only [h1, h2, h3, or_self, if_false]
  · intro data e hdata hne hext hdec
    rw [readDocumentFromFile_of_data fs dec path data hdata hne]
    simp only [hext, if_true, hdec]
  · intro data e hdata hne hext hdec
    rw [readDocumentFromFile_of_data fs dec path data hdata hne]
    have hj : Ext path ≠ ".json" := by
      rcases hext with h | h
      · rw [h]; decide
      · rw [h]; decide
    simp only [hj, if_false, hext, if_true, hdec]
  · intro json yaml data kind contents hkind
    refine ⟨?_, ?_⟩
    · intro hvalid hnull hraw
      show jsonUnmarshalDocument json data = .err errBadTypeURI
      unfold jsonUnmarshalDocument Document.UnmarshalJSON unmarshalJSONMetadata
      rw [hvalid, hraw]
      simp only [hnull, hkind, if_false, Bool.false_eq_true]
    · intro hvalid hnull hraw
      show yamlUnmarshalDocument yaml data = .err errBadTypeURI
      unfold yamlUnmarshalDocument Document.UnmarshalYAML unmarshalYAMLMetadata
      rw [hvalid, hraw]
      simp only [hnull, hkind, if_false, Bool.false_eq_true]

theorem failed_parse_example :
    readDocumentFromFile (fileSystemOf [("/srv/a.json", [7])]) sampleDecoders "/srv/a.json"
      = .err "invalid character" ∧
    (storeCreated.didChangeFile (fileSystemOf [("/srv/a.json", [7])]) sampleDecoders
      "/srv/a.json").store = storeCreated ∧
    (storeCreated.didAddFile (fileSystemOf [("/srv/a.json", [7])]) sampleDecoders
      "/srv/a.json").store = storeCreated := by
  decide

/-! ## The directory store: bindings and the path-to-MACs index -/

/-- C16. A create event on `/srv/a.json` holding a
droplet with the first sample address, followed by a second create event on
the same path after the file was replaced by a droplet with the second sample
address, leaves a reachable store in which the first address and the droplet
schema are still bound to `/srv/a.json`, while the path-to-MACs index records
only the second address for that path: the binding is not backed by the index.
A remove event on the path then deletes the path from the index and keeps the
binding. -/
theorem recreated_file_keeps_stale_binding :
    Reachable 128 storeCreatedTwice ∧
    storeCreatedTwice.resolve (CanonicalString sampleMac) TypeURIV1 = some "/srv/a.json" ∧
    storeCreatedTwice.dataLinkAddrsForFilePath.lookup "/srv/a.json"
      = some [CanonicalString sampleMac2] ∧
    CanonicalString sampleMac ∉ [CanonicalString sampleMac2] ∧
    ¬ BindingsRecorded storeCreatedTwice ∧
    Reachable 128 (storeCreatedTwice.handleEvent (fileSystemOf []) sampleDecoders
      (removeEvent "/srv/a.json")).store ∧
    (storeCreatedTwice.handleEvent (fileSystemOf []) sampleDecoders
      (removeEvent "/srv/a.json")).store.resolve (CanonicalString sampleMac) TypeURIV1
      = some "/srv/a.json" ∧
    (storeCreatedTwice.handleEvent (fileSystemOf []) sampleDecoders
      (removeEvent "/srv/a.json")).store.dataLinkAddrsForFilePath.lookup "/srv/a.json"
      = none := by
  have hreach1 : Reachable 128 storeCreated :=
    Reachable.step (DirStore.empty 128) (fileSystemOf [("/srv/a.json", [1])]) sampleDecoders
      (createEvent "/srv/a.json") Reachable.empty (by decide)
  have hreach2 : Reachable 128 storeCreatedTwice :=
    Reachable.step storeCreated (fileSystemOf [("/srv/a.json", [2])]) sampleDecoders
      (createEvent "/srv/a.json") hreach1 (by decide)
  have hres : storeCreatedTwice.resolve (CanonicalString sampleMac) TypeURIV1
      = some "/srv/a.json" := by decide
  have hrec : storeCreatedTwice.dataLinkAddrsForFilePath.lookup "/srv/a.json"
      = some [CanonicalString sampleMac2] := by decide
  have hnot : CanonicalString sampleMac ∉ [CanonicalString sampleMac2] := by decide
  refine ⟨hreach2, hres, hrec, hnot, ?_, ?_, by decide, by decide⟩
  · intro hinv
    obtain ⟨addrs, haddrs, hmem⟩ := hinv _ _ _ hres
    rw [hrec] at haddrs
    cases haddrs
    exact hnot hmem
  · exact Reachable.step storeCreatedTwice (fileSystemOf []) sampleDecoders
      (removeEvent "/srv/a.json") hreach2 (by decide)

theorem forget_recorded (s : DirStore) (path : String) (hI : BindingsRecorded s) :
    BindingsRecorded (s.forget path) := by
  intro M S P h
  unfold DirStore.resolve at h
  rw [forget_filePaths] at h
  by_cases hM : M ∈ (s.dataLinkAddrsForFilePath.lookup path).getD []
  · simp only [hM, if_true] at h
    cases h
  · simp only [hM, if_false] at h
    obtain ⟨addrs, haddrs, hmem⟩ := hI M S P h
    have hne : P ≠ path := by
      intro hP
      subst hP
      rw [haddrs] at hM
      exact hM hmem
    exact ⟨addrs, by rw [forget_paths_ne s path P hne]; exact haddrs, hmem⟩

theorem addPhase_recorded (t u : DirStore) (path S : String) (L : List String)
    (hI : BindingsRecorded t) (hfresh : t.dataLinkAddrsForFilePath.lookup path = none)
    (hres : ∀ M S1, u.resolve M S1 = if M ∈ L ∧ S1 = S then some path else t.resolve M S1)
    (hpaths : u.dataLinkAddrsForFilePath = mapSet t.dataLinkAddrsForFilePath path L) :
    BindingsRecorded u := by
  intro M S1 P h
  rw [hres] at h
  rw [hpaths]
  by_cases hc : M ∈ L ∧ S1 = S
  · simp only [hc, and_self, if_true] at h
    cases h
    exact ⟨L, by simp only [lookup_mapSet, if_true], hc.1⟩
  · simp only [hc, if_false] at h
    obtain ⟨addrs, haddrs, hmem⟩ := hI M S1 P h
    have hne : P ≠ path := by
      intro hP
      subst hP
      rw [hfresh] at haddrs
      cases haddrs
    exact ⟨addrs, by simp only [lookup_mapSet, hne, if_false]; exact haddrs, hmem⟩

theorem resolve_foldl_add (L : List String) (s : DirStore) (path S M S1 : String) :
    (L.foldl
        (fun s a =>
          { s.bind path S a with documentCache := (s.bind path S a).documentCache.Remove a })
        s).resolve M S1
      = if M ∈ L ∧ S1 = S then some path else s.resolve M S1 := by
  induction L generalizing s with
  | nil => simp
  | cons a as ih =>
    rw [List.foldl_cons, ih]
    have hb : DirStore.resolve
        { s.bind path S a with documentCache := (s.bind path S a).documentCache.Remove a } M S1
        = (s.bind path S a).resolve M S1 := rfl
    rw [hb, resolve_bind]
    by_cases hS : S1 = S
    · by_cases hM : M ∈ as
      · simp [hS, hM]
      · by_cases ha : M = a
        · simp [hS, ha]
        · simp [hS, hM, ha]
    · simp [hS]

theorem foldl_add_paths (L : List String) (s : DirStore) (path S : String) :
    (L.foldl
        (fun s a =>
          { s.bind path S a with documentCache := (s.bind path S a).documentCache.Remove a })
        s).dataLinkAddrsForFilePath
      = s.dataLinkAddrsForFilePath := by
  induction L generalizing s with
  | nil => rfl
  | cons a as ih =>
    rw [List.foldl_cons, ih]
    rfl

theorem didAddFile_recorded (fs : FileSystem) (dec : Decoders) (s : DirStore) (path : String)
    (hI : BindingsRecorded s) (hfresh : s.dataLinkAddrsForFilePath.lookup path = none) :
    BindingsRecorded (s.didAddFile fs dec path).store := by
  unfold DirStore.didAddFile
  cases hread : readDocumentFromFile fs dec path with
  | err e => exact hI
  | fault reason => exact hI
  | ok file =>
    cases file with
    | none => exact hI
    | some file =>
      cases hpayload : file.Contents with
      | nil => simp only [hpayload]; exact hI
      | droplet d =>
        simp only [hpayload]
        refine addPhase_recorded s _ path file.Kind (d.DataLinkAddrs.map CanonicalString)
          hI hfresh ?_ ?_
        · intro M S1
          exact resolve_foldl_add _ s path file.Kind M S1
        · show mapSet _ path _ = mapSet _ path _
          rw [foldl_add_paths]

theorem didChangeFile_recorded (fs : FileSystem) (dec : Decoders) (s : DirStore)
    (path : String) (hI : BindingsRecorded s) :
    BindingsRecorded (s.didChangeFile fs dec path).store := by
  have hforget : BindingsRecorded
      (DirStore.forget { s with documentCache := s.documentCache.Remove path } path) :=
    forget_recorded _ path hI
  unfold DirStore.didChangeFile
  cases hread : readDocumentFromFile fs dec path with
  | err e => exact hI
  | fault reason => exact hI
  | ok file =>
    cases file with
    | none => exact hforget
    | some file =>
      cases hpayload : file.Contents with
      | nil => simp only [hpayload]; exact hforget
      | droplet d =>
        simp only [hpayload]
        refine addPhase_recorded _ _ path file.Kind (d.DataLinkAddrs.map CanonicalString)
          hforget (forget_paths _ path) ?_ ?_
        · intro M S1
          exact resolve_foldl_bind _ _ path file.Kind M S1
        · show mapSet _ path _ = mapSet _ path _
          rw [foldl_bind_paths]

theorem didRemoveFile_recorded (s : DirStore) (path : String) (hI : BindingsRecorded s) :
    BindingsRecorded (s.didRemoveFile path).store :=
  forget_recorded s path hI

theorem empty_recorded (cacheSize : Nat) : BindingsRecorded (DirStore.empty cacheSize) := by
  intro M S P h
  cases h

theorem first_creates_recorded (cacheSize : Nat) (s : DirStore)
    (h : ReachableByFirstCreates cacheSize s) : BindingsRecorded s := by
  induction h with
  | empty => exact empty_recorded cacheSize
  | step s fs dec event _ hfresh _ ih =>
    unfold DirStore.handleEvent
    by_cases hc : event.Op.Create = true
    · simp only [hc, if_true]
      exact didAddFile_recorded fs dec s event.Name ih (hfresh hc)
    · simp only [hc, if_false]
      by_cases hw : event.Op.Chmod = true ∨ event.Op.Write = true
      · simp only [hw, if_true]
        exact didChangeFile_recorded fs dec s event.Name ih
      · simp only [hw, if_false]
        by_cases hr : event.Op.Rename = true ∨ event.Op.Remove = true
        · simp only [hr, if_true]
          exact didRemoveFile_recorded s event.Name ih
        · simp only [hr, if_false]
          exact ih

/-! ## The directory store: the document cache -/

theorem cache_Remove_Get_ne (c : ARCCache) (key other : String) (hne : other ≠ key) :
    (c.Remove key).Get other = c.Get other := by
  simp [ARCCache.Remove, ARCCache.Get, lookup_mapDelete, hne]

theorem cache_Add_Get (c : ARCCache) (key : String) (v : CacheValue) :
    (c.Add key v).Get key = none ∨ (c.Add key v).Get key = some v := by
  unfold ARCCache.Add ARCCache.Get
  cases hsize : c.size with
  | zero => left; simp
  | succ n =>
    right
    simp only [List.take_succ_cons]
    rw [lookup_cons_ite]
    simp

/-- C28. A first `getDocument` on `/srv/a.json` in the store that indexed it
misses the cache, reads the file and returns its document, and leaves a cache
entry for the path holding the payload, a `document.Metadata`. The second
`getDocument`, right after, reads the file again: when the file was replaced
in between it returns the new document, not the one returned before. In
general, in any store whose cache holds no `*document.Document` under the
path, whenever the file parses, the call that follows a miss reads the file
again and returns what the file holds then. -/
theorem getDocument_reads_file_again :
    (storeCreated.getDocument (fileSystemOf [("/srv/a.json", [1])]) sampleDecoders
      "/srv/a.json").ret = .ok sampleDocument ∧
    (storeCreated.getDocument (fileSystemOf [("/srv/a.json", [1])]) sampleDecoders
      "/srv/a.json").reads = ["/srv/a.json"] ∧
    (storeCreated.getDocument (fileSystemOf [("/srv/a.json", [1])]) sampleDecoders
      "/srv/a.json").store.documentCache.Get "/srv/a.json"
      = some (.metadata (.droplet sampleDroplet)) ∧
    (DirStore.getDocument (fileSystemOf [("/srv/a.json", [1])]) sampleDecoders
      (storeCreated.getDocument (fileSystemOf [("/srv/a.json", [1])]) sampleDecoders
        "/srv/a.json").store "/srv/a.json").reads = ["/srv/a.json"] ∧
    (DirStore.getDocument (fileSystemOf [("/srv/a.json", [2])]) sampleDecoders
      (storeCreated.getDocument (fileSystemOf [("/srv/a.json", [1])]) sampleDecoders
        "/srv/a.json").store "/srv/a.json").ret = .ok sampleDocumentMoved ∧
    ∀ (fs fs2 : FileSystem) (dec : Decoders) (s : DirStore) (path : String)
      (file file2 : Document),
      readDocumentFromFile fs dec path = .ok (some file) →
      readDocumentFromFile fs2 dec path = .ok (some file2) →
      (∀ m, s.documentCache.Get path ≠ some (.document m)) →
      (s.getDocument fs dec path).ret = .ok file ∧
      (DirStore.getDocument fs2 dec (s.getDocument fs dec path).store path).reads = [path] ∧
      (DirStore.getDocument fs2 dec (s.getDocument fs dec path).store path).ret = .ok file2 := by
  refine ⟨by decide, by decide, by decide, by decide, by decide, ?_⟩
  intro fs fs2 dec s path file file2 hread hread2 hmiss
  have hfirst : s.getDocument fs dec path
      = { store := { s with documentCache := s.documentCache.Add path (.metadata file.Contents) },
          reads := [path], ret := .ok file } := by
    unfold DirStore.getDocument
    cases hget : s.documentCache.Get path with
    | none => simp only [hread]
    | some v =>
      cases v with
      | document m => exact absurd hget (hmiss m)
      | metadata m => simp only [hread]
  rw [hfirst]
  refine ⟨rfl, ?_⟩
  have hsecond : DirStore.getDocument fs2 dec
      { s with documentCache := s.documentCache.Add path (.metadata file.Contents) } path
      = { store :=
            { s with
              documentCache :=
                (s.documentCache.Add path (.metadata file.Contents)).Add path
                  (.metadata file2.Contents) },
          reads := [path], ret := .ok file2 } := by
    unfold DirStore.getDocument
    rcases cache_Add_Get s.documentCache path (.metadata file.Contents) with h | h
    · simp only [h, hread2]
    · simp only [h, hread2]
  rw [hsecond]
  exact ⟨rfl, rfl⟩

theorem foldl_add_cache (L : List String) (s : DirStore) (path S key : String)
    (hkey : key ∉ L) :
    (L.foldl
        (fun s a =>
          { s.bind path S a with documentCache := (s.bind path S a).documentCache.Remove a })
        s).documentCache.Get key
      = s.documentCache.Get key := by
  induction L generalizing s with
  | nil => rfl
  | cons a as ih =>
    rw [List.foldl_cons, ih _ (fun h => hkey (List.mem_cons_of_mem _ h))]
    have hne : key ≠ a := fun h => hkey (h ▸ List.mem_cons_self _ _)
    exact cache_Remove_Get_ne _ a key hne

theorem didAddFile_parsed (fs : FileSystem) (dec : Decoders) (s : DirStore) (path : String)
    (file : Document) (d : Droplet)
    (hread : readDocumentFromFile fs dec path = .ok (some file))
    (hpayload : file.Contents = .droplet d) :
    s.didAddFile fs dec path
      = { store :=
            { ((d.DataLinkAddrs.map CanonicalString).foldl
                (fun s a =>
                  { s.bind path file.Kind a with
                    documentCache := (s.bind path file.Kind a).documentCache.Remove a })
                s)
              with
              dataLinkAddrsForFilePath :=
                mapSet
                  ((d.DataLinkAddrs.map CanonicalString).foldl
                    (fun s a =>
                      { s.bind path file.Kind a with
                        documentCache := (s.bind path file.Kind a).documentCache.Remove a })
                    s).dataLinkAddrsForFilePath
                  path (d.DataLinkAddrs.map CanonicalString) },
          reads := [path], ret := .ok () } := by
  unfold DirStore.didAddFile
  rw [hread]
  simp only [hpayload]

/-- C23. In the store that indexed `/srv/a.json` and, after a lookup, holds a
cache entry for that path, a create event on the path whose file parses
returns and leaves the cache entry keyed by the path in place, with the
payload cached before the event, although the index now records the address
of the new content. In general, in any store, a `didAddFile` whose parse
succeeds leaves the cache entry of the path as it was whenever the path is
not the canonical string of an address the file declares: the entries it
removes are keyed by those strings. -/
theorem didAddFile_keeps_cache_entry :
    storeCached.documentCache.Get "/srv/a.json" = some (.metadata (.droplet sampleDroplet)) ∧
    storeCached.dataLinkAddrsForFilePath.lookup "/srv/a.json"
      = some [CanonicalString sampleMac] ∧
    (storeCached.didAddFile (fileSystemOf [("/srv/a.json", [2])]) sampleDecoders
      "/srv/a.json").ret = .ok () ∧
    (storeCached.didAddFile (fileSystemOf [("/srv/a.json", [2])]) sampleDecoders
      "/srv/a.json").store.documentCache.Get "/srv/a.json"
      = some (.metadata (.droplet sampleDroplet)) ∧
    (storeCached.didAddFile (fileSystemOf [("/srv/a.json", [2])]) sampleDecoders
      "/srv/a.json").store.dataLinkAddrsForFilePath.lookup "/srv/a.json"
      = some [CanonicalString sampleMac2] ∧
    (storeCached.didChangeFile (fileSystemOf [("/srv/a.json", [2])]) sampleDecoders
      "/srv/a.json").store.documentCache.Get "/srv/a.json" = none ∧
    ∀ (fs : FileSystem) (dec : Decoders) (s : DirStore) (path : String) (file : Document)
      (d : Droplet),
      readDocumentFromFile fs dec path = .ok (some file) → file.Contents = .droplet d →
      path ∉ d.DataLinkAddrs.map CanonicalString →
      (s.didAddFile fs dec path).store.documentCache.Get path = s.documentCache.Get path := by
  refine ⟨by decide, by decide, by decide, by decide, by decide, by decide, ?_⟩
  intro fs dec s path file d hread hpayload hkey
  rw [didAddFile_parsed fs dec s path file d hread hpayload]
  exact foldl_add_cache _ s path file.Kind path hkey

/-- C24. The store reached by a create event on `/srv/a.json`, a second create
event on it after its address changed, a remove event on it, and then a
`GetDocument` for the first address at a moment when a file of that name
exists again, holds a cache entry keyed by `/srv/a.json` while the
path-to-MACs index has no such key. -/
theorem lookup_caches_unindexed_path :
    ReachableWithLookups 128 storeRemovedLookedUp ∧
    storeRemoved.resolve (CanonicalString sampleMac) TypeURIV1 = some "/srv/a.json" ∧
    (storeRemoved.GetDocument (fileSystemOf [("/srv/a.json", [1])]) sampleDecoders
      (CanonicalString sampleMac) TypeURIV1).ret = .ok sampleDocument ∧
    storeRemovedLookedUp.documentCache.Get "/srv/a.json"
      = some (.metadata (.droplet sampleDroplet)) ∧
    storeRemovedLookedUp.dataLinkAddrsForFilePath.lookup "/srv/a.json" = none ∧
    ¬ CacheKeysIndexed storeRemovedLookedUp := by
  have h1 : ReachableWithLookups 128 storeCreated :=
    ReachableWithLookups.event (DirStore.empty 128) (fileSystemOf [("/srv/a.json", [1])])
      sampleDecoders (createEvent "/srv/a.json") ReachableWithLookups.empty (by decide)
  have h2 : ReachableWithLookups 128 storeCreatedTwice :=
    ReachableWithLookups.event storeCreated (fileSystemOf [("/srv/a.json", [2])])
      sampleDecoders (createEvent "/srv/a.json") h1 (by decide)
  have h3 : ReachableWithLookups 128 storeRemoved :=
    ReachableWithLookups.event storeCreatedTwice (fileSystemOf []) sampleDecoders
      (removeEvent "/srv/a.json") h2 (by decide)
  have h4 : ReachableWithLookups 128 storeRemovedLookedUp :=
    ReachableWithLookups.getDocument storeRemoved (fileSystemOf [("/srv/a.json", [1])])
      sampleDecoders (CanonicalString sampleMac) TypeURIV1 h3
  have hcache : storeRemovedLookedUp.documentCache.Get "/srv/a.json"
      = some (.metadata (.droplet sampleDroplet)) := by decide
  have hindex : storeRemovedLookedUp.dataLinkAddrsForFilePath.lookup "/srv/a.json" = none := by
    decide
  refine ⟨h4, by decide, by decide, hcache, hindex, ?_⟩
  intro hinv
  have h := hinv "/srv/a.json" (by rw [hcache]; rfl)
  rw [hindex] at h
  cases h

/-! ## The directory store: what a remove event leaves in place -/

theorem didRemoveFile_resolve (s : DirStore) (path M S : String) :
    (s.didRemoveFile path).store.resolve M S
      = if M ∈ (s.dataLinkAddrsForFilePath.lookup path).getD [] then none
        else s.resolve M S := by
  show DirStore.resolve
    { s.forget path with documentCache := (s.forget path).documentCache.Remove path } M S = _
  unfold DirStore.resolve
  show (match (s.forget path).filePathForDataLinkAddrAndTypeURI.lookup M with
    | some filePathForTypeURI => filePathForTypeURI.lookup S
    | none => none) = _
  rw [forget_filePaths]
  by_cases h : M ∈ (s.dataLinkAddrsForFilePath.lookup path).getD []
  · simp only [h, if_true]
  · simp only [h, if_false]

theorem didRemoveFile_typeURIs (s : DirStore) (path M : String) :
    (s.didRemoveFile path).store.ListSupportedTypeURIs M
      = if M ∈ (s.dataLinkAddrsForFilePath.lookup path).getD [] then .error ErrNotFound
        else s.ListSupportedTypeURIs M := by
  unfold DirStore.ListSupportedTypeURIs
  show (match (s.forget path).typeURIsForDataLinkAddr.lookup M with
    | some v => Except.ok v
    | none => Except.error ErrNotFound) = _
  rw [forget_typeURIs]
  by_cases h : M ∈ (s.dataLinkAddrsForFilePath.lookup path).getD []
  · simp only [h, if_true]
  · simp only [h, if_false]

/-- C26, as amended. For every store, every path `P` and every address `M`
that the path-to-MACs index does not record for `P`, a remove event on `P`
leaves every binding of `M` and the schema list of `M` unchanged: each `(M, S)`
resolves to the path it resolved to, `ListSupportedTypeURIs(M)` answers as
before, and `GetDocument(M, S)` for a binding that resolves to a path other
than `P` ends as it did before the event. -/
theorem didRemoveFile_keeps_other_addresses (s : DirStore) (P M : String)
    (hM : M ∉ (s.dataLinkAddrsForFilePath.lookup P).getD []) :
    (∀ S, (s.didRemoveFile P).store.resolve M S = s.resolve M S) ∧
    (s.didRemoveFile P).store.ListSupportedTypeURIs M = s.ListSupportedTypeURIs M ∧
    ∀ (fs : FileSystem) (dec : Decoders) (S Q : String), s.resolve M S = some Q → Q ≠ P →
      ((s.didRemoveFile P).store.GetDocument fs dec M S).ret = (s.GetDocument fs dec M S).ret ∧
      ((s.didRemoveFile P).store.GetDocument fs dec M S).reads
        = (s.GetDocument fs dec M S).reads := by
  have hres : ∀ S, (s.didRemoveFile P).store.resolve M S = s.resolve M S := by
    intro S
    rw [didRemoveFile_resolve]
    simp only [hM, if_false]
  refine ⟨hres, ?_, ?_⟩
  · rw [didRemoveFile_typeURIs]
    simp only [hM, if_false]
  · intro fs dec S Q hQ hne
    unfold DirStore.GetDocument
    rw [hres S, hQ]
    simp only
    have hget : (s.didRemoveFile P).store.documentCache.Get Q = s.documentCache.Get Q := by
      show ((s.forget P).documentCache.Remove P).Get Q = _
      rw [cache_Remove_Get_ne _ P Q hne, forget_cache]
    unfold DirStore.getDocument
    rw [hget]
    cases s.documentCache.Get Q with
    | none =>
      simp only
      cases readDocumentFromFile fs dec Q with
      | err e => exact ⟨rfl, rfl⟩
      | fault reason => exact ⟨rfl, rfl⟩
      | ok file =>
        cases file with
        | none => exact ⟨rfl, rfl⟩
        | some file => exact ⟨rfl, rfl⟩
    | some v =>
      cases v with
      | document m => exact ⟨rfl, rfl⟩
      | metadata m =>
        simp only
        cases readDocumentFromFile fs dec Q with
        | err e => exact ⟨rfl, rfl⟩
        | fault reason => exact ⟨rfl, rfl⟩
        | ok file =>
          cases file with
          | none => exact ⟨rfl, rfl⟩
          | some file => exact ⟨rfl, rfl⟩

/-- The witness of C26 as amended: with `/srv/a.json` and `/srv/b.json`
declaring different addresses, a remove event on `/srv/a.json` leaves the
address of `/srv/b.json` bound to it and its schema listed. -/
theorem didRemoveFile_keeps_other_addresses_witness :
    CanonicalString sampleMac2
      ∉ (storeTwoFiles.dataLinkAddrsForFilePath.lookup "/srv/a.json").getD [] ∧
    storeTwoFiles.resolve (CanonicalString sampleMac2) TypeURIV1 = some "/srv/b.json" ∧
    (storeTwoFiles.didRemoveFile "/srv/a.json").store.resolve (CanonicalString sampleMac2)
      TypeURIV1 = storeTwoFiles.resolve (CanonicalString sampleMac2) TypeURIV1 ∧
    (storeTwoFiles.didRemoveFile "/srv/a.json").store.ListSupportedTypeURIs
      (CanonicalString sampleMac2)
      = storeTwoFiles.ListSupportedTypeURIs (CanonicalString sampleMac2) :=
  have hM : CanonicalString sampleMac2
      ∉ (storeTwoFiles.dataLinkAddrsForFilePath.lookup "/srv/a.json").getD [] := by decide
  ⟨hM, by decide,
    (didRemoveFile_keeps_other_addresses storeTwoFiles "/srv/a.json"
      (CanonicalString sampleMac2) hM).1 TypeURIV1,
    (didRemoveFile_keeps_other_addresses storeTwoFiles "/srv/a.json"
      (CanonicalString sampleMac2) hM).2.1⟩

/-- C26, the counterexample. With `/srv/a.json` and `/srv/b.json` declaring the
same address, the address and the droplet schema resolve to `/srv/b.json` and
the schema is listed; after a remove event on `/srv/a.json` the binding is
gone and the schema list of the address is gone: `GetDocument` and
`ListSupportedTypeURIs` answer `ErrNotFound`, although `/srv/b.json` is still
in the path-to-MACs index. -/
theorem remove_unbinds_shared_address :
    "/srv/a.json" ≠ "/srv/b.json" ∧
    storeShared.resolve (CanonicalString sampleMac) TypeURIV1 = some "/srv/b.json" ∧
    storeShared.ListSupportedTypeURIs (CanonicalString sampleMac)
      = .ok [TypeURIV1, TypeURIV1] ∧
    (storeShared.handleEvent (fileSystemOf [("/srv/b.json", [1])]) sampleDecoders
      (removeEvent "/srv/a.json")).ret = .ok () ∧
    (storeShared.handleEvent (fileSystemOf [("/srv/b.json", [1])]) sampleDecoders
      (removeEvent "/srv/a.json")).store.resolve (CanonicalString sampleMac) TypeURIV1
      = none ∧
    ((storeShared.handleEvent (fileSystemOf [("/srv/b.json", [1])]) sampleDecoders
      (removeEvent "/srv/a.json")).store.GetDocument (fileSystemOf [("/srv/b.json", [1])])
      sampleDecoders (CanonicalString sampleMac) TypeURIV1).ret = .err ErrNotFound ∧
    (storeShared.handleEvent (fileSystemOf [("/srv/b.json", [1])]) sampleDecoders
      (removeEvent "/srv/a.json")).store.ListSupportedTypeURIs (CanonicalString sampleMac)
      = .error ErrNotFound ∧
    (storeShared.handleEvent (fileSystemOf [("/srv/b.json", [1])]) sampleDecoders
      (removeEvent "/srv/a.json")).store.dataLinkAddrsForFilePath.lookup "/srv/b.json"
      = some [CanonicalString sampleMac] := by
  refine ⟨by decide, by decide, rfl, by decide, by decide, by decide, rfl, by decide⟩

/-! ## The directory store: schema lists and bindings -/

theorem schemasMatch_congr (s t : DirStore)
    (h1 : t.typeURIsForDataLinkAddr = s.typeURIsForDataLinkAddr)
    (h2 : t.filePathForDataLinkAddrAndTypeURI = s.filePathForDataLinkAddrAndTypeURI)
    (h : SchemasMatchBindings s) : SchemasMatchBindings t := by
  intro M
  have hres : ∀ S, t.resolve M S = s.resolve M S := by
    intro S
    unfold DirStore.resolve
    rw [h2]
  rw [h1, h2]
  refine ⟨(h M).1, ?_⟩
  intro typeURIs hl
  refine ⟨((h M).2 typeURIs hl).1, ?_⟩
  intro S
  rw [hres S]
  exact ((h M).2 typeURIs hl).2 S

theorem typeURIs_bind (s : DirStore) (path S a M : String) :
    (s.bind path S a).typeURIsForDataLinkAddr.lookup M
      = if M = a then some ((s.typeURIsForDataLinkAddr.lookup a).getD [] ++ [S])
        else s.typeURIsForDataLinkAddr.lookup M := by
  unfold DirStore.bind
  simp only [lookup_mapSet]

theorem filePaths_bind_ne (s : DirStore) (path S a M : String) (hne : M ≠ a) :
    (s.bind path S a).filePathForDataLinkAddrAndTypeURI.lookup M
      = s.filePathForDataLinkAddrAndTypeURI.lookup M := by
  unfold DirStore.bind
  cases s.filePathForDataLinkAddrAndTypeURI.lookup a with
  | none => simp only [lookup_mapSet, hne, if_false]
  | some inner => simp only [lookup_mapSet, hne, if_false]

theorem filePaths_bind_self (s : DirStore) (path S a : String) :
    (s.bind path S a).filePathForDataLinkAddrAndTypeURI.lookup a ≠ none := by
  unfold DirStore.bind
  cases s.filePathForDataLinkAddrAndTypeURI.lookup a with
  | none => simp only [lookup_mapSet, if_true]; exact fun h => by cases h
  | some inner => simp only [lookup_mapSet, if_true]; exact fun h => by cases h

theorem bind_schemasMatch (s : DirStore) (path S a : String) (h : SchemasMatchBindings s) :
    SchemasMatchBindings (s.bind path S a) := by
  intro M
  by_cases hM : M = a
  · subst hM
    refine ⟨?_, ?_⟩
    · rw [typeURIs_bind]
      simp only [if_true]
      constructor
      · intro hc; cases hc
      · intro hc; exact absurd hc (filePaths_bind_self s path S M)
    · intro typeURIs hl
      rw [typeURIs_bind] at hl
      simp only [if_true, Option.some.injEq] at hl
      subst hl
      refine ⟨by simp, ?_⟩
      intro S1
      rw [resolve_bind]
      simp only [if_true, List.mem_append, List.mem_singleton]
      have hold : S1 ∈ (s.typeURIsForDataLinkAddr.lookup M).getD [] ↔ (s.resolve M S1).isSome := by
        cases hl : s.typeURIsForDataLinkAddr.lookup M with
        | some l => exact ((h M).2 l hl).2 S1
        | none =>
          have hb := (h M).1.mp hl
          unfold DirStore.resolve
          rw [hb]
          simp
      by_cases hS : S1 = S
      · simp [hS]
      · simp only [hS, or_false, if_false]
        exact hold
  · refine ⟨?_, ?_⟩
    · rw [typeURIs_bind, filePaths_bind_ne s path S a M hM]
      simp only [hM, if_false]
      exact (h M).1
    · intro typeURIs hl
      rw [typeURIs_bind] at hl
      simp only [hM, if_false] at hl
      refine ⟨((h M).2 typeURIs hl).1, ?_⟩
      intro S1
      rw [resolve_bind]
      simp only [hM, if_false]
      exact ((h M).2 typeURIs hl).2 S1

theorem foldl_bind_schemasMatch (L : List String) (s : DirStore) (path S : String)
    (h : SchemasMatchBindings s) :
    SchemasMatchBindings (L.foldl (fun s a => s.bind path S a) s) := by
  induction L generalizing s with
  | nil => exact h
  | cons a as ih =>
    rw [List.foldl_cons]
    exact ih _ (bind_schemasMatch s path S a h)

theorem foldl_add_schemasMatch (L : List String) (s : DirStore) (path S : String)
    (h : SchemasMatchBindings s) :
    SchemasMatchBindings
      (L.foldl
        (fun s a =>
          { s.bind path S a with documentCache := (s.bind path S a).documentCache.Remove a })
        s) := by
  induction L generalizing s with
  | nil => exact h
  | cons a as ih =>
    rw [List.foldl_cons]
    exact ih _ (schemasMatch_congr (s.bind path S a) _ rfl rfl (bind_schemasMatch s path S a h))

theorem forget_resolve (s : DirStore) (path M S : String) :
    (s.forget path).resolve M S
      = if M ∈ (s.dataLinkAddrsForFilePath.lookup path).getD [] then none
        else s.resolve M S := by
  unfold DirStore.resolve
  rw [forget_filePaths]
  by_cases h : M ∈ (s.dataLinkAddrsForFilePath.lookup path).getD []
  · simp only [h, if_true]
  · simp only [h, if_false]

theorem forget_schemasMatch (s : DirStore) (path : String) (h : SchemasMatchBindings s) :
    SchemasMatchBindings (s.forget path) := by
  intro M
  rw [forget_typeURIs, forget_filePaths]
  by_cases hM : M ∈ (s.dataLinkAddrsForFilePath.lookup path).getD []
  · simp only [hM, if_true, true_and]
    intro typeURIs hl
    cases hl
  · simp only [hM, if_false]
    refine ⟨(h M).1, ?_⟩
    intro typeURIs hl
    refine ⟨((h M).2 typeURIs hl).1, ?_⟩
    intro S
    rw [forget_resolve]
    simp only [hM, if_false]
    exact ((h M).2 typeURIs hl).2 S

theorem didAddFile_schemasMatch (fs : FileSystem) (dec : Decoders) (s : DirStore)
    (path : String) (h : SchemasMatchBindings s) :
    SchemasMatchBindings (s.didAddFile fs dec path).store := by
  unfold DirStore.didAddFile
  cases hread : readDocumentFromFile fs dec path with
  | err e => exact h
  | fault reason => exact h
  | ok file =>
    cases file with
    | none => exact h
    | some file =>
      cases hpayload : file.Contents with
      | nil => simp only [hpayload]; exact h
      | droplet d =>
        simp only [hpayload]
        exact schemasMatch_congr _ _ rfl rfl (foldl_add_schemasMatch _ s path file.Kind h)

theorem didChangeFile_schemasMatch (fs : FileSystem) (dec : Decoders) (s : DirStore)
    (path : String) (h : SchemasMatchBindings s) :
    SchemasMatchBindings (s.didChangeFile fs dec path).store := by
  have hforget : SchemasMatchBindings
      (DirStore.forget { s with documentCache := s.documentCache.Remove path } path) :=
    forget_schemasMatch _ path (schemasMatch_congr s _ rfl rfl h)
  unfold DirStore.didChangeFile
  cases hread : readDocumentFromFile fs dec path with
  | err e => exact h
  | fault reason => exact h
  | ok file =>
    cases file with
    | none => exact hforget
    | some file =>
      cases hpayload : file.Contents with
      | nil => simp only [hpayload]; exact hforget
      | droplet d =>
        simp only [hpayload]
        exact schemasMatch_congr _ _ rfl rfl (foldl_bind_schemasMatch _ _ path file.Kind hforget)

theorem didRemoveFile_schemasMatch (s : DirStore) (path : String)
    (h : SchemasMatchBindings s) : SchemasMatchBindings (s.didRemoveFile path).store :=
  schemasMatch_congr (s.forget path) _ rfl rfl (forget_schemasMatch s path h)

theorem handleEvent_schemasMatch (fs : FileSystem) (dec : Decoders) (s : DirStore)
    (event : FsEvent) (h : SchemasMatchBindings s) :
    SchemasMatchBindings (s.handleEvent fs dec event).store := by
  unfold DirStore.handleEvent
  by_cases hc : event.Op.Create = true
  · simp only [hc, if_true]
    exact didAddFile_schemasMatch fs dec s event.Name h
  · simp only [hc, if_false]
    by_cases hw : event.Op.Chmod = true ∨ event.Op.Write = true
    · simp only [hw, if_true]
      exact didChangeFile_schemasMatch fs dec s event.Name h
    · simp only [hw, if_false]
      by_cases hr : event.Op.Rename = true ∨ event.Op.Remove = true
      · simp only [hr, if_true]
        exact didRemoveFile_schemasMatch s event.Name h
      · simp only [hr, if_false]
        exact h

theorem reachable_schemasMatch (cacheSize : Nat) (s : DirStore) (h : Reachable cacheSize s) :
    SchemasMatchBindings s := by
  induction h with
  | empty =>
    intro M
    refine ⟨⟨fun _ => rfl, fun _ => rfl⟩, ?_⟩
    intro typeURIs hl
    cases hl
  | step s fs dec event _ _ ih => exact handleEvent_schemasMatch fs dec s event ih

/-- C27. In every store reachable from the empty store by events, for every
address `M`: when `ListSupportedTypeURIs(M)` returns a list, a schema is in the
list exactly when it is bound to a path for `M`, so `GetDocument(M, S)` finds
a path for every listed schema `S`; and `ListSupportedTypeURIs(M)` answers
`ErrNotFound` exactly when no schema is bound to a path for `M`. -/
theorem listed_schemas_are_bound (cacheSize : Nat) (s : DirStore)
    (h : Reachable cacheSize s) (M : String) :
    (∀ typeURIs, s.ListSupportedTypeURIs M = .ok typeURIs →
      ∀ S, S ∈ typeURIs ↔ ∃ P, s.resolve M S = some P) ∧
    (s.ListSupportedTypeURIs M = .error ErrNotFound ↔ ∀ S, s.resolve M S = none) ∧
    (∀ S P, s.resolve M S = some P → ∀ (fs : FileSystem) (dec : Decoders),
      s.GetDocument fs dec M S = s.getDocument fs dec P) := by
  have hinv := reachable_schemasMatch cacheSize s h M
  refine ⟨?_, ?_, ?_⟩
  · intro typeURIs hl S
    unfold DirStore.ListSupportedTypeURIs at hl
    cases hlook : s.typeURIsForDataLinkAddr.lookup M with
    | none => rw [hlook] at hl; cases hl
    | some l =>
      rw [hlook] at hl
      have hsame : l = typeURIs := by injection hl
      rw [← hsame, (hinv.2 l hlook).2 S, Option.isSome_iff_exists]
  · unfold DirStore.ListSupportedTypeURIs
    cases hlook : s.typeURIsForDataLinkAddr.lookup M with
    | none =>
      simp only [true_iff]
      intro S
      unfold DirStore.resolve
      rw [hinv.1.mp hlook]
    | some l =>
      constructor
      · intro hc; cases hc
      · intro hnone
        exfalso
        obtain ⟨hne, hmem⟩ := hinv.2 l hlook
        cases l with
        | nil => exact hne rfl
        | cons S rest =>
          have := (hmem S).mp (List.mem_cons_self _ _)
          rw [hnone S] at this
          cases this
  · intro S P hres fs dec
    unfold DirStore.GetDocument
    rw [hres]

/-- The witness of C27: the store that indexed `/srv/a.json` lists the droplet
schema for the first sample address and binds it to the path. -/
theorem listed_schemas_are_bound_witness :
    Reachable 128 storeCreated ∧
    storeCreated.ListSupportedTypeURIs (CanonicalString sampleMac) = .ok [TypeURIV1] ∧
    (∀ S, S ∈ [TypeURIV1] ↔ ∃ P, storeCreated.resolve (CanonicalString sampleMac) S = some P) :=
  have hreach : Reachable 128 storeCreated :=
    Reachable.step (DirStore.empty 128) (fileSystemOf [("/srv/a.json", [1])]) sampleDecoders
      (createEvent "/srv/a.json") Reachable.empty (by decide)
  ⟨hreach, rfl,
    (listed_schemas_are_bound 128 storeCreated hreach (CanonicalString sampleMac)).1
      [TypeURIV1] rfl⟩

/-! ## Documents that decode without an error and cannot be indexed -/

theorem didAddFile_of_nil_document (fs : FileSystem) (dec : Decoders) (s : DirStore)
    (path : String) (h : readDocumentFromFile fs dec path = .ok none) :
    (s.didAddFile fs dec path).ret = .fault "invalid memory address or nil pointer dereference" ∧
    (s.didChangeFile fs dec path).ret
      = .fault "invalid memory address or nil pointer dereference" := by
  unfold DirStore.didAddFile DirStore.didChangeFile
  rw [h]
  exact ⟨rfl, rfl⟩

theorem didAddFile_of_nil_payload (fs : FileSystem) (dec : Decoders) (s : DirStore)
    (path kind : String)
    (h : readDocumentFromFile fs dec path = .ok (some { Kind := kind, Contents := .nil })) :
    (s.didAddFile fs dec path).ret = .fault "invalid memory address or nil pointer dereference" ∧
    (s.didChangeFile fs dec path).ret
      = .fault "invalid memory address or nil pointer dereference" := by
  unfold DirStore.didAddFile DirStore.didChangeFile
  rw [h]
  exact ⟨rfl, rfl⟩

/-- C30. For the file `/srv/a.json` holding the JSON text `null`,
`readDocumentFromFile` returns no error and a nil document; for the file
holding a document of the droplet schema whose `metadata` member is `null`, it
returns no error and a document with a nil payload. In both cases `didAddFile`
and `didChangeFile` fault on the nil value. In general, for every `.json` file
whose text is valid and is the value `null`, and for every one whose envelope
names the droplet schema and whose payload decodes to the nil interface value,
`readDocumentFromFile` returns no error and both handlers fault, in any store. -/
theorem null_document_faults :
    readDocumentFromFile (fileSystemOf [("/srv/a.json", bytesOf "null")])
      (documentDecoders sampleJSON sampleYAML) "/srv/a.json" = .ok none ∧
    ((DirStore.empty 128).didAddFile (fileSystemOf [("/srv/a.json", bytesOf "null")])
      (documentDecoders sampleJSON sampleYAML) "/srv/a.json").ret
      = .fault "invalid memory address or nil pointer dereference" ∧
    (storeCreated.didChangeFile (fileSystemOf [("/srv/a.json", bytesOf "null")])
      (documentDecoders sampleJSON sampleYAML) "/srv/a.json").ret
      = .fault "invalid memory address or nil pointer dereference" ∧
    readDocumentFromFile (fileSystemOf [("/srv/a.json", bytesOf envelopeNullMetadata)])
      (documentDecoders sampleJSON sampleYAML) "/srv/a.json"
      = .ok (some { Kind := TypeURIV1, Contents := .nil }) ∧
    ((DirStore.empty 128).didAddFile
      (fileSystemOf [("/srv/a.json", bytesOf envelopeNullMetadata)])
      (documentDecoders sampleJSON sampleYAML) "/srv/a.json").ret
      = .fault "invalid memory address or nil pointer dereference" ∧
    (storeCreated.didChangeFile (fileSystemOf [("/srv/a.json", bytesOf envelopeNullMetadata)])
      (documentDecoders sampleJSON sampleYAML) "/srv/a.json").ret
      = .fault "invalid memory address or nil pointer dereference" ∧
    (∀ (json : JSONLib) (yaml : YAMLLib) (fs : FileSystem) (s : DirStore) (path : String)
        (data : List Nat),
      fs.ReadFile path = .ok data → data ≠ [] → Ext path = ".json" →
      json.checkValid data = .ok () → json.isNull data = true →
      readDocumentFromFile fs (documentDecoders json yaml) path = .ok none ∧
      (s.didAddFile fs (documentDecoders json yaml) path).ret
        = .fault "invalid memory address or nil pointer dereference" ∧
      (s.didChangeFile fs (documentDecoders json yaml) path).ret
        = .fault "invalid memory address or nil pointer dereference") ∧
    (∀ (json : JSONLib) (yaml : YAMLLib) (fs : FileSystem) (s : DirStore) (path : String)
        (data contents : List Nat),
      fs.ReadFile path = .ok data → data ≠ [] → Ext path = ".json" →
      json.checkValid data = .ok () → json.isNull data = false →
      json.decodeRaw data = .ok (TypeURIV1, contents) →
      json.decodeMetadata contents = .ok .nil →
      readDocumentFromFile fs (documentDecoders json yaml) path
        = .ok (some { Kind := TypeURIV1, Contents := .nil }) ∧
      (s.didAddFile fs (documentDecoders json yaml) path).ret
        = .fault "invalid memory address or nil pointer dereference" ∧
      (s.didChangeFile fs (documentDecoders json yaml) path).ret
        = .fault "invalid memory address or nil pointer dereference") := by
  refine ⟨by decide, by decide, by decide, by decide, by decide, by decide, ?_, ?_⟩
  · intro json yaml fs s path data hdata hne hext hvalid hnull
    have hread : readDocumentFromFile fs (documentDecoders json yaml) path = .ok none := by
      rw [readDocumentFromFile_of_data fs _ path data hdata hne]
      simp only [hext, if_true]
      show jsonUnmarshalDocument json data = .ok none
      unfold jsonUnmarshalDocument
      rw [hvalid]
      simp only [hnull, if_true]
    exact ⟨hread, didAddFile_of_nil_document fs _ s path hread⟩
  · intro json yaml fs s path data contents hdata hne hext hvalid hnull hraw hmeta
    have hread : readDocumentFromFile fs (documentDecoders json yaml) path
        = .ok (some { Kind := TypeURIV1, Contents := .nil }) := by
      rw [readDocumentFromFile_of_data fs _ path data hdata hne]
      simp only [hext, if_true]
      show jsonUnmarshalDocument json data = _
      unfold jsonUnmarshalDocument Document.UnmarshalJSON unmarshalJSONMetadata
      rw [hvalid, hraw]
      simp only [hnull, if_true, hmeta, Bool.false_eq_true, if_false]
    exact ⟨hread, didAddFile_of_nil_payload fs _ s path TypeURIV1 hread⟩

/-! ## Decoding an address that is not valid -/

/-- C21. Decoding the string `10.0.0.256` as an `IPv4`, the string
`255.255.255` as an `IPv4Mask`, and the strings `not-an-address` and
`10.0.0.2` as an `IPv6` does not return an error: each call faults with
`panic("")`. In general `IPv4.UnmarshalJSON`, `IPv4Mask.UnmarshalJSON` and
`IPv4.UnmarshalYAML` fault on every string that `net.ParseIP` and `To4` do not
turn into an IPv4 address, and `IPv6.UnmarshalJSON` and `IPv6.UnmarshalYAML`
fault on every string that `net.ParseIP` refuses or reads as an IPv4 address;
`MACAddr.UnmarshalJSON`, next to them, returns the error of `net.ParseMAC`. A
fault raised while the payload of a `.json` file is decoded comes out of
`readDocumentFromFile`, `didAddFile` and `didChangeFile` as that fault. -/
theorem invalid_address_faults :
    IPv4.UnmarshalJSON sampleParseIP (.string "10.0.0.256") = .fault "" ∧
    IPv4Mask.UnmarshalJSON sampleParseIP (.string "255.255.255") = .fault "" ∧
    IPv6.UnmarshalJSON sampleParseIP (.string "not-an-address") = .fault "" ∧
    IPv6.UnmarshalJSON sampleParseIP (.string "10.0.0.2") = .fault "" ∧
    IPv4.UnmarshalJSON sampleParseIP (.string "10.0.0.2") = .ok [10, 0, 0, 2] ∧
    (∀ (parseIP : String → Option (List Nat)) (s : String), (parseIP s).bind To4 = none →
      IPv4.UnmarshalJSON parseIP (.string s) = .fault "" ∧
      IPv4Mask.UnmarshalJSON parseIP (.string s) = .fault "" ∧
      IPv4.UnmarshalYAML parseIP (.ok s) = .fault "") ∧
    (∀ (parseIP : String → Option (List Nat)) (s : String),
      (parseIP s = none ∨ ∃ ip, parseIP s = some ip ∧ (To4 ip).isSome) →
      IPv6.UnmarshalJSON parseIP (.string s) = .fault "" ∧
      IPv6.UnmarshalYAML parseIP (.ok s) = .fault "") ∧
    (∀ (parseMAC : String → Except String (List Nat)) (s e : String), parseMAC s = .error e →
      MACAddr.UnmarshalJSON parseMAC (.string s) = .err e) ∧
    (∀ (json : JSONLib) (yaml : YAMLLib) (fs : FileSystem) (s : DirStore) (path : String)
        (data contents : List Nat) (reason : String),
      fs.ReadFile path = .ok data → data ≠ [] → Ext path = ".json" →
      json.checkValid data = .ok () → json.isNull data = false →
      json.decodeRaw data = .ok (TypeURIV1, contents) →
      json.decodeMetadata contents = .fault reason →
      readDocumentFromFile fs (documentDecoders json yaml) path = .fault reason ∧
      (s.didAddFile fs (documentDecoders json yaml) path).ret = .fault reason ∧
      (s.didChangeFile fs (documentDecoders json yaml) path).ret = .fault reason) := by
  refine ⟨by decide, by decide, by decide, by decide, by decide, ?_, ?_, ?_, ?_⟩
  · intro parseIP s h
    unfold IPv4.UnmarshalJSON IPv4Mask.UnmarshalJSON IPv4.UnmarshalYAML
    simp only [jsonString, h, and_self]
  · intro parseIP s h
    unfold IPv6.UnmarshalJSON IPv6.UnmarshalYAML
    rcases h with h | ⟨ip, hip, h4⟩
    · simp only [jsonString, h, and_self]
    · obtain ⟨x, hx⟩ := Option.isSome_iff_exists.mp h4
      simp only [jsonString, hip, hx, and_self]
  · intro parseMAC s e h
    unfold MACAddr.UnmarshalJSON
    simp only [jsonString, h]
  · intro json yaml fs s path data contents reason hdata hne hext hvalid hnull hraw hmeta
    have hread : readDocumentFromFile fs (documentDecoders json yaml) path = .fault reason := by
      rw [readDocumentFromFile_of_data fs _ path data hdata hne]
      simp only [hext, if_true]
      show jsonUnmarshalDocument json data = _
      unfold jsonUnmarshalDocument Document.UnmarshalJSON unmarshalJSONMetadata
      rw [hvalid, hraw]
      simp only [hnull, if_true, hmeta, Bool.false_eq_true, if_false]
    refine ⟨hread, ?_, ?_⟩
    · unfold DirStore.didAddFile
      rw [hread]
    · unfold DirStore.didChangeFile
      rw [hread]

/-! ## Formatting a nameserver and decoding the text again -/

theorem digitChar_facts : ∀ k, k < 10 →
    (Nat.digitChar k).isDigit = true ∧ (Nat.digitChar k).toNat - '0'.toNat = k := by
  decide

theorem toDigitsCore_value (fuel : Nat) : ∀ (n : Nat) (ds : List Char), n < fuel →
    ∃ pre, Nat.toDigitsCore 10 fuel n ds = pre ++ ds ∧ pre ≠ [] ∧
      (∀ c ∈ pre, c.isDigit = true) ∧
      pre.foldl (fun n c => n * 10 + (c.toNat - '0'.toNat)) 0 = n := by
  induction fuel with
  | zero => intro n ds h; omega
  | succ fuel ih =>
    intro n ds hn
    have hd := digitChar_facts (n % 10) (Nat.mod_lt _ (by norm_num))
    unfold Nat.toDigitsCore
    by_cases h0 : n / 10 = 0
    · refine ⟨[Nat.digitChar (n % 10)], ?_, by simp, ?_, ?_⟩
      · simp only [h0, if_true, List.singleton_append]
      · intro c hc
        rw [List.mem_singleton] at hc
        rw [hc]
        exact hd.1
      · simp only [List.foldl_cons, List.foldl_nil, Nat.zero_mul, Nat.zero_add]
        rw [hd.2]
        omega
    · have hlt : n / 10 < fuel := by omega
      obtain ⟨pre, hpre, hne, hdig, hval⟩ := ih (n / 10) (Nat.digitChar (n % 10) :: ds) hlt
      refine ⟨pre ++ [Nat.digitChar (n % 10)], ?_, by simp, ?_, ?_⟩
      · simp only [h0, if_false]
        rw [hpre]
        simp
      · intro c hc
        rcases List.mem_append.mp hc with h | h
        · exact hdig c h
        · rw [List.mem_singleton] at h
          rw [h]
          exact hd.1
      · rw [List.foldl_append, hval]
        simp only [List.foldl_cons, List.foldl_nil]
        rw [hd.2]
        omega

theorem toString_digits (p : Nat) :
    (toString p).toList ≠ [] ∧ (∀ c ∈ (toString p).toList, c.isDigit = true) ∧
      decimalValue (toString p) = p := by
  obtain ⟨pre, hpre, hne, hdig, hval⟩ := toDigitsCore_value (p + 1) p [] (Nat.lt_succ_self p)
  have hlist : (toString p).toList = pre := by
    show (Nat.repr p).toList = pre
    unfold Nat.repr Nat.toDigits
    rw [hpre]
    simp [List.asString]
  unfold decimalValue
  rw [hlist]
  exact ⟨hne, hdig, hval⟩

theorem ParseUint_toString (p bitSize : Nat) (hbits : bitSize ≤ 64) (hp : p < 2 ^ bitSize) :
    ParseUint (toString p) bitSize = .ok p := by
  rw [ParseUint_ok_iff _ _ _ hbits]
  obtain ⟨h1, h2, h3⟩ := toString_digits p
  exact ⟨h1, h2, h3, hp⟩

theorem decode_port_bound (parseIP : String → Option (List Nat))
    (splitHostPort : String → Except String (String × String)) (s : String) (n : Nameserver)
    (hdec : Nameserver.decode parseIP splitHostPort s = .ok n) : n.Port < 2 ^ 16 := by
  unfold Nameserver.decode at hdec
  cases hip : parseIP s with
  | some ip =>
    simp only [hip] at hdec
    injection hdec with hdec
    rw [← hdec]
    norm_num
  | none =>
    simp only [hip] at hdec
    cases hsplit : splitHostPort s with
    | error e => simp only [hsplit] at hdec; cases hdec
    | ok pair =>
      obtain ⟨host, portStr⟩ := pair
      simp only [hsplit] at hdec
      by_cases hport : portStr ≠ ""
      · rw [if_pos hport] at hdec
        cases hparse : ParseUint portStr 16 with
        | error e => simp only [hparse] at hdec; cases hdec
        | ok port =>
          simp only [hparse] at hdec
          injection hdec with hdec
          rw [← hdec]
          exact Nat.mod_lt _ (by norm_num)
      · rw [if_neg hport] at hdec
        injection hdec with hdec
        rw [← hdec]
        norm_num

/-- Formatting and decoding again, for every nameserver `n` that decoding produces, whatever
`net.ParseIP` and `net.SplitHostPort` answer. When the port of `n` is 53 and
its host is an IP literal, decoding `n.String()` yields `n` again. When the
port is neither 0 nor 53, `n.String()` is `net.JoinHostPort` of the host and
the decimal port, and decoding it yields `n` again provided the joined text is
no IP literal and splits back into the host and the port. When the port is 0
and the host is an IP literal, decoding `n.String()` yields `n` with port 53.
When the port is 0 or 53 and the host is no IP literal, decoding `n.String()`
is decoding the bare host, and fails whenever the bare host does not split. -/
theorem decode_of_formatted (parseIP : String → Option (List Nat))
    (splitHostPort : String → Except String (String × String)) (s : String) (n : Nameserver)
    (hdec : Nameserver.decode parseIP splitHostPort s = .ok n) :
    (n.Port = 53 → parseIP n.Host ≠ none →
      Nameserver.decode parseIP splitHostPort n.String = .ok n) ∧
    (n.Port ≠ 0 → n.Port ≠ 53 →
      n.String = JoinHostPort n.Host (toString n.Port) ∧
      (parseIP (JoinHostPort n.Host (toString n.Port)) = none →
        splitHostPort (JoinHostPort n.Host (toString n.Port))
          = .ok (n.Host, toString n.Port) →
        Nameserver.decode parseIP splitHostPort n.String = .ok n)) ∧
    (n.Port = 0 → parseIP n.Host ≠ none →
      Nameserver.decode parseIP splitHostPort n.String = .ok { Host := n.Host, Port := 53 }) ∧
    ((n.Port = 0 ∨ n.Port = 53) → parseIP n.Host = none →
      n.String = n.Host ∧
      ∀ e, splitHostPort n.Host = .error e →
        Nameserver.decode parseIP splitHostPort n.String = .error e) := by
  have hbound := decode_port_bound parseIP splitHostPort s n hdec
  refine ⟨?_, ?_, ?_, ?_⟩
  · intro hport hip
    have hstr : n.String = n.Host := by
      unfold Nameserver.String
      simp only [hport, or_true, if_true]
    rw [hstr]
    unfold Nameserver.decode
    cases h : parseIP n.Host with
    | none => exact absurd h hip
    | some ip =>
      simp only
      rw [← hport]
  · intro h0 h53
    have hstr : n.String = JoinHostPort n.Host (toString n.Port) := by
      unfold Nameserver.String
      simp only [h0, h53, or_self, if_false]
    refine ⟨hstr, ?_⟩
    intro hip hsplit
    rw [hstr]
    unfold Nameserver.decode
    have hne : toString n.Port ≠ "" := by
      intro h
      have := (toString_digits n.Port).1
      rw [h] at this
      exact this rfl
    simp only [hip, hsplit, hne, ne_eq, not_false_eq_true, if_true,
      ParseUint_toString n.Port 16 (by norm_num) hbound]
    rw [Nat.mod_eq_of_lt hbound]
  · intro hport hip
    have hstr : n.String = n.Host := by
      unfold Nameserver.String
      simp only [hport, true_or, if_true]
    rw [hstr]
    unfold Nameserver.decode
    cases h : parseIP n.Host with
    | none => exact absurd h hip
    | some ip => rfl
  · intro hport hip
    have hstr : n.String = n.Host := by
      unfold Nameserver.String
      simp only [hport, if_true]
    refine ⟨hstr, ?_⟩
    intro e he
    rw [hstr]
    unfold Nameserver.decode
    simp only [hip, he]

/-! ## `net.ParseIP` on a text that carries a port -/

theorem hexValue_colon : hexValue ':' = none := by decide

theorem hexValue_bracket : hexValue '[' = none := by decide

theorem hexValue_dot : hexValue '.' = none := by decide

theorem isDigit_range (c : Char) (h : c.isDigit = true) : '0' ≤ c ∧ c ≤ '9' := by
  simp only [Char.isDigit, Bool.and_eq_true, decide_eq_true_eq] at h
  exact ⟨h.1, h.2⟩

theorem hexValue_digit (c : Char) (h : c.isDigit = true) : (hexValue c).isSome = true := by
  unfold hexValue
  rw [if_pos (isDigit_range c h)]
  rfl

/-- What a successful `xtoi` loop consumed: hexadecimal digits, at least one
counting those before, up to a character that is none. -/
theorem xtoiLoop_spec : ∀ (s : List Char) (n i m c : Nat),
    xtoiLoop s n i = (m, c, true) →
    ∃ k, c = i + k ∧ k ≤ s.length ∧ i + k ≠ 0 ∧
      (∀ ch ∈ s.take k, (hexValue ch).isSome = true) ∧
      (∀ ch, s.get? k = some ch → hexValue ch = none) := by
  intro s
  induction s with
  | nil =>
    intro n i m c h
    unfold xtoiLoop at h
    by_cases hi : i = 0
    · rw [if_pos hi] at h
      simp at h
    · rw [if_neg hi] at h
      simp only [Prod.mk.injEq, and_true] at h
      refine ⟨0, by omega, by simp, by omega, by simp, by simp⟩
  | cons x xs ih =>
    intro n i m c h
    unfold xtoiLoop at h
    cases hx : hexValue x with
    | none =>
      simp only [hx] at h
      by_cases hi : i = 0
      · rw [if_pos hi] at h
        simp at h
      · rw [if_neg hi] at h
        simp only [Prod.mk.injEq, and_true] at h
        refine ⟨0, by omega, by simp, by omega, by simp, ?_⟩
        intro ch hch
        simp only [List.get?_cons_zero, Option.some.injEq] at hch
        rw [← hch]
        exact hx
    | some d =>
      simp only [hx] at h
      by_cases hbig : n * 16 + d ≥ big
      · rw [if_pos hbig] at h
        simp at h
      · rw [if_neg hbig] at h
        obtain ⟨k, hc, hk, hne, hpre, hstop⟩ := ih _ _ _ _ h
        refine ⟨k + 1, by omega, by simp; omega, by omega, ?_, ?_⟩
        · intro ch hch
          simp only [List.take_succ_cons, List.mem_cons] at hch
          rcases hch with hch | hch
          · rw [hch, hx]; rfl
          · exact hpre ch hch
        · intro ch hch
          simp only [List.get?_cons_succ] at hch
          exact hstop ch hch

theorem xtoi_spec (s : List Char) (m c : Nat) (h : xtoi s = (m, c, true)) :
    0 < c ∧ c ≤ s.length ∧ (∀ ch ∈ s.take c, (hexValue ch).isSome = true) ∧
      (∀ ch, s.get? c = some ch → hexValue ch = none) := by
  obtain ⟨k, hc, hk, hne, hpre, hstop⟩ := xtoiLoop_spec s 0 0 m c h
  have hck : c = k := by omega
  subst hck
  exact ⟨by omega, hk, hpre, hstop⟩

/-- What a successful `dtoi` loop consumed: decimal digits. -/
theorem dtoiLoop_spec : ∀ (s : List Char) (n i m c : Nat),
    dtoiLoop s n i = (m, c, true) →
    ∃ k, c = i + k ∧ k ≤ s.length ∧ (∀ ch ∈ s.take k, '0' ≤ ch ∧ ch ≤ '9') := by
  intro s
  induction s with
  | nil =>
    intro n i m c h
    unfold dtoiLoop at h
    by_cases hi : i = 0
    · rw [if_pos hi] at h
      simp at h
    · rw [if_neg hi] at h
      simp only [Prod.mk.injEq, and_true] at h
      exact ⟨0, by omega, by simp, by simp⟩
  | cons x xs ih =>
    intro n i m c h
    unfold dtoiLoop at h
    by_cases hx : '0' ≤ x ∧ x ≤ '9'
    · rw [if_pos hx] at h
      by_cases hbig : n * 10 + (x.toNat - '0'.toNat) ≥ big
      · rw [if_pos hbig] at h
        simp at h
      · rw [if_neg hbig] at h
        obtain ⟨k, hc, hk, hpre⟩ := ih _ _ _ _ h
        refine ⟨k + 1, by omega, by simp; omega, ?_⟩
        intro ch hch
        simp only [List.take_succ_cons, List.mem_cons] at hch
        rcases hch with hch | hch
        · rw [hch]; exact hx
        · exact hpre ch hch
    · rw [if_neg hx] at h
      by_cases hi : i = 0
      · rw [if_pos hi] at h
        simp at h
      · rw [if_neg hi] at h
        simp only [Prod.mk.injEq, and_true] at h
        exact ⟨0, by omega, by simp, by simp⟩

/-- A text `parseIPv4` accepts, from any round on, consists of decimal digits
and dots. -/
theorem parseIPv4Loop_chars : ∀ (rounds : Nat) (s : List Char) (p r : List Nat),
    parseIPv4Loop rounds s p = some r → ∀ ch ∈ s, ('0' ≤ ch ∧ ch ≤ '9') ∨ ch = '.' := by
  intro rounds
  induction rounds with
  | zero =>
    intro s p r h ch hch
    unfold parseIPv4Loop at h
    by_cases hs : s.length ≠ 0
    · rw [if_pos hs] at h; cases h
    · have : s = [] := List.length_eq_zero.mp (by omega)
      rw [this] at hch
      cases hch
  | succ rounds ih =>
    intro s p r h ch hch
    unfold parseIPv4Loop at h
    by_cases hs : s.length = 0
    · rw [if_pos hs] at h; cases h
    · rw [if_neg hs] at h
      by_cases hsep : p.length > 0 ∧ s.head? ≠ some '.'
      · rw [if_pos hsep] at h; cases h
      · rw [if_neg hsep] at h
        simp only [] at h
        generalize hs1 : (if p.length > 0 then s.drop 1 else s) = s1 at h
        rcases hd : dtoi s1 with ⟨n, c, ok⟩
        rw [hd] at h
        simp only [] at h
        by_cases hbad : ¬ ok = true ∨ n > 0xFF
        · rw [if_pos hbad] at h; cases h
        · rw [if_neg hbad] at h
          have hok : ok = true := by
            by_contra hne
            exact hbad (Or.inl hne)
          subst hok
          obtain ⟨k, hc, hk, hpre⟩ := dtoiLoop_spec s1 0 0 n c hd
          have hck : c = k := by omega
          subst hck
          have hs1chars : ∀ ch ∈ s1, ('0' ≤ ch ∧ ch ≤ '9') ∨ ch = '.' := by
            intro ch hch
            rw [← List.take_append_drop c s1] at hch
            rcases List.mem_append.mp hch with h1 | h1
            · exact Or.inl (hpre ch h1)
            · exact ih _ _ _ h ch h1
          by_cases hp : p.length > 0
          · rw [if_pos hp] at hs1
            have hhead : s.head? = some '.' := by
              by_contra hne
              exact hsep ⟨hp, hne⟩
            cases s with
            | nil => cases hch
            | cons y ys =>
              simp only [List.head?_cons, Option.some.injEq] at hhead
              simp only [List.drop_succ_cons, List.drop_zero] at hs1
              rcases List.mem_cons.mp hch with h1 | h1
              · right; rw [h1, hhead]
              · exact hs1chars ch (hs1 ▸ h1)
          · rw [if_neg hp] at hs1
            exact hs1chars ch (hs1 ▸ hch)

theorem parseIPv4_none_of_mem (s : List Char) (ch : Char) (hmem : ch ∈ s)
    (hch : ¬ ('0' ≤ ch ∧ ch ≤ '9')) (hdot : ch ≠ '.') : parseIPv4 s = none := by
  cases h : parseIPv4 s with
  | none => rfl
  | some r =>
    rcases parseIPv4Loop_chars 4 s [] r h ch hmem with h1 | h1
    · exact absurd h1 hch
    · exact absurd h1 hdot
theorem digit_ne_colon (c : Char) (h : c.isDigit = true) : c ≠ ':' := by
  intro hc
  rw [hc] at h
  exact absurd h (by decide)

theorem parseIPv6_bracket (rest : List Char) : parseIPv6 ('[' :: rest) = none := by
  have hx : xtoi ('[' :: rest) = (0, 0, false) := by
    simp [xtoi, xtoiLoop, hexValue_bracket]
  have hloop : parseIPv6Loop 8 [] none ('[' :: rest) = none := by
    unfold parseIPv6Loop
    rw [hx]
    simp
  unfold parseIPv6
  have hlead : decide (('[' :: rest).length ≥ 2 ∧ ('[' :: rest).get? 0 = some ':'
      ∧ ('[' :: rest).get? 1 = some ':') = false := by
    simp
  rw [hlead]
  simp only [Bool.false_eq_true, false_and, if_false, hloop]

/-- A round of the loop of `parseIPv6` on a text of decimal digits alone,
before any ellipsis: the round fails, or it writes one group and leaves the
loop at the end of the text. -/
theorem parseIPv6Loop_digits (rounds : Nat) (ip : List Nat) (p : List Char)
    (hd : ∀ c ∈ p, c.isDigit = true) :
    parseIPv6Loop (rounds + 1) ip none p = none ∨
      ∃ a b, parseIPv6Loop (rounds + 1) ip none p = some (ip ++ [a, b], none, []) := by
  unfold parseIPv6Loop
  rcases hx : xtoi p with ⟨n, c, ok⟩
  simp only []
  by_cases hbad : ¬ ok = true ∨ n > 0xFFFF
  · left; rw [if_pos hbad]
  · rw [if_neg hbad]
    have hok : ok = true := by
      by_contra hne
      exact hbad (Or.inl hne)
    subst hok
    obtain ⟨hc0, hcle, hpre, hstop⟩ := xtoi_spec p n c hx
    have hc : c = p.length := by
      by_contra hne
      have hlt : c < p.length := by omega
      have hmem : p[c] ∈ p := List.getElem_mem _
      have h1 := hexValue_digit _ (hd _ hmem)
      have h2 := hstop p[c] (by simp [List.get?_eq_getElem?, List.getElem?_eq_getElem hlt])
      rw [h2] at h1
      cases h1
    have hnodot : ¬ (c < p.length ∧ p.get? c = some '.') := by
      intro h
      omega
    rw [if_neg hnodot]
    right
    refine ⟨n / 256 % 256, n % 256, ?_⟩
    have hdrop : (List.drop c p).length = 0 := by
      rw [List.length_drop]; omega
    rw [if_pos hdrop]
    rw [List.length_eq_zero.mp hdrop]

/-- The loop of `parseIPv6` on a text with a single colon, a port of decimal
digits behind it: it fails, or it is left after two groups without an ellipsis. -/
theorem parseIPv6Loop_host_port (rounds : Nat) (host p : List Char)
    (hcolon : ':' ∉ host) (hne : p ≠ []) (hd : ∀ c ∈ p, c.isDigit = true) :
    parseIPv6Loop (rounds + 2) [] none (host ++ ':' :: p) = none ∨
      ∃ ip, ip.length = 4 ∧
        parseIPv6Loop (rounds + 2) [] none (host ++ ':' :: p) = some (ip, none, []) := by
  rw [parseIPv6Loop]
  rcases hx : xtoi (host ++ ':' :: p) with ⟨n, c, ok⟩
  simp only []
  by_cases hbad : ¬ ok = true ∨ n > 0xFFFF
  · left; rw [if_pos hbad]
  · rw [if_neg hbad]
    have hok : ok = true := by
      by_contra hne
      exact hbad (Or.inl hne)
    subst hok
    obtain ⟨hc0, hcle, hpre, hstop⟩ := xtoi_spec _ n c hx
    have hc : c ≤ host.length := by
      by_contra hgt
      have hmem : ':' ∈ (host ++ ':' :: p).take c := by
        rw [List.take_append_eq_append_take]
        apply List.mem_append_right
        have : c - host.length = (c - host.length - 1) + 1 := by omega
        rw [this, List.take_succ_cons]
        exact List.mem_cons_self _ _
      have h1 := hpre ':' hmem
      rw [hexValue_colon] at h1
      cases h1
    by_cases hdot : c < (host ++ ':' :: p).length ∧ (host ++ ':' :: p).get? c = some '.'
    · left
      rw [if_pos hdot]
      simp
    · rw [if_neg hdot]
      simp only [List.nil_append]
      have hlen : (List.drop c (host ++ ':' :: p)).length ≠ 0 := by
        rw [List.length_drop, List.length_append, List.length_cons]
        omega
      rw [if_neg hlen]
      by_cases hlt : c < host.length
      · left
        have hhead : (List.drop c (host ++ ':' :: p)).head? = some host[c] := by
          rw [List.head?_drop, List.getElem?_append_left hlt, List.getElem?_eq_getElem hlt]
        have hx2 : host[c] ≠ ':' := by
          intro h
          exact hcolon (h ▸ List.getElem_mem _)
        rw [if_pos]
        left
        rw [hhead]
        intro h
        injection h with h
        exact hx2 h
      · have hceq : c = host.length := by omega
        have hdrop : List.drop c (host ++ ':' :: p) = ':' :: p := by
          rw [hceq, List.drop_left]
        rw [hdrop]
        have hp1 : ¬ ((':' :: p).head? ≠ some ':' ∨ (':' :: p).length = 1) := by
          intro h
          rcases h with h | h
          · exact h rfl
          · simp only [List.length_cons, Nat.add_left_eq_self, List.length_eq_zero] at h
            exact hne h
        rw [if_neg hp1]
        simp only [List.drop_succ_cons, List.drop_zero]
        have hp2 : ¬ p.head? = some ':' := by
          cases p with
          | nil => exact absurd rfl hne
          | cons d ds =>
            intro h
            simp only [List.head?_cons, Option.some.injEq] at h
            exact digit_ne_colon d (hd d (List.mem_cons_self _ _)) h
        rw [if_neg hp2]
        rcases parseIPv6Loop_digits rounds [n / 256 % 256, n % 256] p hd with h | ⟨a, b, h⟩
        · left; exact h
        · right
          exact ⟨_, by simp, h⟩

theorem parseIPv6_host_port (host p : List Char)
    (hcolon : ':' ∉ host) (hne : p ≠ []) (hd : ∀ c ∈ p, c.isDigit = true) :
    parseIPv6 (host ++ ':' :: p) = none := by
  have hlead : decide ((host ++ ':' :: p).length ≥ 2 ∧ (host ++ ':' :: p).get? 0 = some ':'
      ∧ (host ++ ':' :: p).get? 1 = some ':') = false := by
    rw [decide_eq_false_iff_not]
    intro h
    cases host with
    | nil =>
      cases p with
      | nil => exact hne rfl
      | cons d ds =>
        have h1 := h.2.2
        simp only [List.nil_append, List.get?_cons_succ, List.get?_cons_zero,
          Option.some.injEq] at h1
        exact digit_ne_colon d (hd d (List.mem_cons_self _ _)) h1
    | cons x xs =>
      have h1 := h.2.1
      simp only [List.cons_append, List.get?_cons_zero, Option.some.injEq] at h1
      exact hcolon (h1 ▸ List.mem_cons_self _ _)
  unfold parseIPv6
  rw [hlead]
  simp only [Bool.false_eq_true, false_and, if_false]
  rcases parseIPv6Loop_host_port 6 host p hcolon hne hd with h | ⟨ip, hip, h⟩
  · rw [h]
  · rw [h]
    simp only [List.length_nil, ne_eq, not_true_eq_false, if_false, hip]
    rfl

theorem parseIPScan_none (s : List Char) (h4 : parseIPv4 s = none) (h6 : parseIPv6 s = none) :
    ∀ rest, parseIPScan s rest = none := by
  intro rest
  induction rest with
  | nil => rfl
  | cons c cs ih =>
    unfold parseIPScan
    by_cases h1 : c = '.'
    · rw [if_pos h1, h4]
    · rw [if_neg h1]
      by_cases h2 : c = ':'
      · rw [if_pos h2, h6]
      · rw [if_neg h2, ih]

/-- The function `net.ParseIP` takes no text `net.JoinHostPort` makes of a host
and a decimal port for an address. -/
theorem ParseIP_JoinHostPort (host port : String) (hne : port.toList ≠ [])
    (hd : ∀ c ∈ port.toList, c.isDigit = true) : ParseIP (JoinHostPort host port) = none := by
  unfold ParseIP JoinHostPort
  by_cases hany : host.toList.any (fun c => c = ':') = true
  · rw [if_pos hany]
    have hl : ("[" ++ host ++ "]:" ++ port).toList
        = '[' :: (host.toList ++ ']' :: ':' :: port.toList) := by
      simp [String.toList, String.data_append]
    rw [hl]
    apply parseIPScan_none
    · exact parseIPv4_none_of_mem _ '[' (List.mem_cons_self _ _) (by decide) (by decide)
    · exact parseIPv6_bracket _
  · rw [if_neg hany]
    have hl : (host ++ ":" ++ port).toList = host.toList ++ ':' :: port.toList := by
      simp [String.toList, String.data_append]
    rw [hl]
    have hcolon : ':' ∉ host.toList := by
      intro hmem
      apply hany
      rw [List.any_eq_true]
      exact ⟨':', hmem, by simp⟩
    apply parseIPScan_none
    · exact parseIPv4_none_of_mem _ ':' (by simp) (by decide) (by decide)
    · exact parseIPv6_host_port _ _ hcolon hne hd
/-! ## `net.SplitHostPort` on the text `net.JoinHostPort` makes -/

theorem indexOfChar_none (c : Char) : ∀ (l : List Char) (i : Nat),
    c ∉ l → indexOfChar c l i = none := by
  intro l
  induction l with
  | nil => intro i _; rfl
  | cons x xs ih =>
    intro i h
    unfold indexOfChar
    have hx : ¬ x = c := fun e => h (e ▸ List.mem_cons_self _ _)
    rw [if_neg hx]
    exact ih _ (fun hm => h (List.mem_cons_of_mem _ hm))

theorem indexOfChar_not_mem (c : Char) : ∀ (l : List Char) (i : Nat),
    indexOfChar c l i = none → c ∉ l := by
  intro l
  induction l with
  | nil => intro i _ h; cases h
  | cons x xs ih =>
    intro i h hm
    unfold indexOfChar at h
    by_cases hx : x = c
    · rw [if_pos hx] at h; cases h
    · rw [if_neg hx] at h
      rcases List.mem_cons.mp hm with h1 | h1
      · exact hx h1.symm
      · exact ih _ h h1

theorem indexOfChar_append (c : Char) : ∀ (a rest : List Char) (i : Nat),
    c ∉ a → indexOfChar c (a ++ c :: rest) i = some (i + a.length) := by
  intro a
  induction a with
  | nil =>
    intro rest i _
    simp [indexOfChar]
  | cons x xs ih =>
    intro rest i h
    have hx : ¬ x = c := fun e => h (e ▸ List.mem_cons_self _ _)
    rw [List.cons_append, indexOfChar, if_neg hx, ih _ _ (fun hm => h (List.mem_cons_of_mem _ hm))]
    simp only [List.length_cons, Option.some.injEq]
    omega

theorem indexOfChar_split (c : Char) : ∀ (l : List Char) (i j : Nat),
    indexOfChar c l i = some j →
    ∃ a rest, l = a ++ c :: rest ∧ c ∉ a ∧ j = i + a.length := by
  intro l
  induction l with
  | nil => intro i j h; cases h
  | cons x xs ih =>
    intro i j h
    unfold indexOfChar at h
    by_cases hx : x = c
    · rw [if_pos hx] at h
      injection h with h
      exact ⟨[], xs, by rw [hx]; rfl, by simp, by simp [h]⟩
    · rw [if_neg hx] at h
      obtain ⟨a, rest, hl, ha, hj⟩ := ih _ _ h
      refine ⟨x :: a, rest, by rw [hl]; rfl, ?_, by simp only [List.length_cons]; omega⟩
      intro hm
      rcases List.mem_cons.mp hm with h1 | h1
      · exact hx h1.symm
      · exact ha h1

theorem lastIndexOfChar_none (c : Char) : ∀ (l : List Char) (i : Nat),
    c ∉ l → lastIndexOfChar c l i = none := by
  intro l
  induction l with
  | nil => intro i _; rfl
  | cons x xs ih =>
    intro i h
    unfold lastIndexOfChar
    have hx : ¬ x = c := fun e => h (e ▸ List.mem_cons_self _ _)
    rw [ih _ (fun hm => h (List.mem_cons_of_mem _ hm))]
    simp only [hx, if_false]

theorem lastIndexOfChar_append (c : Char) : ∀ (a rest : List Char) (i : Nat),
    c ∉ rest → lastIndexOfChar c (a ++ c :: rest) i = some (i + a.length) := by
  intro a
  induction a with
  | nil =>
    intro rest i h
    rw [List.nil_append, lastIndexOfChar, lastIndexOfChar_none c rest _ h]
    simp
  | cons x xs ih =>
    intro rest i h
    rw [List.cons_append, lastIndexOfChar, ih _ _ h]
    simp only [List.length_cons, Option.some.injEq]
    omega

theorem lastIndexOfChar_split (c : Char) : ∀ (l : List Char) (i j : Nat),
    lastIndexOfChar c l i = some j →
    ∃ a rest, l = a ++ c :: rest ∧ c ∉ rest ∧ j = i + a.length := by
  intro l
  induction l with
  | nil => intro i j h; cases h
  | cons x xs ih =>
    intro i j h
    unfold lastIndexOfChar at h
    cases hrec : lastIndexOfChar c xs (i + 1) with
    | some k =>
      rw [hrec] at h
      simp only [Option.some.injEq] at h
      obtain ⟨a, rest, hl, ha, hj⟩ := ih _ _ hrec
      exact ⟨x :: a, rest, by rw [hl]; rfl, ha, by simp only [List.length_cons]; omega⟩
    | none =>
      rw [hrec] at h
      simp only [] at h
      by_cases hx : x = c
      · rw [if_pos hx] at h
        injection h with h
        refine ⟨[], xs, by rw [hx]; rfl, ?_, by simp [h]⟩
        intro hm
        have hnone : ∀ (l : List Char) (i : Nat), lastIndexOfChar c l i = none → c ∉ l := by
          intro l
          induction l with
          | nil => intro i _ h; cases h
          | cons y ys ih2 =>
            intro i h hm
            unfold lastIndexOfChar at h
            cases hr : lastIndexOfChar c ys (i + 1) with
            | some k => rw [hr] at h; cases h
            | none =>
              rw [hr] at h
              simp only [] at h
              by_cases hy : y = c
              · rw [if_pos hy] at h; cases h
              · rcases List.mem_cons.mp hm with h1 | h1
                · exact hy h1.symm
                · exact ih2 _ hr h1
        exact hnone xs _ hrec hm
      · rw [if_neg hx] at h
        cases h

/-- What `net.SplitHostPort` returns as the host holds no bracket and is
shorter than the text. -/
theorem SplitHostPort_host (s host port : String) (h : SplitHostPort s = .ok (host, port)) :
    '[' ∉ host.toList ∧ ']' ∉ host.toList ∧ host.length < s.length := by
  unfold SplitHostPort at h
  simp only [] at h
  cases hlast : lastIndexOfChar ':' s.toList 0 with
  | none => rw [hlast] at h; cases h
  | some i =>
    rw [hlast] at h
    simp only [] at h
    obtain ⟨a, rest, hl, hrest, hi⟩ := lastIndexOfChar_split _ _ _ _ hlast
    have hia : i = a.length := by omega
    have hslen : s.length = a.length + 1 + rest.length := by
      show s.toList.length = _
      rw [hl]
      simp only [List.length_append, List.length_cons]
      omega
    by_cases hhead : s.toList.head? = some '['
    · rw [if_pos hhead] at h
      cases hclose : indexOfChar ']' s.toList 0 with
      | none => rw [hclose] at h; cases h
      | some close =>
        rw [hclose] at h
        simp only [] at h
        obtain ⟨b, rest2, hl2, hb, hc⟩ := indexOfChar_split _ _ _ _ hclose
        have hcb : close = b.length := by omega
        by_cases h1 : close + 1 = s.toList.length
        · rw [if_pos h1] at h; cases h
        · rw [if_neg h1] at h
          by_cases h2 : close + 1 = i
          · rw [if_pos h2] at h
            by_cases h3 : (indexOfChar '[' (s.toList.drop 1) 0).isSome = true
            · rw [if_pos h3] at h; cases h
            · rw [if_neg h3] at h
              by_cases h4 : (indexOfChar ']' (s.toList.drop (close + 1)) 0).isSome = true
              · rw [if_pos h4] at h; cases h
              · rw [if_neg h4] at h
                simp only [Except.ok.injEq, Prod.mk.injEq] at h
                have hhost : host.toList = b.drop 1 := by
                  rw [← h.1]
                  show (s.toList.take close).drop 1 = _
                  rw [hl2, hcb, List.take_left]
                have hnone : indexOfChar '[' (s.toList.drop 1) 0 = none := by
                  cases hx : indexOfChar '[' (s.toList.drop 1) 0 with
                  | none => rfl
                  | some k => rw [hx] at h3; exact absurd rfl h3
                have hnot := indexOfChar_not_mem _ _ _ hnone
                refine ⟨?_, ?_, ?_⟩
                · rw [hhost]
                  intro hm
                  apply hnot
                  rw [hl2]
                  cases b with
                  | nil => cases hm
                  | cons y ys =>
                    simp only [List.drop_succ_cons, List.drop_zero] at hm
                    simp only [List.cons_append, List.drop_succ_cons, List.drop_zero]
                    exact List.mem_append_left _ hm
                · rw [hhost]
                  intro hm
                  exact hb (List.mem_of_mem_drop hm)
                · have : host.length = (b.drop 1).length := by
                    show host.toList.length = _
                    rw [hhost]
                  rw [this, List.length_drop]
                  have : s.length = b.length + 1 + rest2.length := by
                    show s.toList.length = _
                    rw [hl2]
                    simp only [List.length_append, List.length_cons]
                    omega
                  omega
          · rw [if_neg h2] at h
            by_cases h5 : s.toList.get? (close + 1) = some ':'
            · rw [if_pos h5] at h; cases h
            · rw [if_neg h5] at h; cases h
    · rw [if_neg hhead] at h
      by_cases h1 : (indexOfChar ':' (s.toList.take i) 0).isSome = true
      · rw [if_pos h1] at h; cases h
      · rw [if_neg h1] at h
        by_cases h2 : (indexOfChar '[' s.toList 0).isSome = true
        · rw [if_pos h2] at h; cases h
        · rw [if_neg h2] at h
          by_cases h3 : (indexOfChar ']' s.toList 0).isSome = true
          · rw [if_pos h3] at h; cases h
          · rw [if_neg h3] at h
            simp only [Except.ok.injEq, Prod.mk.injEq] at h
            have hhost : host.toList = a := by
              rw [← h.1]
              show s.toList.take i = _
              rw [hl, hia, List.take_left]
            have hn2 : indexOfChar '[' s.toList 0 = none := by
              cases hx : indexOfChar '[' s.toList 0 with
              | none => rfl
              | some k => rw [hx] at h2; exact absurd rfl h2
            have hn3 : indexOfChar ']' s.toList 0 = none := by
              cases hx : indexOfChar ']' s.toList 0 with
              | none => rfl
              | some k => rw [hx] at h3; exact absurd rfl h3
            have hnot2 := indexOfChar_not_mem _ _ _ hn2
            have hnot3 := indexOfChar_not_mem _ _ _ hn3
            refine ⟨?_, ?_, ?_⟩
            · rw [hhost]
              intro hm
              exact hnot2 (hl ▸ List.mem_append_left _ hm)
            · rw [hhost]
              intro hm
              exact hnot3 (hl ▸ List.mem_append_left _ hm)
            · have : host.length = a.length := by
                show host.toList.length = _
                rw [hhost]
              omega

/-- A text without a colon does not split. -/
theorem SplitHostPort_no_colon (s : String) (h : ':' ∉ s.toList) :
    SplitHostPort s = .error (addrError s "missing port in address") := by
  unfold SplitHostPort
  simp only []
  rw [lastIndexOfChar_none _ _ _ h]

/-- The function `net.SplitHostPort` splits the text `net.JoinHostPort` makes
of a host without brackets and a decimal port into that host and that port. -/
theorem SplitHostPort_JoinHostPort (host port : String)
    (hopen : '[' ∉ host.toList) (hclose : ']' ∉ host.toList)
    (hd : ∀ c ∈ port.toList, c.isDigit = true) :
    SplitHostPort (JoinHostPort host port) = .ok (host, port) := by
  have hpc : ':' ∉ port.toList := fun hm => digit_ne_colon _ (hd _ hm) rfl
  have hpo : '[' ∉ port.toList := by
    intro hm
    exact absurd (hd _ hm) (by decide)
  have hpcl : ']' ∉ port.toList := by
    intro hm
    exact absurd (hd _ hm) (by decide)
  unfold JoinHostPort
  by_cases hany : host.toList.any (fun c => c = ':') = true
  · rw [if_pos hany]
    have hl : ("[" ++ host ++ "]:" ++ port).toList
        = '[' :: (host.toList ++ ']' :: ':' :: port.toList) := by
      simp [String.toList, String.data_append]
    unfold SplitHostPort
    simp only []
    rw [hl]
    have hlast : lastIndexOfChar ':' ('[' :: (host.toList ++ ']' :: ':' :: port.toList)) 0
        = some (host.toList.length + 2) := by
      have := lastIndexOfChar_append ':' ('[' :: (host.toList ++ [']'])) port.toList 0 hpc
      simp only [List.cons_append, List.append_assoc, List.singleton_append, List.length_cons,
        List.length_append, List.length_nil, Nat.zero_add, List.nil_append] at this
      rw [this]
    have hfirst : indexOfChar ']' ('[' :: (host.toList ++ ']' :: ':' :: port.toList)) 0
        = some (host.toList.length + 1) := by
      have hb : ']' ∉ '[' :: host.toList := by
        intro hm
        rcases List.mem_cons.mp hm with h1 | h1
        · exact absurd h1 (by decide)
        · exact hclose h1
      have := indexOfChar_append ']' ('[' :: host.toList) (':' :: port.toList) 0 hb
      simp only [List.cons_append, List.length_cons, Nat.zero_add] at this
      rw [this]
    rw [hlast, hfirst]
    simp only [List.head?_cons, if_true]
    have h1 : ¬ (host.toList.length + 1 + 1
        = ('[' :: (host.toList ++ ']' :: ':' :: port.toList)).length) := by
      simp only [List.length_cons, List.length_append]
      omega
    rw [if_neg h1]
    have h3 : indexOfChar '[' (List.drop 1 ('[' :: (host.toList ++ ']' :: ':' :: port.toList))) 0
        = none := by
      apply indexOfChar_none
      simp only [List.drop_succ_cons, List.drop_zero, List.mem_append, List.mem_cons]
      intro hm
      rcases hm with hm | hm | hm | hm
      · exact hopen hm
      · exact absurd hm (by decide)
      · exact absurd hm (by decide)
      · exact hpo hm
    have hdrop : List.drop (host.toList.length + 1 + 1)
        ('[' :: (host.toList ++ ']' :: ':' :: port.toList)) = ':' :: port.toList := by
      have : '[' :: (host.toList ++ ']' :: ':' :: port.toList)
          = ('[' :: (host.toList ++ [']'])) ++ ':' :: port.toList := by simp
      rw [this]
      apply List.drop_left'
      simp
    have h4 : indexOfChar ']' (List.drop (host.toList.length + 1 + 1)
        ('[' :: (host.toList ++ ']' :: ':' :: port.toList))) 0 = none := by
      rw [hdrop]
      apply indexOfChar_none
      intro hm
      rcases List.mem_cons.mp hm with h | h
      · exact absurd h (by decide)
      · exact hpcl h
    rw [h3, h4]
    simp only [Option.isSome_none, Bool.false_eq_true, if_false]
    have htake : List.drop 1 (List.take (host.toList.length + 1)
        ('[' :: (host.toList ++ ']' :: ':' :: port.toList))) = host.toList := by
      rw [List.take_succ_cons, List.drop_succ_cons, List.drop_zero, List.take_left]
    have hdrop2 : List.drop (host.toList.length + 2 + 1)
        ('[' :: (host.toList ++ ']' :: ':' :: port.toList)) = port.toList := by
      have : '[' :: (host.toList ++ ']' :: ':' :: port.toList)
          = ('[' :: (host.toList ++ [']', ':'])) ++ port.toList := by simp
      rw [this]
      apply List.drop_left'
      simp
    rw [htake, hdrop2]
    rfl
  · rw [if_neg hany]
    have hcolon : ':' ∉ host.toList := by
      intro hmem
      apply hany
      rw [List.any_eq_true]
      exact ⟨':', hmem, by simp⟩
    have hl : (host ++ ":" ++ port).toList = host.toList ++ ':' :: port.toList := by
      simp [String.toList, String.data_append]
    unfold SplitHostPort
    simp only []
    rw [hl]
    have hlast : lastIndexOfChar ':' (host.toList ++ ':' :: port.toList) 0
        = some host.toList.length := by
      rw [lastIndexOfChar_append ':' host.toList port.toList 0 hpc, Nat.zero_add]
    rw [hlast]
    simp only []
    have hhead : ¬ (host.toList ++ ':' :: port.toList).head? = some '[' := by
      cases hh : host.toList with
      | nil => simp
      | cons x xs =>
        simp only [List.cons_append, List.head?_cons, Option.some.injEq]
        intro hx
        apply hopen
        rw [hh, hx]
        exact List.mem_cons_self _ _
    rw [if_neg hhead, List.take_left]
    rw [indexOfChar_none ':' _ _ hcolon]
    have h2 : indexOfChar '[' (host.toList ++ ':' :: port.toList) 0 = none := by
      apply indexOfChar_none
      simp only [List.mem_append, List.mem_cons]
      intro hm
      rcases hm with hm | hm | hm
      · exact hopen hm
      · exact absurd hm (by decide)
      · exact hpo hm
    have h3 : indexOfChar ']' (host.toList ++ ':' :: port.toList) 0 = none := by
      apply indexOfChar_none
      simp only [List.mem_append, List.mem_cons]
      intro hm
      rcases hm with hm | hm | hm
      · exact hclose hm
      · exact absurd hm (by decide)
      · exact hpcl hm
    rw [h2, h3]
    simp only [Option.isSome_none, Bool.false_eq_true, if_false]
    have hdrop : List.drop (host.toList.length + 1) (host.toList ++ ':' :: port.toList)
        = port.toList := by
      have : host.toList ++ ':' :: port.toList = (host.toList ++ [':']) ++ port.toList := by simp
      rw [this]
      apply List.drop_left'
      simp
    rw [hdrop]
    rfl

/-- Where the host of a decoded nameserver comes from: the text is an IP
literal and is the host, the port being 53, or the text splits into the host
and a port. -/
theorem decode_host (parseIP : String → Option (List Nat))
    (splitHostPort : String → Except String (String × String)) (s : String) (n : Nameserver)
    (hdec : Nameserver.decode parseIP splitHostPort s = .ok n) :
    (parseIP s ≠ none ∧ n = { Host := s, Port := 53 }) ∨
      (parseIP s = none ∧ ∃ portStr, splitHostPort s = .ok (n.Host, portStr)) := by
  unfold Nameserver.decode at hdec
  cases hip : parseIP s with
  | some ip =>
    simp only [hip] at hdec
    injection hdec with hdec
    left
    exact ⟨by simp, hdec.symm⟩
  | none =>
    simp only [hip] at hdec
    right
    refine ⟨rfl, ?_⟩
    cases hsplit : splitHostPort s with
    | error e => simp only [hsplit] at hdec; cases hdec
    | ok pair =>
      obtain ⟨host, portStr⟩ := pair
      simp only [hsplit] at hdec
      refine ⟨portStr, ?_⟩
      by_cases hport : portStr ≠ ""
      · rw [if_pos hport] at hdec
        cases hparse : ParseUint portStr 16 with
        | error e => simp only [hparse] at hdec; cases hdec
        | ok port =>
          simp only [hparse] at hdec
          injection hdec with hdec
          rw [← hdec]
      · rw [if_neg hport] at hdec
        injection hdec with hdec
        rw [← hdec]

/-- C29, as amended. For every nameserver `n` that decoding produces, with
`net.ParseIP` and `net.SplitHostPort` as the library defines them. When the
port of `n` is neither 0 nor 53, `n.String()` is `net.JoinHostPort` of the
host and the decimal port, and decoding it yields `n` again, whatever the
host. When the port is 53 and the host is an IP literal, `n.String()` is the
bare host and decoding it yields `n` again. When the port is 0 and the host
is an IP literal, decoding `n.String()` yields `n` with port 53. When the port
is 0 or 53 and the host is no IP literal, `n.String()` is the bare host and
decoding it does not yield `n`: it fails with `missing port in address` when
the host holds no colon, and whatever it yields has a shorter host. -/
theorem nameserver_format_then_decode (s : String) (n : Nameserver)
    (hdec : Nameserver.decode ParseIP SplitHostPort s = .ok n) :
    (n.Port ≠ 0 → n.Port ≠ 53 →
      n.String = JoinHostPort n.Host (toString n.Port) ∧
      Nameserver.decode ParseIP SplitHostPort n.String = .ok n) ∧
    (n.Port = 53 → ParseIP n.Host ≠ none →
      n.String = n.Host ∧ Nameserver.decode ParseIP SplitHostPort n.String = .ok n) ∧
    (n.Port = 0 → ParseIP n.Host ≠ none →
      n.String = n.Host ∧
      Nameserver.decode ParseIP SplitHostPort n.String = .ok { Host := n.Host, Port := 53 }) ∧
    ((n.Port = 0 ∨ n.Port = 53) → ParseIP n.Host = none →
      n.String = n.Host ∧
      Nameserver.decode ParseIP SplitHostPort n.String ≠ .ok n ∧
      (':' ∉ n.Host.toList →
        Nameserver.decode ParseIP SplitHostPort n.String
          = .error (addrError n.Host "missing port in address")) ∧
      (∀ m, Nameserver.decode ParseIP SplitHostPort n.String = .ok m →
        m.Host.length < n.Host.length)) := by
  have hgen := decode_of_formatted ParseIP SplitHostPort s n hdec
  refine ⟨?_, ?_, ?_, ?_⟩
  · intro h0 h53
    obtain ⟨hstr, hround⟩ := hgen.2.1 h0 h53
    refine ⟨hstr, ?_⟩
    have hdig := toString_digits n.Port
    rcases decode_host ParseIP SplitHostPort s n hdec with ⟨_, hn⟩ | ⟨_, portStr, hsplit⟩
    · rw [hn] at h53
      exact absurd rfl h53
    · have hhost := SplitHostPort_host s n.Host portStr hsplit
      exact hround (ParseIP_JoinHostPort _ _ hdig.1 hdig.2.1)
        (SplitHostPort_JoinHostPort _ _ hhost.1 hhost.2.1 hdig.2.1)
  · intro h53 hip
    have hstr : n.String = n.Host := by
      unfold Nameserver.String
      simp only [h53, or_true, if_true]
    exact ⟨hstr, hgen.1 h53 hip⟩
  · intro h0 hip
    have hstr : n.String = n.Host := by
      unfold Nameserver.String
      simp only [h0, true_or, if_true]
    exact ⟨hstr, hgen.2.2.1 h0 hip⟩
  · intro hport hip
    obtain ⟨hstr, _⟩ := hgen.2.2.2 hport hip
    have hshort : ∀ m, Nameserver.decode ParseIP SplitHostPort n.String = .ok m →
        m.Host.length < n.Host.length := by
      intro m hm
      rw [hstr] at hm
      rcases decode_host ParseIP SplitHostPort n.Host m hm with ⟨h1, _⟩ | ⟨_, portStr, hsplit⟩
      · exact absurd hip h1
      · exact (SplitHostPort_host n.Host m.Host portStr hsplit).2.2
    refine ⟨hstr, ?_, ?_, hshort⟩
    · intro h
      exact absurd (hshort n h) (Nat.lt_irrefl _)
    · intro hcolon
      rw [hstr]
      unfold Nameserver.decode
      simp only [hip, SplitHostPort_no_colon n.Host hcolon]

/-- The witness of C29 as amended: the text `ns.example.com:5353` decodes to a
nameserver whose formatted text is the same text, which decodes to the same
nameserver, and so does `[2001:db8::2]:5353`; `8.8.8.8` decodes to host
`8.8.8.8`, port 53, whose formatted text `8.8.8.8` decodes to it again;
`8.8.8.8:0` comes back with port 53; the formatted text of what
`ns.example.com:53` decodes to does not decode; and the formatted text of what
`[example.com:80]:53` decodes to, `example.com:80`, decodes to the shorter
host `example.com`. -/
theorem nameserver_format_then_decode_witness :
    (Nameserver.decode ParseIP SplitHostPort "ns.example.com:5353"
        = .ok { Host := "ns.example.com", Port := 5353 } ∧
      Nameserver.decode ParseIP SplitHostPort
          (Nameserver.String { Host := "ns.example.com", Port := 5353 })
        = .ok { Host := "ns.example.com", Port := 5353 }) ∧
    (Nameserver.decode ParseIP SplitHostPort "[2001:db8::2]:5353"
        = .ok { Host := "2001:db8::2", Port := 5353 } ∧
      Nameserver.decode ParseIP SplitHostPort
          (Nameserver.String { Host := "2001:db8::2", Port := 5353 })
        = .ok { Host := "2001:db8::2", Port := 5353 }) ∧
    (Nameserver.decode ParseIP SplitHostPort "8.8.8.8"
        = .ok { Host := "8.8.8.8", Port := 53 } ∧
      Nameserver.decode ParseIP SplitHostPort
          (Nameserver.String { Host := "8.8.8.8", Port := 53 })
        = .ok { Host := "8.8.8.8", Port := 53 }) ∧
    (Nameserver.decode ParseIP SplitHostPort "8.8.8.8:0"
        = .ok { Host := "8.8.8.8", Port := 0 } ∧
      Nameserver.decode ParseIP SplitHostPort
          (Nameserver.String { Host := "8.8.8.8", Port := 0 })
        = .ok { Host := "8.8.8.8", Port := 53 }) ∧
    (Nameserver.decode ParseIP SplitHostPort "ns.example.com:53"
        = .ok { Host := "ns.example.com", Port := 53 } ∧
      Nameserver.decode ParseIP SplitHostPort
          (Nameserver.String { Host := "ns.example.com", Port := 53 })
        = .error (addrError "ns.example.com" "missing port in address")) ∧
    (Nameserver.decode ParseIP SplitHostPort "[example.com:80]:53"
        = .ok { Host := "example.com:80", Port := 53 } ∧
      Nameserver.decode ParseIP SplitHostPort
          (Nameserver.String { Host := "example.com:80", Port := 53 })
        ≠ .ok { Host := "example.com:80", Port := 53 }) :=
  have h1 : Nameserver.decode ParseIP SplitHostPort "ns.example.com:5353"
      = .ok { Host := "ns.example.com", Port := 5353 } := by decide
  have h2 : Nameserver.decode ParseIP SplitHostPort "[2001:db8::2]:5353"
      = .ok { Host := "2001:db8::2", Port := 5353 } := by decide
  have h3 : Nameserver.decode ParseIP SplitHostPort "8.8.8.8"
      = .ok { Host := "8.8.8.8", Port := 53 } := by decide
  have h4 : Nameserver.decode ParseIP SplitHostPort "8.8.8.8:0"
      = .ok { Host := "8.8.8.8", Port := 0 } := by decide
  have h5 : Nameserver.decode ParseIP SplitHostPort "ns.example.com:53"
      = .ok { Host := "ns.example.com", Port := 53 } := by decide
  have h6 : Nameserver.decode ParseIP SplitHostPort "[example.com:80]:53"
      = .ok { Host := "example.com:80", Port := 53 } := by decide
  ⟨⟨h1, ((nameserver_format_then_decode "ns.example.com:5353"
      { Host := "ns.example.com", Port := 5353 } h1).1 (by decide) (by decide)).2⟩,
   ⟨h2, ((nameserver_format_then_decode "[2001:db8::2]:5353"
      { Host := "2001:db8::2", Port := 5353 } h2).1 (by decide) (by decide)).2⟩,
   ⟨h3, ((nameserver_format_then_decode "8.8.8.8"
      { Host := "8.8.8.8", Port := 53 } h3).2.1 rfl (by decide)).2⟩,
   ⟨h4, ((nameserver_format_then_decode "8.8.8.8:0"
      { Host := "8.8.8.8", Port := 0 } h4).2.2.1 rfl (by decide)).2⟩,
   ⟨h5, ((nameserver_format_then_decode "ns.example.com:53"
      { Host := "ns.example.com", Port := 53 } h5).2.2.2 (Or.inr rfl) (by decide)).2.2.1
        (by decide)⟩,
   ⟨h6, ((nameserver_format_then_decode "[example.com:80]:53"
      { Host := "example.com:80", Port := 53 } h6).2.2.2 (Or.inr rfl) (by decide)).2.1⟩⟩

/-- C29, the counterexample. The text `ns.example.com:53` decodes to host
`ns.example.com`, port 53; its formatted text is the bare host
`ns.example.com`, which does not decode: a name that is no IP literal needs a
colon. The text `8.8.8.8:0` decodes to host `8.8.8.8`, port 0; its formatted
text is `8.8.8.8`, which decodes to port 53, not 0. -/
theorem nameserver_default_port_not_restored :
    Nameserver.decode ParseIP SplitHostPort "ns.example.com:53"
      = .ok { Host := "ns.example.com", Port := 53 } ∧
    Nameserver.String { Host := "ns.example.com", Port := 53 } = "ns.example.com" ∧
    Nameserver.decode ParseIP SplitHostPort
        (Nameserver.String { Host := "ns.example.com", Port := 53 })
      = .error "address ns.example.com: missing port in address" ∧
    Nameserver.decode ParseIP SplitHostPort "8.8.8.8:0"
      = .ok { Host := "8.8.8.8", Port := 0 } ∧
    Nameserver.decode ParseIP SplitHostPort
        (Nameserver.String { Host := "8.8.8.8", Port := 0 })
      = .ok { Host := "8.8.8.8", Port := 53 } ∧
    ({ Host := "8.8.8.8", Port := 53 } : Nameserver) ≠ { Host := "8.8.8.8", Port := 0 } := by
  refine ⟨by decide, by decide, by decide, by decide, by decide, by decide⟩

/-! ## The sysctl backend: what the wrapper reports -/

theorem sysctl_none (reply : SysctlReply) : Darwin.sysctl reply = none := by
  unfold Darwin.sysctl
  rw [if_neg (Nat.not_lt_zero _)]

theorem dumpLoop_first (kernel : SysctlKernel) (done : Nat → Option String)
    (fuel i needed : Nat) :
    Darwin.dumpLoop kernel done (fuel + 1) i needed
      = match done i with
        | some e => some (.err e)
        | none =>
          if needed = 0 then some (.fault "index out of range [0] with length 0")
          else some (.ok ((kernel.dump i needed).data.take needed
            ++ List.replicate (needed - (kernel.dump i needed).data.length) 0)) := by
  unfold Darwin.dumpLoop
  cases done i with
  | some e => rfl
  | none =>
    by_cases h : needed = 0
    · simp only [h, if_true]
    · simp only [h, if_false, sysctl_none]

/-- C22. The wrapper `sysctl` returns no error for any reply of the kernel,
whatever the error number, since its test `ep < 0` is never true of the
unsigned `ep`. So when the size query fails with `EPERM`, `Table.Poll` returns
no error and no entry; when the dump fails with `ENOMEM`, the loop is left
after the first attempt and the walk runs over the buffer of zeros. For every
kernel, `Table.Poll` returns an error only when the context is done before the
first attempt, and the loop never makes a second attempt: any number of
attempts allowed gives what one attempt gives. -/
theorem sysctl_never_reports_errno :
    (∀ reply : SysctlReply, Darwin.sysctl reply = none) ∧
    Darwin.sysctl { ep := 12, oldlen := 16, data := [] } = none ∧
    Darwin.Poll kernelQueryFails (fun _ => none) walkNothing 1 = some (.ok []) ∧
    (∀ (walk : List Nat → Option (List Entry)) (fuel : Nat),
      Darwin.Poll kernelDumpFails (fun _ => none) walk (fuel + 1)
        = match walk [0, 0, 0, 0, 0, 0, 0, 0] with
          | none => none
          | some entries => some (.ok entries)) ∧
    (∀ (kernel : SysctlKernel) (done : Nat → Option String)
        (walk : List Nat → Option (List Entry)) (fuel : Nat) (e : String),
      Darwin.Poll kernel done walk fuel = some (.err e) → done 0 = some e) ∧
    (∀ (kernel : SysctlKernel) (done : Nat → Option String)
        (walk : List Nat → Option (List Entry)) (fuel : Nat),
      Darwin.Poll kernel done walk (fuel + 1) = Darwin.Poll kernel done walk 1) := by
  refine ⟨sysctl_none, by decide, by decide, ?_, ?_, ?_⟩
  · intro walk fuel
    unfold Darwin.Poll
    rw [sysctl_none, dumpLoop_first]
    rfl
  · intro kernel done walk fuel e h
    unfold Darwin.Poll at h
    rw [sysctl_none] at h
    simp only at h
    by_cases h0 : kernel.query.oldlen = 0
    · rw [if_pos h0] at h
      cases h
    · rw [if_neg h0] at h
      cases fuel with
      | zero =>
        simp only [Darwin.dumpLoop] at h
        cases h
      | succ fuel =>
        rw [dumpLoop_first] at h
        cases hd : done 0 with
        | some e1 =>
          simp only [hd] at h
          injection h with h
          injection h with h
          rw [h]
        | none =>
          simp only [hd, h0, if_false] at h
          cases hw : walk ((kernel.dump 0 kernel.query.oldlen).data.take kernel.query.oldlen
              ++ List.replicate
                (kernel.query.oldlen - (kernel.dump 0 kernel.query.oldlen).data.length) 0) with
          | none => simp only [hw] at h; cases h
          | some entries => simp only [hw] at h; cases h
  · intro kernel done walk fuel
    unfold Darwin.Poll
    rw [dumpLoop_first, dumpLoop_first]

/-! ## The netlink backend: which headers `Poll` checks -/

theorem le16_lt (bytes : List Nat) (i : Nat) : le16 bytes i < 65536 := by
  unfold le16
  omega

theorem le32_lt (bytes : List Nat) (i : Nat) : le32 bytes i < 4294967296 := by
  unfold le32
  have h1 := le16_lt bytes i
  have h2 := le16_lt bytes (i + 2)
  omega

theorem le16_append (a b : List Nat) (i : Nat) (h : i + 2 ≤ a.length) :
    le16 (a ++ b) i = le16 a i := by
  unfold le16
  rw [List.getD_append a b 0 i (by omega), List.getD_append a b 0 (i + 1) (by omega)]

theorem le32_append (a b : List Nat) (i : Nat) (h : i + 4 ≤ a.length) :
    le32 (a ++ b) i = le32 a i := by
  unfold le32
  rw [le16_append a b i (by omega), le16_append a b (i + 2) (by omega)]

theorem nlMsgAlign_ge (x : Nat) (h16 : 16 ≤ x) (hx : x < 4294967296) :
    16 ≤ nlMsgAlign (nlMsgAlign x) := by
  unfold nlMsgAlign
  omega

theorem readLoop_ok_cons (received : List Nat) (rest : List (Except String (List Nat)))
    (tmpBuf buf : List Nat) (h8 : 8 ≤ received.length) (h512 : received.length ≤ 512) :
    readLoop (.ok received :: rest) tmpBuf buf
      = if ¬ nlMsgOK (le32 received 0) ((buf ++ received).length : Int) then
          .error (.returned (some errBadNlMsg))
        else if le16 received 4 = NLMSG_ERROR then .error (.returned (some errNlMsgErr))
        else if le16 received 4 = NLMSG_DONE then .ok (buf ++ received)
        else if le16 received 6 &&& NLM_F_MULTI = 0 then .ok (buf ++ received)
        else readLoop rest (received ++ tmpBuf.drop received.length) (buf ++ received) := by
  rw [readLoop]
  have htake : received.take 512 = received := List.take_of_length_le h512
  simp only [htake]
  rw [le32_append received _ 0 (by omega), le16_append received _ 4 (by omega),
    le16_append received _ 6 (by omega)]

theorem readLoop_earlier (earlier : List (List Nat)) :
    ∀ (tail : List (Except String (List Nat))) (tmpBuf buf : List Nat),
      allReadOn earlier buf.length = true →
      ∃ tmpBuf1, readLoop (earlier.map Except.ok ++ tail) tmpBuf buf
        = readLoop tail tmpBuf1 (buf ++ earlier.flatten) := by
  induction earlier with
  | nil =>
    intro tail tmpBuf buf _
    exact ⟨tmpBuf, by simp⟩
  | cons received rest ih =>
    intro tail tmpBuf buf hall
    simp only [allReadOn, readsOn, Bool.and_eq_true, decide_eq_true_eq] at hall
    obtain ⟨⟨⟨⟨h8, h512⟩, hok⟩, hne, hdone, hmulti⟩, hrest⟩ := hall
    have hlen : (buf ++ received).length = buf.length + received.length := List.length_append _ _
    obtain ⟨tmpBuf1, h1⟩ := ih tail (received ++ tmpBuf.drop received.length) (buf ++ received)
      (by rw [hlen]; exact hrest)
    refine ⟨tmpBuf1, ?_⟩
    rw [List.map_cons, List.cons_append, readLoop_ok_cons received _ tmpBuf buf h8 h512, hlen]
    simp only [hok, not_true_eq_false, if_false, hne, hdone, hmulti]
    rw [h1]
    simp

theorem parseMessage_next (b : NlBuffer) (off : Nat) (bufLen : Int) (emitted : Option NeighEntry)
    (off1 : Nat) (bufLen1 : Int) (h : parseMessage b off bufLen = .next emitted off1 bufLen1) :
    off + 24 ≤ b.cap ∧ off + 16 ≤ off1 := by
  unfold parseMessage at h
  by_cases h1 : intToUintptr bufLen < SizeofNlMsghdr
  · rw [if_pos h1] at h; cases h
  · rw [if_neg h1] at h
    by_cases h2 : ¬ b.holds off 4 = true
    · rw [if_pos h2] at h; cases h
    · rw [if_neg h2] at h
      by_cases h3 : ¬ nlMsgOK (le32 b.data off) bufLen = true
      · rw [if_pos h3] at h; cases h
      · rw [if_neg h3] at h
        by_cases h4 : ¬ b.holds off 6 = true
        · rw [if_pos h4] at h; cases h
        · rw [if_neg h4] at h
          by_cases h5 : le16 b.data (off + 4) = NLMSG_ERROR
          · rw [if_pos h5] at h; cases h
          · rw [if_neg h5] at h
            by_cases h6 : ¬ b.holds off 24 = true
            · rw [if_pos h6] at h; cases h
            · rw [if_neg h6] at h
              simp only at h
              have hcap : off + 24 ≤ b.cap := by
                have := not_not.mp h6
                simpa [NlBuffer.holds] using this
              have hok := not_not.mp h3
              simp only [nlMsgOK, decide_eq_true_eq, SizeofNlMsghdr] at hok
              have halign := nlMsgAlign_ge (le32 b.data off) hok.2.1 (le32_lt _ _)
              cases hattr : attrLoop b (b.cap + 1) (off + 28)
                  ((le32 b.data off + 2 ^ 64 - 28) % 2 ^ 64)
                  { InterfaceIndex := int32OfBits (le32 b.data (off + 20)),
                    Family := b.data.getD (off + 16) 0 % 256,
                    DestinationAddr := none, LinkLayerAddr := none } with
              | error ending => rw [hattr] at h; cases h
              | ok entry =>
                rw [hattr] at h
                injection h with _ hoff _
                exact ⟨hcap, by omega⟩

theorem parseLoop_reaches (b : NlBuffer) (off : Nat) (bufLen : Int) (entries : List NeighEntry)
    (h : ParseReaches b off bufLen entries) :
    ∃ k, k ≤ b.cap ∧ 16 * k ≤ off ∧
      ∀ fuel, parseLoop b (fuel + k) 0 (b.data.length : Int) []
        = parseLoop b fuel off bufLen entries := by
  induction h with
  | start => exact ⟨0, Nat.zero_le _, Nat.le_refl _, fun _ => rfl⟩
  | skip off bufLen entries off1 bufLen1 _ hstep ih =>
    obtain ⟨k, hk, hoff, hrun⟩ := ih
    obtain ⟨hcap, hnext⟩ := parseMessage_next b off bufLen none off1 bufLen1 hstep
    refine ⟨k + 1, by omega, by omega, ?_⟩
    intro fuel
    have := hrun (fuel + 1)
    rw [show fuel + (k + 1) = fuel + 1 + k from by omega, this]
    rw [parseLoop, hstep]
  | emit off bufLen entries entry off1 bufLen1 _ hstep ih =>
    obtain ⟨k, hk, hoff, hrun⟩ := ih
    obtain ⟨hcap, hnext⟩ := parseMessage_next b off bufLen (some entry) off1 bufLen1 hstep
    refine ⟨k + 1, by omega, by omega, ?_⟩
    intro fuel
    have := hrun (fuel + 1)
    rw [show fuel + (k + 1) = fuel + 1 + k from by omega, this]
    rw [parseLoop, hstep]

theorem parseLoop_stops (b : NlBuffer) (off : Nat) (bufLen : Int) (entries : List NeighEntry)
    (ending : PollEnd) (h : ParseReaches b off bufLen entries)
    (hstop : parseMessage b off bufLen = .stop ending) :
    parseLoop b (b.cap + 1) 0 (b.data.length : Int) [] = (entries, ending) := by
  obtain ⟨k, hk, _, hrun⟩ := parseLoop_reaches b off bufLen entries h
  have := hrun (b.cap - k + 1)
  rw [show b.cap - k + 1 + k = b.cap + 1 from by omega] at this
  rw [this, parseLoop, hstop]

theorem parseMessage_short (b : NlBuffer) (off : Nat) (bufLen : Int)
    (hcap : off + 4 ≤ b.cap) (hshort : le32 b.data off < 16) :
    parseMessage b off bufLen = .stop (.returned none) := by
  unfold parseMessage
  by_cases h1 : intToUintptr bufLen < SizeofNlMsghdr
  · rw [if_pos h1]
  · rw [if_neg h1]
    have h2 : ¬ ¬ b.holds off 4 = true := by
      simp only [NlBuffer.holds, decide_eq_true_eq]; omega
    have h3 : ¬ nlMsgOK (le32 b.data off) bufLen = true := by
      simp only [nlMsgOK, decide_eq_true_eq, SizeofNlMsghdr]
      omega
    rw [if_neg h2, if_pos h3]

theorem parseMessage_error (b : NlBuffer) (off : Nat) (bufLen : Int)
    (hcap : off + 6 ≤ b.cap) (hok : nlMsgOK (le32 b.data off) bufLen = true)
    (htype : le16 b.data (off + 4) = NLMSG_ERROR) :
    parseMessage b off bufLen = .stop (.returned (some errNlMsgErr)) := by
  unfold parseMessage
  have h1 : ¬ intToUintptr bufLen < SizeofNlMsghdr := by
    simp only [nlMsgOK, decide_eq_true_eq] at hok
    omega
  have h2 : ¬ ¬ b.holds off 4 = true := by
    simp only [NlBuffer.holds, decide_eq_true_eq]; omega
  have h4 : ¬ ¬ b.holds off 6 = true := by
    simp only [NlBuffer.holds, decide_eq_true_eq]; omega
  rw [if_neg h1, if_neg h2, if_neg (not_not.mpr hok), if_neg h4, if_pos htype]

theorem poll_of_reads (k : Netlink) (hsocket : k.socket = none) (hbind : k.bind = none)
    (hwrite : k.write = none) :
    Linux.Poll k
      = match readLoop k.reads (List.replicate 512 0) [] with
        | .error ending => ([], ending)
        | .ok data =>
          parseLoop { data := data, cap := capacityOf k data } (capacityOf k data + 1) 0
            data.length [] := by
  unfold Linux.Poll
  rw [hsocket, hbind, hwrite]

/-- C25, as amended. For every netlink socket whose setup succeeds. When a
datagram of 8 to 512 octets is read after datagrams that each let the read
loop go on, and its first header has a length field below 16, `Poll` fails
with `errBadNlMsg`; when its first header passes `nlMsgOK` and has type
`NLMSG_ERROR`, `Poll` fails with `errNlMsgErr`; no entry is passed to the
callback in either case. When the read loop ends with the reply in `buf` and
the parse loop reaches a header, the headers before it having been parsed as
messages: if its length field is below 16 the parse loop ends there and
`Poll` returns no error, with the entries passed so far; if it passes
`nlMsgOK` and has type `NLMSG_ERROR`, `Poll` fails with `errNlMsgErr`. -/
theorem poll_checks_first_and_reached_headers (k : Netlink)
    (hsocket : k.socket = none) (hbind : k.bind = none) (hwrite : k.write = none) :
    (∀ (earlier : List (List Nat)) (received : List Nat)
        (rest : List (Except String (List Nat))),
      k.reads = earlier.map Except.ok ++ .ok received :: rest →
      allReadOn earlier 0 = true → 8 ≤ received.length → received.length ≤ 512 →
      (le32 received 0 < 16 → Linux.Poll k = ([], .returned (some errBadNlMsg))) ∧
      (nlMsgOK (le32 received 0) ((earlier.flatten ++ received).length : Int) = true →
        le16 received 4 = NLMSG_ERROR →
        Linux.Poll k = ([], .returned (some errNlMsgErr)))) ∧
    (∀ (data : List Nat) (off : Nat) (bufLen : Int) (entries : List NeighEntry),
      readLoop k.reads (List.replicate 512 0) [] = .ok data →
      ParseReaches { data := data, cap := capacityOf k data } off bufLen entries →
      (off + 4 ≤ capacityOf k data → le32 data off < 16 →
        Linux.Poll k = (entries, .returned none)) ∧
      (off + 6 ≤ capacityOf k data → nlMsgOK (le32 data off) bufLen = true →
        le16 data (off + 4) = NLMSG_ERROR →
        Linux.Poll k = (entries, .returned (some errNlMsgErr)))) := by
  refine ⟨?_, ?_⟩
  · intro earlier received rest hreads hall h8 h512
    obtain ⟨tmpBuf1, h1⟩ := readLoop_earlier earlier (.ok received :: rest)
      (List.replicate 512 0) [] hall
    rw [poll_of_reads k hsocket hbind hwrite, hreads, h1,
      readLoop_ok_cons received rest tmpBuf1 _ h8 h512]
    refine ⟨?_, ?_⟩
    · intro hshort
      have hbad : ¬ nlMsgOK (le32 received 0)
          (([] ++ earlier.flatten ++ received).length : Int) = true := by
        simp only [nlMsgOK, decide_eq_true_eq, SizeofNlMsghdr]
        omega
      rw [if_pos hbad]
    · intro hok htype
      have hok1 : ¬ ¬ nlMsgOK (le32 received 0)
          (([] ++ earlier.flatten ++ received).length : Int) = true := by
        rw [List.nil_append]
        exact not_not.mpr hok
      rw [if_neg hok1, if_pos htype]
  · intro data off bufLen entries hread hreach
    rw [poll_of_reads k hsocket hbind hwrite, hread]
    refine ⟨?_, ?_⟩
    · intro hcap hshort
      exact parseLoop_stops _ off bufLen entries _ hreach
        (parseMessage_short _ off bufLen hcap hshort)
    · intro hcap hok htype
      exact parseLoop_stops _ off bufLen entries _ hreach
        (parseMessage_error _ off bufLen hcap hok htype)

/-- The witness of C25 as amended: a reply whose first datagram holds a
neighbour message and then an `NLMSG_ERROR` message. The parse loop passes the
neighbour to the callback, reaches the error message at position 48, and
`Poll` fails with `errNlMsgErr`. -/
theorem poll_checks_first_and_reached_headers_witness :
    (netlinkOf [neighbourMessage ++ errorMessage, doneMessage]).socket = none ∧
    readLoop (netlinkOf [neighbourMessage ++ errorMessage, doneMessage]).reads
        (List.replicate 512 0) []
      = .ok (neighbourMessage ++ errorMessage ++ doneMessage) ∧
    Linux.Poll (netlinkOf [neighbourMessage ++ errorMessage, doneMessage])
      = ([neighbourEntry], .returned (some errNlMsgErr)) :=
  have hread : readLoop (netlinkOf [neighbourMessage ++ errorMessage, doneMessage]).reads
      (List.replicate 512 0) [] = .ok (neighbourMessage ++ errorMessage ++ doneMessage) := by
    decide
  have hstep : parseMessage
      { data := neighbourMessage ++ errorMessage ++ doneMessage,
        cap := capacityOf (netlinkOf [neighbourMessage ++ errorMessage, doneMessage])
          (neighbourMessage ++ errorMessage ++ doneMessage) }
      0 ((neighbourMessage ++ errorMessage ++ doneMessage).length : Int)
      = .next (some neighbourEntry) 48 56 := by decide
  ⟨rfl, hread,
    ((poll_checks_first_and_reached_headers
      (netlinkOf [neighbourMessage ++ errorMessage, doneMessage]) rfl rfl rfl).2
      (neighbourMessage ++ errorMessage ++ doneMessage) 48 56 [neighbourEntry] hread
      (ParseReaches.emit 0 _ [] neighbourEntry 48 56 ParseReaches.start hstep)).2
      (by decide) (by decide) (by decide)⟩

/-- C25, the counterexample. The reply is a datagram holding a neighbour
message followed by a header whose length field is 8, then a datagram holding
`NLMSG_DONE`. `Poll` does not fail with `errBadNlMsg`: it passes the neighbour
to the callback and returns no error. With an `NLMSG_ERROR` message after the
short header, `Poll` returns no error either. -/
theorem short_header_in_mid_stream_is_no_error :
    le32 shortHeader 0 = 8 ∧
    Linux.Poll (netlinkOf [neighbourMessage ++ shortHeader, doneMessage])
      = ([neighbourEntry], .returned none) ∧
    le16 errorMessage 4 = NLMSG_ERROR ∧
    Linux.Poll (netlinkOf [neighbourMessage ++ shortHeader ++ errorMessage, doneMessage])
      = ([neighbourEntry], .returned none) := by
  refine ⟨by decide, by decide, by decide, by decide⟩

/-! ## The directory store: cache keys when every create is a first create -/

theorem lookup_take {β : Type} (l : List (String × β)) (n : Nat) (k : String) (v : β)
    (h : (l.take n).lookup k = some v) : l.lookup k = some v := by
  induction l generalizing n with
  | nil => simp at h
  | cons e es ih =>
    obtain ⟨k1, v1⟩ := e
    cases n with
    | zero => simp at h
    | succ n =>
      rw [List.take_succ_cons, lookup_cons_ite] at h
      rw [lookup_cons_ite]
      by_cases hk : k = k1
      · simp only [hk, if_true] at h ⊢
        exact h
      · simp only [hk, if_false] at h ⊢
        exact ih n h

theorem cache_Add_Get_isSome (c : ARCCache) (k key : String) (v : CacheValue)
    (h : ((c.Add k v).Get key).isSome) : key = k ∨ (c.Get key).isSome := by
  obtain ⟨x, hx⟩ := Option.isSome_iff_exists.mp h
  unfold ARCCache.Add ARCCache.Get at hx
  have h1 := lookup_take _ _ _ _ hx
  rw [lookup_cons_ite] at h1
  by_cases hk : key = k
  · exact Or.inl hk
  · right
    simp only [hk, if_false, lookup_mapDelete] at h1
    unfold ARCCache.Get
    rw [h1]
    rfl

theorem getDocument_store (fs : FileSystem) (dec : Decoders) (s : DirStore) (path : String) :
    (s.getDocument fs dec path).store = s ∨
    ∃ v, (s.getDocument fs dec path).store
      = { s with documentCache := s.documentCache.Add path v } := by
  unfold DirStore.getDocument
  have hread : ∀ (r : Ret (Option Document)),
      (match r with
        | .err e => ({ store := s, reads := [path], ret := .err e } : Call Document)
        | .fault reason => { store := s, reads := [path], ret := .fault reason }
        | .ok none =>
          { store := s, reads := [path],
            ret := .fault "invalid memory address or nil pointer dereference" }
        | .ok (some file) =>
          { store :=
              { s with documentCache := s.documentCache.Add path (.metadata file.Contents) },
            reads := [path], ret := .ok file }).store = s ∨
      ∃ v, (match r with
        | .err e => ({ store := s, reads := [path], ret := .err e } : Call Document)
        | .fault reason => { store := s, reads := [path], ret := .fault reason }
        | .ok none =>
          { store := s, reads := [path],
            ret := .fault "invalid memory address or nil pointer dereference" }
        | .ok (some file) =>
          { store :=
              { s with documentCache := s.documentCache.Add path (.metadata file.Contents) },
            reads := [path], ret := .ok file }).store
        = { s with documentCache := s.documentCache.Add path v } := by
    intro r
    cases r with
    | err e => exact Or.inl rfl
    | fault reason => exact Or.inl rfl
    | ok file =>
      cases file with
      | none => exact Or.inl rfl
      | some file => exact Or.inr ⟨_, rfl⟩
  cases s.documentCache.Get path with
  | none => exact hread _
  | some v =>
    cases v with
    | document m => exact Or.inl rfl
    | metadata m => exact hread _

theorem getDocument_keeps (fs : FileSystem) (dec : Decoders) (s : DirStore) (path : String)
    (hrec : BindingsRecorded s) (hkeys : CacheKeysIndexed s)
    (hpath : (s.dataLinkAddrsForFilePath.lookup path).isSome) :
    BindingsRecorded (s.getDocument fs dec path).store ∧
    CacheKeysIndexed (s.getDocument fs dec path).store ∧
    (s.getDocument fs dec path).store.dataLinkAddrsForFilePath = s.dataLinkAddrsForFilePath ∧
    (s.getDocument fs dec path).store.filePathForDataLinkAddrAndTypeURI
      = s.filePathForDataLinkAddrAndTypeURI := by
  rcases getDocument_store fs dec s path with h | ⟨v, h⟩
  · rw [h]
    exact ⟨hrec, hkeys, rfl, rfl⟩
  · rw [h]
    refine ⟨hrec, ?_, rfl, rfl⟩
    intro key hkey
    rcases cache_Add_Get_isSome s.documentCache path key v hkey with hk | hk
    · rw [hk]
      exact hpath
    · exact hkeys key hk

theorem loadAll_keeps (fs : FileSystem) (dec : Decoders) (paths : List String) :
    ∀ (s : DirStore) (reads : List String) (ret : List Document),
      BindingsRecorded s → CacheKeysIndexed s →
      (∀ p ∈ paths, (s.dataLinkAddrsForFilePath.lookup p).isSome) →
      BindingsRecorded (DirStore.loadAll fs dec paths s reads ret).store ∧
      CacheKeysIndexed (DirStore.loadAll fs dec paths s reads ret).store := by
  induction paths with
  | nil =>
    intro s reads ret hrec hkeys _
    exact ⟨hrec, hkeys⟩
  | cons p rest ih =>
    intro s reads ret hrec hkeys hpaths
    obtain ⟨h1, h2, h3, _⟩ := getDocument_keeps fs dec s p hrec hkeys
      (hpaths p (List.mem_cons_self _ _))
    have hrest : ∀ q ∈ rest,
        ((s.getDocument fs dec p).store.dataLinkAddrsForFilePath.lookup q).isSome := by
      intro q hq
      rw [h3]
      exact hpaths q (List.mem_cons_of_mem _ hq)
    rw [DirStore.loadAll]
    cases (s.getDocument fs dec p).ret with
    | ok d => exact ih _ _ _ h1 h2 hrest
    | err e => exact ih _ _ _ h1 h2 hrest
    | fault reason => exact ⟨h1, h2⟩

theorem cache_Remove_Get_isSome (c : ARCCache) (a key : String)
    (h : ((c.Remove a).Get key).isSome) : key ≠ a ∧ (c.Get key).isSome := by
  by_cases hk : key = a
  · rw [hk, cache_Remove_Get] at h
    cases h
  · rw [cache_Remove_Get_ne c a key hk] at h
    exact ⟨hk, h⟩

theorem foldl_add_cache_isSome (L : List String) (s : DirStore) (path S key : String)
    (h : ((L.foldl
        (fun s a =>
          { s.bind path S a with documentCache := (s.bind path S a).documentCache.Remove a })
        s).documentCache.Get key).isSome) :
    (s.documentCache.Get key).isSome := by
  induction L generalizing s with
  | nil => exact h
  | cons a as ih =>
    rw [List.foldl_cons] at h
    exact (cache_Remove_Get_isSome _ a key (ih _ h)).2

theorem lookup_mapSet_isSome {β : Type} (m : List (String × β)) (k key : String) (v : β)
    (h : key = k ∨ (m.lookup key).isSome) : ((mapSet m k v).lookup key).isSome := by
  rw [lookup_mapSet]
  by_cases hk : key = k
  · simp only [hk, if_true]
    rfl
  · simp only [hk, if_false]
    rcases h with h | h
    · exact absurd h hk
    · exact h

theorem didAddFile_cacheKeys (fs : FileSystem) (dec : Decoders) (s : DirStore) (path : String)
    (h : CacheKeysIndexed s) : CacheKeysIndexed (s.didAddFile fs dec path).store := by
  unfold DirStore.didAddFile
  cases hread : readDocumentFromFile fs dec path with
  | err e => exact h
  | fault reason => exact h
  | ok file =>
    cases file with
    | none => exact h
    | some file =>
      cases hpayload : file.Contents with
      | nil => simp only [hpayload]; exact h
      | droplet d =>
        simp only [hpayload]
        intro key hkey
        have hold := h key (foldl_add_cache_isSome _ s path file.Kind key hkey)
        show ((mapSet _ path _).lookup key).isSome
        rw [foldl_add_paths]
        exact lookup_mapSet_isSome _ path key _ (Or.inr hold)

theorem didChangeFile_cacheKeys (fs : FileSystem) (dec : Decoders) (s : DirStore)
    (path : String) (h : CacheKeysIndexed s) :
    CacheKeysIndexed (s.didChangeFile fs dec path).store := by
  have hforget : CacheKeysIndexed
      (DirStore.forget { s with documentCache := s.documentCache.Remove path } path) := by
    intro key hkey
    rw [forget_cache] at hkey
    obtain ⟨hne, hold⟩ := cache_Remove_Get_isSome _ path key hkey
    rw [forget_paths_ne _ path key hne]
    exact h key hold
  unfold DirStore.didChangeFile
  cases hread : readDocumentFromFile fs dec path with
  | err e => exact h
  | fault reason => exact h
  | ok file =>
    cases file with
    | none => exact hforget
    | some file =>
      cases hpayload : file.Contents with
      | nil => simp only [hpayload]; exact hforget
      | droplet d =>
        simp only [hpayload]
        intro key hkey
        have hkey1 : ((DirStore.forget { s with documentCache := s.documentCache.Remove path }
            path).documentCache.Get key).isSome := by
          rw [← foldl_bind_cache (d.DataLinkAddrs.map CanonicalString) _ path file.Kind]
          exact hkey
        show ((mapSet _ path _).lookup key).isSome
        rw [foldl_bind_paths]
        exact lookup_mapSet_isSome _ path key _ (Or.inr (hforget key hkey1))

theorem didRemoveFile_cacheKeys (s : DirStore) (path : String) (h : CacheKeysIndexed s) :
    CacheKeysIndexed (s.didRemoveFile path).store := by
  intro key hkey
  have hkey1 : (((s.forget path).documentCache.Remove path).Get key).isSome := hkey
  obtain ⟨hne, hold⟩ := cache_Remove_Get_isSome _ path key hkey1
  rw [forget_cache] at hold
  show ((s.forget path).dataLinkAddrsForFilePath.lookup key).isSome
  rw [forget_paths_ne _ path key hne]
  exact h key hold

theorem first_creates_keep_cache_keys (cacheSize : Nat) (s : DirStore)
    (h : ReachableWithLookupsByFirstCreates cacheSize s) :
    BindingsRecorded s ∧ CacheKeysIndexed s := by
  induction h with
  | empty =>
    refine ⟨empty_recorded cacheSize, ?_⟩
    intro key hkey
    cases hkey
  | event s fs dec event _ hfresh _ ih =>
    obtain ⟨hrec, hkeys⟩ := ih
    unfold DirStore.handleEvent
    by_cases hc : event.Op.Create = true
    · simp only [hc, if_true]
      exact ⟨didAddFile_recorded fs dec s event.Name hrec (hfresh hc),
        didAddFile_cacheKeys fs dec s event.Name hkeys⟩
    · simp only [hc, if_false]
      by_cases hw : event.Op.Chmod = true ∨ event.Op.Write = true
      · simp only [hw, if_true]
        exact ⟨didChangeFile_recorded fs dec s event.Name hrec,
          didChangeFile_cacheKeys fs dec s event.Name hkeys⟩
      · simp only [hw, if_false]
        by_cases hr : event.Op.Rename = true ∨ event.Op.Remove = true
        · simp only [hr, if_true]
          exact ⟨didRemoveFile_recorded s event.Name hrec,
            didRemoveFile_cacheKeys s event.Name hkeys⟩
        · simp only [hr, if_false]
          exact ⟨hrec, hkeys⟩
  | getDocument s fs dec M S _ ih =>
    obtain ⟨hrec, hkeys⟩ := ih
    unfold DirStore.GetDocument
    cases hres : s.resolve M S with
    | none => exact ⟨hrec, hkeys⟩
    | some path =>
      obtain ⟨addrs, haddrs, _⟩ := hrec M S path hres
      have := getDocument_keeps fs dec s path hrec hkeys (by rw [haddrs]; rfl)
      exact ⟨this.1, this.2.1⟩
  | listDocuments s fs dec order M _ hperm ih =>
    obtain ⟨hrec, hkeys⟩ := ih
    unfold DirStore.ListDocuments
    cases s.ListSupportedTypeURIs M with
    | error e => exact ⟨hrec, hkeys⟩
    | ok typeURIs =>
      cases hinner : s.filePathForDataLinkAddrAndTypeURI.lookup M with
      | none => exact ⟨hrec, hkeys⟩
      | some inner =>
        simp only
        apply loadAll_keeps fs dec _ s [] [] hrec hkeys
        intro p hp
        have hp1 := (hperm _).mem_iff.mp hp
        rw [List.mem_dedup, List.mem_filterMap] at hp1
        obtain ⟨S, _, hS⟩ := hp1
        have hres : s.resolve M S = some p := by
          unfold DirStore.resolve
          rw [hinner]
          exact hS
        obtain ⟨addrs, haddrs, _⟩ := hrec M S p hres
        rw [haddrs]
        rfl

end Cleta
